import Mathlib

/-!
# DEG ledger recorder: signer, configuration and dispatcher

A shallow embedding of `plugins/degledgerrecorder` (`signer.go`, `config.go`,
`recorder.go`) together with the properties established about it.

Conventions of the embedding

* Go `int`, `int64` and `time.Duration` values are integers; products that Go
  computes in 64 bits are wrapped with `wrapInt64`.
* A function returning `(T, error)` becomes `Except String T` (the string is
  the error message); where the Go code can also panic the error type is
  `GoError`.
* Library functions the package calls (`encoding/base64`, `blake2b`,
  `crypto/ed25519`) are the fields of `Primitives`, over which the general
  statements are universally quantified.
* `time.Now()` and `os.Getenv` are inputs: the clock reading and the
  environment are arguments of the functions that read them.
* For what a call does to the signer it shares with other goroutines, the
  methods of the signer are embedded a second time as programs over the
  clock, the fields of the receiver and the random source (`Prog`), whose
  operations a schedule interleaves.
* The goroutines of the dispatcher and the two statements of `Close` are
  events of an interleaving semantics (`Dispatcher.step`).
-/

namespace DEGLedgerRecorder

/-! ## Go values -/

deriving instance DecidableEq for Except

/-- Go `[]byte`. -/
abbrev Bytes := List UInt8

/-- What a Go call yields when it does not return normally: an `error`
value, or a run-time panic. -/
inductive GoError where
  | error (msg : String)
  | panic (msg : String)
  deriving DecidableEq, Repr

/-- Two's-complement wrap-around of a mathematical integer to Go `int64`. -/
def wrapInt64 (n : Int) : Int :=
  (n + 9223372036854775808) % 18446744073709551616 - 9223372036854775808

/-- Go `[]byte(s)`: the UTF-8 bytes of a string. -/
def utf8Bytes (s : String) : Bytes :=
  s.data.flatMap String.utf8EncodeChar

/-- Go `%d` of a non-negative integer. -/
def formatNat (n : Nat) : String :=
  Nat.repr n

/-- Go `%d` of an integer: decimal digits, with a leading minus sign when
negative. -/
def formatInt (n : Int) : String :=
  if n < 0 then "-" ++ formatNat n.natAbs else formatNat n.natAbs

/-! ## Time -/

/-- The constant `time.Second`, in nanoseconds (the unit of `time.Duration`). -/
def Second : Int := 1000000000

/-- The constant `time.Millisecond`, in nanoseconds. -/
def Millisecond : Int := 1000000

/-- A clock reading (`time.Time`), as nanoseconds since the Unix epoch. The
saturation `Time.Add` performs at the ends of the representable range of
`time.Time` (hundreds of billions of years away) is not modelled. -/
structure Time where
  unixNano : Int
  deriving DecidableEq, Repr

/-- The method `Time.Unix`: whole seconds since the epoch, rounded towards minus
infinity. -/
def Time.Unix (t : Time) : Int :=
  t.unixNano / Second

/-- The method `Time.Add`: the instant `d` nanoseconds later. -/
def Time.Add (t : Time) (d : Int) : Time :=
  ⟨t.unixNano + d⟩

/-! ## Library primitives -/

/-- The library functions `signer.go` calls.

* `b64Decode` is `base64.StdEncoding.DecodeString`: the decoded bytes, or the
  message of the error it returns;
* `b64Encode` is `base64.StdEncoding.EncodeToString`;
* `blake2b512` is the digest obtained from `blake2b.New512(nil)`, one `Write`
  of the argument and `Sum(nil)` (with a nil key `New512` returns no error,
  and `Write` of a `hash.Hash` never returns one);
* `ed25519Sign seed msg` is `ed25519.Sign(ed25519.NewKeyFromSeed(seed), msg)`
  for a seed of `SeedSize` bytes. -/
structure Primitives where
  b64Decode : String → Except String Bytes
  b64Encode : Bytes → String
  blake2b512 : Bytes → Bytes
  ed25519Sign : Bytes → Bytes → Bytes

/-- The constant `ed25519.SeedSize`. -/
def SeedSize : Nat := 32

/-! ## signer.go -/

/-- The type `BecknSigner`: identity, seed and validity (a `time.Duration`). -/
structure BecknSigner where
  subscriberID : String
  uniqueKeyID : String
  signingPrivateKey : Bytes
  signatureValidity : Int
  deriving DecidableEq, Repr

/-- The function `NewBecknSigner` (signer.go:23-54). `validitySeconds` is a Go `int`; the
product with `time.Second` is computed in `int64`. -/
def NewBecknSigner (P : Primitives) (subscriberID uniqueKeyID signingPrivateKeyBase64 : String)
    (validitySeconds : Int) : Except String BecknSigner :=
  if subscriberID = "" then
    .error "subscriberID is required for signing"
  else if uniqueKeyID = "" then
    .error "uniqueKeyID is required for signing"
  else if signingPrivateKeyBase64 = "" then
    .error "signingPrivateKey is required for signing"
  else
    match P.b64Decode signingPrivateKeyBase64 with
    | .error err => .error ("failed to decode signing private key: " ++ err)
    | .ok privateKeyBytes =>
      if privateKeyBytes.length ≠ SeedSize then
        .error ("invalid signing private key length: expected " ++ formatNat SeedSize
          ++ " bytes, got " ++ formatNat privateKeyBytes.length)
      else
        let validity := wrapInt64 (validitySeconds * Second)
        let validity := if validity ≤ 0 then 30 * Second else validity
        .ok { subscriberID := subscriberID
              uniqueKeyID := uniqueKeyID
              signingPrivateKey := privateKeyBytes
              signatureValidity := validity }

/-- The method `createSigningString` (signer.go:94-109). The two error returns of the Go
function guard library calls that do not fail (see `Primitives`), so the
result is always `ok`. -/
def createSigningString (P : Primitives) (_s : BecknSigner) (payload : Bytes)
    (createdAt expiresAt : Int) : Except GoError String :=
  let hashSum := P.blake2b512 payload
  let digestB64 := P.b64Encode hashSum
  .ok ("(created): " ++ formatInt createdAt ++ "\n(expires): " ++ formatInt expiresAt
    ++ "\ndigest: BLAKE-512=" ++ digestB64)

/-- The method `sign` (signer.go:112-115). `ed25519.NewKeyFromSeed` panics when the seed
is not `SeedSize` bytes long. -/
def sign (P : Primitives) (s : BecknSigner) (data : Bytes) : Except GoError Bytes :=
  if s.signingPrivateKey.length ≠ SeedSize then
    .error (.panic ("ed25519: bad seed length: " ++ formatNat s.signingPrivateKey.length))
  else
    .ok (P.ed25519Sign s.signingPrivateKey data)

/-- The `fmt.Sprintf` of signer.go:80-87. -/
def formatAuthHeader (subscriberID uniqueKeyID : String) (createdAt expiresAt : Int)
    (signatureB64 : String) : String :=
  "Signature keyId=\"" ++ subscriberID ++ "|" ++ uniqueKeyID
    ++ "|ed25519\",algorithm=\"ed25519\",created=\"" ++ formatInt createdAt
    ++ "\",expires=\"" ++ formatInt expiresAt
    ++ "\",headers=\"(created) (expires) digest\",signature=\"" ++ signatureB64 ++ "\""

/-- The method `GenerateAuthHeader` (signer.go:59-90), with the value of `time.Now()` as
the argument `now`. -/
def GenerateAuthHeader (P : Primitives) (s : BecknSigner) (now : Time) (payload : Bytes) :
    Except GoError String :=
  let createdAt := now.Unix
  let expiresAt := (now.Add s.signatureValidity).Unix
  match createSigningString P s payload createdAt expiresAt with
  | .error (.error err) => .error (.error ("failed to create signing string: " ++ err))
  | .error (.panic msg) => .error (.panic msg)
  | .ok signingString =>
    match sign P s (utf8Bytes signingString) with
    | .error (.error err) => .error (.error ("failed to sign: " ++ err))
    | .error (.panic msg) => .error (.panic msg)
    | .ok signature =>
      let signatureB64 := P.b64Encode signature
      .ok (formatAuthHeader s.subscriberID s.uniqueKeyID createdAt expiresAt signatureB64)

/-- The method `IsConfigured` (signer.go:118-120); `none` is the nil receiver. -/
def IsConfigured (s : Option BecknSigner) : Bool :=
  match s with
  | none => false
  | some s => decide (0 < s.signingPrivateKey.length)

/-! ## signer.go: the effects of a call

`GenerateAuthHeader` has a pointer receiver, and the goroutines of the
dispatcher call it on one shared `*BecknSigner`. To state what a call does to
the signer, and what concurrent calls do to each other, the three methods are
embedded a second time, statement by statement, as programs over the
operations by which a method body touches what it shares with other
goroutines: a reading of the clock, a read of a field of `*s`, an assignment
to `*s`, and a read from the random source of the process. The steps of
concurrent calls are interleaved by a schedule. -/

/-- What the calls share: the struct behind the receiver `s`, and the bytes
the random source of the process (`crypto/rand.Reader`) has yet to give out. -/
structure World where
  signer : BecknSigner
  entropy : Bytes
  deriving DecidableEq, Repr

/-- A method body as a sequence of operations on the shared world, each with
the rest of the body as its continuation: `time.Now()`, a read of one field of
`*s`, an assignment to `*s`, a read of `n` bytes of the random source. What a
body computes on its own locals is inside the continuations. -/
inductive Prog (α : Type) where
  | done (result : α)
  | timeNow (k : Time → Prog α)
  | readSubscriberID (k : String → Prog α)
  | readUniqueKeyID (k : String → Prog α)
  | readSigningPrivateKey (k : Bytes → Prog α)
  | readSignatureValidity (k : Int → Prog α)
  | assign (update : BecknSigner → BecknSigner) (k : Prog α)
  | random (n : Nat) (k : Bytes → Prog α)

/-- A call of one method from the body of another: the callee runs, then the
caller goes on with what it returned. -/
def Prog.bind {α β : Type} : Prog α → (α → Prog β) → Prog β
  | .done result, f => f result
  | .timeNow k, f => .timeNow (fun t => (k t).bind f)
  | .readSubscriberID k, f => .readSubscriberID (fun v => (k v).bind f)
  | .readUniqueKeyID k, f => .readUniqueKeyID (fun v => (k v).bind f)
  | .readSigningPrivateKey k, f => .readSigningPrivateKey (fun v => (k v).bind f)
  | .readSignatureValidity k, f => .readSignatureValidity (fun v => (k v).bind f)
  | .assign update k, f => .assign update (k.bind f)
  | .random n k, f => .random n (fun v => (k v).bind f)

/-- What a body that has returned has returned. -/
def Prog.result? {α : Type} : Prog α → Option α
  | .done result => some result
  | _ => none

/-- One operation of a body, performed on the world `w` when the clock reads
`now`: the rest of the body and the world after it. A body that has returned
stays as it is. -/
def Prog.step {α : Type} (now : Time) (w : World) : Prog α → Prog α × World
  | .done result => (.done result, w)
  | .timeNow k => (k now, w)
  | .readSubscriberID k => (k w.signer.subscriberID, w)
  | .readUniqueKeyID k => (k w.signer.uniqueKeyID, w)
  | .readSigningPrivateKey k => (k w.signer.signingPrivateKey, w)
  | .readSignatureValidity k => (k w.signer.signatureValidity, w)
  | .assign update k => (k, { w with signer := update w.signer })
  | .random n k => (k (w.entropy.take n), { w with entropy := w.entropy.drop n })

/-- A body run alone from its first operation to its return, the clock
reading `now` throughout: what it returns and the world it leaves. -/
def Prog.exec {α : Type} (now : Time) : Prog α → World → α × World
  | .done result, w => (result, w)
  | .timeNow k, w => (k now).exec now w
  | .readSubscriberID k, w => (k w.signer.subscriberID).exec now w
  | .readUniqueKeyID k, w => (k w.signer.uniqueKeyID).exec now w
  | .readSigningPrivateKey k, w => (k w.signer.signingPrivateKey).exec now w
  | .readSignatureValidity k, w => (k w.signer.signatureValidity).exec now w
  | .assign update k, w => k.exec now { w with signer := update w.signer }
  | .random n k, w => (k (w.entropy.take n)).exec now { w with entropy := w.entropy.drop n }

/-- A body run alone for as many operations as there are clock readings in
the list, one reading per operation. -/
def Prog.runAlone {α : Type} : List Time → Prog α → World → Prog α × World
  | [], p, w => (p, w)
  | now :: rest, p, w => Prog.runAlone rest (p.step now w).1 (p.step now w).2

/-- A body that only reads: it reads the clock and fields of `*s`, and neither
assigns to `*s` nor reads the random source. -/
inductive Prog.ReadOnly {α : Type} : Prog α → Prop where
  | done (result : α) : Prog.ReadOnly (.done result)
  | timeNow {k : Time → Prog α} (h : ∀ t, Prog.ReadOnly (k t)) : Prog.ReadOnly (.timeNow k)
  | readSubscriberID {k : String → Prog α} (h : ∀ v, Prog.ReadOnly (k v)) :
      Prog.ReadOnly (.readSubscriberID k)
  | readUniqueKeyID {k : String → Prog α} (h : ∀ v, Prog.ReadOnly (k v)) :
      Prog.ReadOnly (.readUniqueKeyID k)
  | readSigningPrivateKey {k : Bytes → Prog α} (h : ∀ v, Prog.ReadOnly (k v)) :
      Prog.ReadOnly (.readSigningPrivateKey k)
  | readSignatureValidity {k : Int → Prog α} (h : ∀ v, Prog.ReadOnly (k v)) :
      Prog.ReadOnly (.readSignatureValidity k)

/-- The body of `createSigningString` (signer.go:94-109): the hasher, the
digest and the text are locals; no field of `*s` is read or assigned. -/
def createSigningStringProg (P : Primitives) (payload : Bytes) (createdAt expiresAt : Int) :
    Prog (Except GoError String) :=
  let hashSum := P.blake2b512 payload
  let digestB64 := P.b64Encode hashSum
  .done (.ok ("(created): " ++ formatInt createdAt ++ "\n(expires): " ++ formatInt expiresAt
    ++ "\ndigest: BLAKE-512=" ++ digestB64))

/-- The body of `sign` (signer.go:112-115): one read of `s.signingPrivateKey`;
`ed25519.NewKeyFromSeed` panics on a seed of the wrong length; `ed25519.Sign`
takes no random source. -/
def signProg (P : Primitives) (data : Bytes) : Prog (Except GoError Bytes) :=
  .readSigningPrivateKey fun seed =>
    if seed.length ≠ SeedSize then
      .done (.error (.panic ("ed25519: bad seed length: " ++ formatNat seed.length)))
    else
      .done (.ok (P.ed25519Sign seed data))

/-- The body of `GenerateAuthHeader` (signer.go:59-90): `time.Now()`, the read
of `s.signatureValidity`, the call of `createSigningString`, the call of
`sign`, and the reads of `s.subscriberID` and `s.uniqueKeyID` for the
`fmt.Sprintf`. -/
def GenerateAuthHeaderProg (P : Primitives) (payload : Bytes) : Prog (Except GoError String) :=
  .timeNow fun now =>
    let createdAt := now.Unix
    .readSignatureValidity fun signatureValidity =>
      let expiresAt := (now.Add signatureValidity).Unix
      (createSigningStringProg P payload createdAt expiresAt).bind fun r =>
        match r with
        | .error (.error err) =>
          .done (.error (.error ("failed to create signing string: " ++ err)))
        | .error (.panic msg) => .done (.error (.panic msg))
        | .ok signingString =>
          (signProg P (utf8Bytes signingString)).bind fun r =>
            match r with
            | .error (.error err) => .done (.error (.error ("failed to sign: " ++ err)))
            | .error (.panic msg) => .done (.error (.panic msg))
            | .ok signature =>
              let signatureB64 := P.b64Encode signature
              .readSubscriberID fun subscriberID =>
                .readUniqueKeyID fun uniqueKeyID =>
                  .done (.ok (formatAuthHeader subscriberID uniqueKeyID createdAt expiresAt
                    signatureB64))

/-- Calls in progress on one signer: the shared world, and what remains of
the body of each call. -/
structure Calls (α : Type) where
  world : World
  bodies : List (Prog α)

/-- The calls `bodies` on the world `w`, none of them begun. -/
def Calls.start {α : Type} (w : World) (bodies : List (Prog α)) : Calls α :=
  { world := w, bodies := bodies }

/-- Call `i` performs its next operation while the clock reads `now`. -/
def Calls.step {α : Type} (cs : Calls α) (i : Nat) (now : Time) : Calls α :=
  match cs.bodies[i]? with
  | none => cs
  | some p =>
    { world := (p.step now cs.world).2
      bodies := cs.bodies.set i (p.step now cs.world).1 }

/-- The calls after a schedule: at each entry the call of that index performs
one operation, the clock reading what the entry says. -/
def Calls.run {α : Type} (cs : Calls α) : List (Nat × Time) → Calls α
  | [] => cs
  | (i, now) :: rest => (cs.step i now).run rest

/-- What call `i` has returned, if it has returned. -/
def Calls.result? {α : Type} (cs : Calls α) (i : Nat) : Option α :=
  (cs.bodies[i]?).bind Prog.result?

/-- The clock readings at the operations of call `i` in a schedule, in order;
the first is what `time.Now()` returns to the call. -/
def readings (i : Nat) (schedule : List (Nat × Time)) : List Time :=
  (schedule.filter (fun e => e.1 = i)).map Prod.snd

/-! ## Library functions used by config.go

Go strings are modelled by `String`, that is, as valid UTF-8 text. -/

/-- The function `unicode.IsSpace`: the Latin-1 white space characters and the other code
points with the Unicode White_Space property. -/
def isSpace (c : Char) : Bool :=
  let n := c.toNat
  (9 ≤ n && n ≤ 13) || n == 32 || n == 133 || n == 160 || n == 5760
    || (8192 ≤ n && n ≤ 8202) || n == 8232 || n == 8233 || n == 8239 || n == 8287
    || n == 12288

/-- The function `strings.TrimSpace`. -/
def TrimSpace (s : String) : String :=
  ⟨((s.data.dropWhile isSpace).reverse.dropWhile isSpace).reverse⟩

/-- The pieces of a character sequence between commas. -/
def splitComma : List Char → List (List Char)
  | [] => [[]]
  | c :: cs =>
    if c = ',' then [] :: splitComma cs
    else
      match splitComma cs with
      | [] => [[c]]
      | piece :: pieces => (c :: piece) :: pieces

/-- The call `strings.Split(s, ",")`. -/
def SplitComma (s : String) : List String :=
  (splitComma s.data).map String.mk

/-- The value of a non-empty sequence of ASCII decimal digits. -/
def digitsValue (cs : List Char) : Option Nat :=
  match cs with
  | [] => none
  | _ =>
    if cs.all Char.isDigit then
      some (cs.foldl (fun acc c => acc * 10 + (c.toNat - 48)) 0)
    else none

/-- The integer a decimal numeral denotes: an optional sign, then one or more
decimal digits; `none` for any other text. -/
def parseDecimal (s : String) : Option Int :=
  match s.data with
  | [] => none
  | c :: cs =>
    let digits := if c = '-' ∨ c = '+' then cs else c :: cs
    match digitsValue digits with
    | none => none
    | some n => some (if c = '-' then -(n : Int) else (n : Int))

/-- The function `strconv.Atoi` for a 64-bit `int`: a decimal numeral whose value is within
the range of `int64`; `none` is the error return (of a syntax or of a range
error). -/
def Atoi (s : String) : Option Int :=
  match parseDecimal s with
  | none => none
  | some v =>
    if -9223372036854775808 ≤ v ∧ v ≤ 9223372036854775807 then some v else none

/-! ## config.go -/

/-- The constant `EnvSigningPrivateKey`. -/
def EnvSigningPrivateKey : String := "SIGNING_PRIVATE_KEY"

/-- The constant `EnvSubscriberID`. -/
def EnvSubscriberID : String := "SUBSCRIBER_ID"

/-- The constant `EnvUniqueKeyID`. -/
def EnvUniqueKeyID : String := "UNIQUE_KEY_ID"

/-- The constant `ActionOnConfirm`. -/
def ActionOnConfirm : String := "on_confirm"

/-- The constant `ActionOnStatus`. -/
def ActionOnStatus : String := "on_status"

/-- The type `Config` (config.go:28-79). `AsyncTimeout` is a `time.Duration`. -/
structure Config where
  LedgerHost : String
  Role : String
  Actions : List String
  Enabled : Bool
  AsyncTimeout : Int
  RetryCount : Int
  APIKey : String
  AuthHeader : String
  DebugLogging : Bool
  SigningPrivateKey : String
  SubscriberID : String
  UniqueKeyID : String
  SignatureValiditySeconds : Int
  SigningFromEnv : Bool
  deriving DecidableEq, Repr

/-- The function `DefaultConfig` (config.go:82-98); `SigningFromEnv` has Go's zero value. -/
def DefaultConfig : Config :=
  { LedgerHost := ""
    Role := "BUYER"
    Actions := [ActionOnConfirm]
    Enabled := true
    AsyncTimeout := 5 * Second
    RetryCount := 0
    APIKey := ""
    AuthHeader := "X-API-Key"
    DebugLogging := false
    SigningPrivateKey := ""
    SubscriberID := ""
    UniqueKeyID := ""
    SignatureValiditySeconds := 30
    SigningFromEnv := false }

/-- The function `isValidRole` (config.go:244-252). -/
def isValidRole (role : String) : Bool :=
  role == "BUYER" || role == "SELLER" || role == "BUYER_DISCOM" || role == "SELLER_DISCOM"

/-- The function `isValidAction` (config.go:255-261). -/
def isValidAction (action : String) : Bool :=
  action == ActionOnConfirm || action == ActionOnStatus

/-- The method `IsActionEnabled` (config.go:264-271). -/
def Config.IsActionEnabled (c : Config) (action : String) : Bool :=
  c.Actions.any (fun a => a == action)

/-- The method `IsDiscomRole` (config.go:274-276). -/
def Config.IsDiscomRole (c : Config) : Bool :=
  c.Role == "BUYER_DISCOM" || c.Role == "SELLER_DISCOM"

/-- The method `IsBuyerSide` (config.go:279-281). -/
def Config.IsBuyerSide (c : Config) : Bool :=
  c.Role == "BUYER" || c.Role == "BUYER_DISCOM"

/-- A Go `map[string]string`: `none` for an absent key. -/
abbrev StringMap := String → Option String

/-- The process environment as `os.Getenv` reads it: the empty string for an
unset variable. -/
abbrev Environ := String → String

/-- The Go idiom `v, ok := cfg[key]; ok && v != ""`: the value when the key is
present with a non-empty value. -/
def lookupNonEmpty (cfg : StringMap) (key : String) : Option String :=
  match cfg key with
  | some v => if v ≠ "" then some v else none
  | none => none

/-- The loop of config.go:122-130 over the comma-separated pieces, `acc` being
`config.Actions` so far. -/
def parseActionList : List String → List String → Except String (List String)
  | [], acc => .ok acc
  | action :: rest, acc =>
    let action := TrimSpace action
    if action ≠ "" then
      if !isValidAction action then
        .error ("invalid action: " ++ action ++ " (must be on_confirm or on_status)")
      else parseActionList rest (acc ++ [action])
    else parseActionList rest acc

/-- The `ledgerHost` block (config.go:104-109). -/
def parseLedgerHost (cfg : StringMap) (config : Config) : Except String Config :=
  let config :=
    match lookupNonEmpty cfg "ledgerHost" with
    | some host => { config with LedgerHost := host }
    | none => config
  if config.LedgerHost = "" then .error "ledgerHost is required" else .ok config

/-- The `role` block (config.go:111-116). -/
def parseRole (cfg : StringMap) (config : Config) : Except String Config :=
  match lookupNonEmpty cfg "role" with
  | some role =>
    if !isValidRole role then
      .error ("invalid role: " ++ role
        ++ " (must be BUYER, SELLER, BUYER_DISCOM, or SELLER_DISCOM)")
    else .ok { config with Role := role }
  | none => .ok config

/-- The `actions` block (config.go:119-131). -/
def parseActions (cfg : StringMap) (config : Config) : Except String Config :=
  match lookupNonEmpty cfg "actions" with
  | some actions =>
    match parseActionList (SplitComma actions) [] with
    | .error err => .error err
    | .ok list => .ok { config with Actions := list }
  | none => .ok config

/-- The `enabled` block (config.go:133-135). -/
def parseEnabled (cfg : StringMap) (config : Config) : Config :=
  match cfg "enabled" with
  | some enabled => { config with Enabled := enabled == "true" || enabled == "1" }
  | none => config

/-- The `asyncTimeout` block (config.go:137-143); the product with
`time.Millisecond` is computed in `int64`. -/
def parseAsyncTimeout (cfg : StringMap) (config : Config) : Except String Config :=
  match lookupNonEmpty cfg "asyncTimeout" with
  | some timeout =>
    match Atoi timeout with
    | none => .error ("invalid asyncTimeout: " ++ timeout)
    | some ms => .ok { config with AsyncTimeout := wrapInt64 (ms * Millisecond) }
  | none => .ok config

/-- The `retryCount` block (config.go:145-151). -/
def parseRetryCount (cfg : StringMap) (config : Config) : Except String Config :=
  match lookupNonEmpty cfg "retryCount" with
  | some retry =>
    match Atoi retry with
    | none => .error ("invalid retryCount: " ++ retry)
    | some count => .ok { config with RetryCount := count }
  | none => .ok config

/-- The `apiKey`, `authHeader` and `debugLogging` blocks (config.go:153-163). -/
def parseAuthAndDebug (cfg : StringMap) (config : Config) : Config :=
  let config :=
    match cfg "apiKey" with
    | some apiKey => { config with APIKey := apiKey }
    | none => config
  let config :=
    match lookupNonEmpty cfg "authHeader" with
    | some authHeader => { config with AuthHeader := authHeader }
    | none => config
  match cfg "debugLogging" with
  | some debug => { config with DebugLogging := debug == "true" || debug == "1" }
  | none => config

/-- The explicit signing keys and their aliases (config.go:174-190). -/
def parseSigningKeys (cfg : StringMap) (config : Config) : Config :=
  let config :=
    match lookupNonEmpty cfg "signingPrivateKey" with
    | some signingKey => { config with SigningPrivateKey := signingKey }
    | none => config
  let config :=
    match lookupNonEmpty cfg "subscriberId" with
    | some subscriberID => { config with SubscriberID := subscriberID }
    | none =>
      match lookupNonEmpty cfg "networkParticipant" with
      | some networkParticipant => { config with SubscriberID := networkParticipant }
      | none => config
  match lookupNonEmpty cfg "uniqueKeyId" with
  | some uniqueKeyID => { config with UniqueKeyID := uniqueKeyID }
  | none =>
    match lookupNonEmpty cfg "keyId" with
    | some keyId => { config with UniqueKeyID := keyId }
    | none => config

/-- The `signatureValiditySeconds` block (config.go:192-198). -/
def parseSignatureValidity (cfg : StringMap) (config : Config) : Except String Config :=
  match lookupNonEmpty cfg "signatureValiditySeconds" with
  | some validity =>
    match Atoi validity with
    | none => .error ("invalid signatureValiditySeconds: " ++ validity)
    | some seconds => .ok { config with SignatureValiditySeconds := seconds }
  | none => .ok config

/-- The part of `ParseConfig` that reads the configuration map
(config.go:102-198): the blocks above in source order, the first error
returned. -/
def parseExplicit (cfg : StringMap) : Except String Config := do
  let config ← parseLedgerHost cfg DefaultConfig
  let config ← parseRole cfg config
  let config ← parseActions cfg config
  let config ← parseAsyncTimeout cfg (parseEnabled cfg config)
  let config ← parseRetryCount cfg config
  parseSignatureValidity cfg (parseSigningKeys cfg (parseAuthAndDebug cfg config))

/-- The environment fallback of `ParseConfig` (config.go:203-224). -/
def applyEnvFallback (env : Environ) (config : Config) : Config :=
  let signingFromEnv := false
  let (config, signingFromEnv) :=
    if config.SigningPrivateKey = "" then
      if env EnvSigningPrivateKey ≠ "" then
        ({ config with SigningPrivateKey := env EnvSigningPrivateKey }, true)
      else (config, signingFromEnv)
    else (config, signingFromEnv)
  let (config, signingFromEnv) :=
    if config.SubscriberID = "" then
      if env EnvSubscriberID ≠ "" then
        ({ config with SubscriberID := env EnvSubscriberID }, true)
      else (config, signingFromEnv)
    else (config, signingFromEnv)
  let (config, signingFromEnv) :=
    if config.UniqueKeyID = "" then
      if env EnvUniqueKeyID ≠ "" then
        ({ config with UniqueKeyID := env EnvUniqueKeyID }, true)
      else (config, signingFromEnv)
    else (config, signingFromEnv)
  { config with SigningFromEnv := signingFromEnv }

/-- The closing validation of `ParseConfig` (config.go:226-240). -/
def validateSigning (config : Config) : Except String Config :=
  let signingConfigured :=
    config.SigningPrivateKey ≠ "" ∨ config.SubscriberID ≠ "" ∨ config.UniqueKeyID ≠ ""
  if signingConfigured then
    if config.SigningPrivateKey = "" then
      .error ("signingPrivateKey is required when Beckn signing is configured (set via config or "
        ++ EnvSigningPrivateKey ++ " env var)")
    else if config.SubscriberID = "" then
      .error ("subscriberId is required when Beckn signing is configured (set via config or "
        ++ EnvSubscriberID ++ " env var)")
    else if config.UniqueKeyID = "" then
      .error ("uniqueKeyId is required when Beckn signing is configured (set via config or "
        ++ EnvUniqueKeyID ++ " env var)")
    else .ok config
  else .ok config

/-- The function `ParseConfig` (config.go:101-241), with the process environment as the
argument `env`. -/
def ParseConfig (cfg : StringMap) (env : Environ) : Except String Config :=
  match parseExplicit cfg with
  | .error err => .error err
  | .ok config => validateSigning (applyEnvFallback env config)

/-! ## recorder.go: the dispatcher

`sendPutRecordsAsync` and `sendRecordActualsAsync` share the recorder's
`sync.WaitGroup`. The goroutines they start run concurrently; the embedding is
an interleaving semantics, a step function over the events below. The record
types `LedgerPutRequest` and `LedgerRecordRequest` are declared outside the
embedded files and are type parameters. -/

/-- The work of one goroutine: the closure of `sendPutRecordsAsync`, which
calls `client.PutRecord`, or that of `sendRecordActualsAsync`, which calls
`client.RecordActuals`, each holding its own record. -/
inductive Job (PutReq RecReq : Type) where
  | put (rec : PutReq)
  | actuals (rec : RecReq)
  deriving DecidableEq, Repr

/-- How a goroutine leaves its body: the client call returned a response, it
returned an error (logged, then `return`), or the goroutine panicked. -/
inductive Outcome where
  | success (recordID : String)
  | failure (err : String)
  | abnormal
  deriving DecidableEq, Repr

/-- Where a spawned goroutine stands: `spawned` after `wg.Add(1)` and the `go`
statement; `calling` once it is inside the client call; `completed` when it
has left its body and the deferred `wg.Done()` has run. -/
inductive TaskStatus where
  | spawned
  | calling
  | completed (o : Outcome)
  deriving DecidableEq, Repr

/-- Whether the goroutine has completed. -/
def TaskStatus.isCompleted : TaskStatus → Bool
  | .completed _ => true
  | _ => false

/-- The state of a `DEGLedgerRecorder` as far as dispatch is concerned: the
counter of `wg`, the goroutines in spawn order, the client calls in the order
issued, whether the `wg.Wait()` of `Close` has returned, and whether
`client.Close()` has been called. The counter is a plain integer:
`WaitGroup.Add` panics on a negative counter, and that the counter never is
negative is a property to establish. -/
structure Dispatcher (PutReq RecReq : Type) where
  wg : Int
  tasks : List (Job PutReq RecReq × TaskStatus)
  calls : List (Job PutReq RecReq)
  waitReturned : Bool
  clientClosed : Bool
  deriving DecidableEq, Repr

/-- A freshly built recorder (`New`): zero counter, no goroutine. -/
def Dispatcher.init (PutReq RecReq : Type) : Dispatcher PutReq RecReq :=
  { wg := 0, tasks := [], calls := [], waitReturned := false, clientClosed := false }

/-- One iteration of the `for` loops of recorder.go:210-231 and 237-258:
`r.wg.Add(1)`, then the `go` statement. -/
def Dispatcher.submit {PutReq RecReq : Type} (job : Job PutReq RecReq)
    (d : Dispatcher PutReq RecReq) : Dispatcher PutReq RecReq :=
  { d with wg := d.wg + 1, tasks := d.tasks ++ [(job, TaskStatus.spawned)] }

/-- The method `sendPutRecordsAsync` (recorder.go:209-232): the loop over the records,
run without interruption. -/
def sendPutRecordsAsync {PutReq RecReq : Type} (records : List PutReq)
    (d : Dispatcher PutReq RecReq) : Dispatcher PutReq RecReq :=
  records.foldl (fun d rec => d.submit (Job.put rec)) d

/-- The method `sendRecordActualsAsync` (recorder.go:236-259): the loop over the records,
run without interruption. -/
def sendRecordActualsAsync {PutReq RecReq : Type} (records : List RecReq)
    (d : Dispatcher PutReq RecReq) : Dispatcher PutReq RecReq :=
  records.foldl (fun d rec => d.submit (Job.actuals rec)) d

/-- The atomic steps of the interleaving semantics. -/
inductive Event (PutReq RecReq : Type) where
  /-- One loop iteration of `sendPutRecordsAsync`. -/
  | submitPut (rec : PutReq)
  /-- One loop iteration of `sendRecordActualsAsync`. -/
  | submitActuals (rec : RecReq)
  /-- Goroutine `i` issues its client call. -/
  | call (i : Nat)
  /-- Goroutine `i` leaves its body with outcome `o`; `wg.Done()` runs. -/
  | exit (i : Nat) (o : Outcome)
  /-- The first statement of `Close` (recorder.go:264): `r.wg.Wait()`
  returns. -/
  | waitReturns
  /-- The second statement of `Close` (recorder.go:267-269):
  `r.client.Close()`. -/
  | clientClose
  deriving DecidableEq, Repr

/-- One step; `none` when the event cannot occur in the state: a goroutine
calls the client once, after being spawned; it exits once, from inside its
call (by return after success or error, or by panic); `wg.Wait()` returns
only on a zero counter; `client.Close()` is called after `wg.Wait()` has
returned. Nothing keeps a submission from taking place between these two
statements of `Close`, or after them. -/
def Dispatcher.step {PutReq RecReq : Type} (d : Dispatcher PutReq RecReq) :
    Event PutReq RecReq → Option (Dispatcher PutReq RecReq)
  | .submitPut rec => some (d.submit (Job.put rec))
  | .submitActuals rec => some (d.submit (Job.actuals rec))
  | .call i =>
    match d.tasks[i]? with
    | some (job, TaskStatus.spawned) =>
      some { d with tasks := d.tasks.set i (job, TaskStatus.calling), calls := d.calls ++ [job] }
    | _ => none
  | .exit i o =>
    match d.tasks[i]? with
    | some (job, TaskStatus.calling) =>
      some { d with wg := d.wg - 1, tasks := d.tasks.set i (job, TaskStatus.completed o) }
    | _ => none
  | .waitReturns => if d.wg = 0 then some { d with waitReturned := true } else none
  | .clientClose => if d.waitReturned then some { d with clientClosed := true } else none

/-- The state after a sequence of events, when each can occur in turn. -/
def Dispatcher.run {PutReq RecReq : Type} (d : Dispatcher PutReq RecReq) :
    List (Event PutReq RecReq) → Option (Dispatcher PutReq RecReq)
  | [] => some d
  | ev :: evs =>
    match d.step ev with
    | some d1 => d1.run evs
    | none => none

/-- The number of submitted tasks that have not yet completed. -/
def Dispatcher.outstanding {PutReq RecReq : Type} (d : Dispatcher PutReq RecReq) : Nat :=
  d.tasks.countP (fun t => !t.2.isCompleted)

/-- Every submitted task has completed. -/
def Dispatcher.allCompleted {PutReq RecReq : Type} (d : Dispatcher PutReq RecReq) : Bool :=
  d.tasks.all (fun t => t.2.isCompleted)

/-- The jobs an event submits: one for a loop iteration of either send
function, none for the other events. -/
def Event.submitted {PutReq RecReq : Type} : Event PutReq RecReq → List (Job PutReq RecReq)
  | .submitPut rec => [Job.put rec]
  | .submitActuals rec => [Job.actuals rec]
  | _ => []

/-- The jobs submitted in the course of a sequence of events, in order. -/
def submittedJobs {PutReq RecReq : Type} (evs : List (Event PutReq RecReq)) :
    List (Job PutReq RecReq) :=
  evs.flatMap Event.submitted

/-- Whether the goroutine has issued its client call. -/
def TaskStatus.hasCalled : TaskStatus → Bool
  | .spawned => false
  | _ => true

/-- The jobs of the goroutines that have issued their client call, in spawn
order. -/
def Dispatcher.calledJobs {PutReq RecReq : Type} (d : Dispatcher PutReq RecReq) :
    List (Job PutReq RecReq) :=
  (d.tasks.filter (fun t => t.2.hasCalled)).map Prod.fst

/-! ## recorder.go: the pipeline step

The parsing and mapping functions `Run` calls (`ExtractAction`,
`ParseOnConfirm`, `MapToLedgerRecords`, `ParseOnStatus`,
`MapToLedgerRecordRequests`) and the types they exchange are declared outside
the embedded files: they are the fields of `Mapping` and type parameters.
`LedgerClient` is declared outside them too; a recorder is represented by the
configuration and the signer `New` hands to `NewLedgerClient`. Log output is
not modelled, except for what `New` prints. -/

/-- The part of `model.StepContext` the recorder reads: `Request.URL.Path` and
`Body`. -/
structure StepContext where
  Path : String
  Body : Bytes
  deriving DecidableEq, Repr

/-- The parsing and mapping layer. `ParseOnConfirm` and `ParseOnStatus`
return the payload, or the message of their error. -/
structure Mapping (ConfirmPayload StatusPayload PutReq RecReq : Type) where
  ExtractAction : String → Bytes → String
  ParseOnConfirm : Bytes → Except String ConfirmPayload
  MapToLedgerRecords : ConfirmPayload → String → List PutReq
  ParseOnStatus : Bytes → Except String StatusPayload
  MapToLedgerRecordRequests : StatusPayload → String → List RecReq

set_option linter.dupNamespace false in
/-- The type `DEGLedgerRecorder` as `New` fills it: the configuration, and
the signer given to `NewLedgerClient` (`none` is the nil signer). -/
structure DEGLedgerRecorder where
  config : Config
  signer : Option BecknSigner
  deriving DecidableEq, Repr

/-- The line `New` prints about the enabled actions and the role
(recorder.go:57-58). -/
def actionsLine (config : Config) : String :=
  "[DEGLedgerRecorder] Enabled actions: [" ++ String.intercalate ", " config.Actions
    ++ "], role: " ++ config.Role

/-- The function `New` (recorder.go:24-74), with the process environment as
the argument `env`: the recorder, and the lines printed to standard output. -/
def New (P : Primitives) (cfg : StringMap) (env : Environ) :
    Except String (DEGLedgerRecorder × List String) :=
  match ParseConfig cfg env with
  | .error err => .error err
  | .ok config =>
    if config.SigningPrivateKey ≠ "" ∧ config.SubscriberID ≠ "" ∧ config.UniqueKeyID ≠ "" then
      match NewBecknSigner P config.SubscriberID config.UniqueKeyID config.SigningPrivateKey
          config.SignatureValiditySeconds with
      | .error err => .error ("failed to create Beckn signer: " ++ err)
      | .ok signer =>
        let configSource :=
          if config.SigningFromEnv then "environment variables (Vault/K8s secrets compatible)"
          else "explicit config"
        .ok ({ config := config, signer := some signer },
          ["[DEGLedgerRecorder] Beckn signing enabled (subscriber_id=" ++ config.SubscriberID
            ++ ", key_id=" ++ config.UniqueKeyID ++ ", source=" ++ configSource ++ ")",
           actionsLine config])
    else if config.APIKey ≠ "" then
      .ok ({ config := config, signer := none },
        ["[DEGLedgerRecorder] Simple API key authentication enabled", actionsLine config])
    else
      .ok ({ config := config, signer := none },
        ["[DEGLedgerRecorder] WARNING: No authentication configured for ledger API calls",
         actionsLine config])

/-- The method `handleOnConfirm` (recorder.go:107-151): the returned `error`
(`none` is nil) and the dispatcher afterwards. -/
def handleOnConfirm {ConfirmPayload StatusPayload PutReq RecReq : Type}
    (M : Mapping ConfirmPayload StatusPayload PutReq RecReq) (config : Config)
    (ctx : StepContext) (d : Dispatcher PutReq RecReq) :
    Option String × Dispatcher PutReq RecReq :=
  match M.ParseOnConfirm ctx.Body with
  | .error _ => (none, d)
  | .ok payload =>
    let records := M.MapToLedgerRecords payload config.Role
    if records.length = 0 then (none, d)
    else (none, sendPutRecordsAsync records d)

/-- The method `handleOnStatus` (recorder.go:154-205): the returned `error`
(`none` is nil) and the dispatcher afterwards. -/
def handleOnStatus {ConfirmPayload StatusPayload PutReq RecReq : Type}
    (M : Mapping ConfirmPayload StatusPayload PutReq RecReq) (config : Config)
    (ctx : StepContext) (d : Dispatcher PutReq RecReq) :
    Option String × Dispatcher PutReq RecReq :=
  if !config.IsDiscomRole then (none, d)
  else
    match M.ParseOnStatus ctx.Body with
    | .error _ => (none, d)
    | .ok payload =>
      let records := M.MapToLedgerRecordRequests payload config.Role
      if records.length = 0 then (none, d)
      else (none, sendRecordActualsAsync records d)

/-- The method `Run` (recorder.go:78-104): the returned `error` (`none` is
nil) and the dispatcher afterwards. -/
def Run {ConfirmPayload StatusPayload PutReq RecReq : Type}
    (M : Mapping ConfirmPayload StatusPayload PutReq RecReq) (config : Config)
    (ctx : StepContext) (d : Dispatcher PutReq RecReq) :
    Option String × Dispatcher PutReq RecReq :=
  if !config.Enabled then (none, d)
  else
    let action := M.ExtractAction ctx.Path ctx.Body
    if !config.IsActionEnabled action then (none, d)
    else if action = ActionOnConfirm then handleOnConfirm M config ctx d
    else if action = ActionOnStatus then handleOnStatus M config ctx d
    else (none, d)

/-! ## A reference instance of the primitives

Used to evaluate the definitions on concrete inputs. The base64 codec is the
padded standard alphabet of RFC 4648 (the decoder skips CR and LF, as Go's
does; its error message carries no byte offset). The digest and the
signature are stand-ins of the right length, not BLAKE2b or ed25519; no
general statement depends on their values. -/

/-- The standard base64 alphabet. -/
def b64Alphabet : List Char :=
  "ABCDEFGHIJKLMNOPQRSTUVWXYZabcdefghijklmnopqrstuvwxyz0123456789+/".data

/-- The six-bit value of a base64 character. -/
def b64Index (c : Char) : Option Nat :=
  let i := b64Alphabet.indexOf c
  if i < 64 then some i else none

/-- The base64 character of a six-bit value. -/
def b64Char (n : Nat) : Char :=
  b64Alphabet.getD n 'A'

/-- Decoding of groups of four characters. -/
def refDecodeQuads : List Char → Option (List Nat)
  | a :: b :: c :: d :: rest =>
    match b64Index a, b64Index b with
    | some x, some y =>
      if c = '=' ∧ d = '=' ∧ rest = [] then some [(x * 64 + y) / 16]
      else
        match b64Index c with
        | some z =>
          if d = '=' ∧ rest = [] then
            some [(x * 64 + y) / 16, ((y * 64 + z) / 4) % 256]
          else
            match b64Index d, refDecodeQuads rest with
            | some w, some bytes =>
              some ((x * 64 + y) / 16 :: ((y * 64 + z) / 4) % 256 :: (z * 64 + w) % 256 :: bytes)
            | _, _ => none
        | none => none
    | _, _ => none
  | [] => some []
  | _ => none

/-- Padded standard base64 decoding. -/
def refB64Decode (s : String) : Except String Bytes :=
  match refDecodeQuads (s.data.filter (fun c => c ≠ '\n' ∧ c ≠ '\r')) with
  | some bytes => .ok (bytes.map UInt8.ofNat)
  | none => .error "illegal base64 data"

/-- Encoding of groups of three bytes. -/
def refEncodeTriples : List Nat → List Char
  | [] => []
  | [a] => [b64Char (a / 4), b64Char ((a % 4) * 16), '=', '=']
  | [a, b] => [b64Char (a / 4), b64Char ((a % 4) * 16 + b / 16), b64Char ((b % 16) * 4), '=']
  | a :: b :: c :: rest =>
    b64Char (a / 4) :: b64Char ((a % 4) * 16 + b / 16) :: b64Char ((b % 16) * 4 + c / 64)
      :: b64Char (c % 64) :: refEncodeTriples rest

/-- Padded standard base64 encoding. -/
def refB64Encode (bytes : Bytes) : String :=
  ⟨refEncodeTriples (bytes.map UInt8.toNat)⟩

/-- The reference instance. -/
def refPrimitives : Primitives :=
  { b64Decode := refB64Decode
    b64Encode := refB64Encode
    blake2b512 := fun payload => (payload ++ List.replicate 64 0).take 64
    ed25519Sign := fun seed msg => (seed ++ msg ++ List.replicate 64 0).take 64 }

/-- The base64 text of a seed of 32 zero bytes. -/
def zeroSeedB64 : String := "AAAAAAAAAAAAAAAAAAAAAAAAAAAAAAAAAAAAAAAAAAA="

/-- The base64 text of 16 zero bytes. -/
def shortSeedB64 : String := "AAAAAAAAAAAAAAAAAAAAAA=="

/-! ## The resolution of the signing fields, as specified

The priority rule in the words of the specification, to compare with what
`ParseConfig` computes. -/

/-- Go's `cfg[key]`: the empty string for an absent key. -/
def cfgValue (cfg : StringMap) (key : String) : String :=
  (cfg key).getD ""

/-- The signing key by priority: the configured `signingPrivateKey`, else the
environment variable. -/
def specSigningPrivateKey (cfg : StringMap) (env : Environ) : String :=
  if cfgValue cfg "signingPrivateKey" ≠ "" then cfgValue cfg "signingPrivateKey"
  else env "SIGNING_PRIVATE_KEY"

/-- The subscriber id by priority: `subscriberId`, else the alias
`networkParticipant`, else the environment variable. -/
def specSubscriberID (cfg : StringMap) (env : Environ) : String :=
  if cfgValue cfg "subscriberId" ≠ "" then cfgValue cfg "subscriberId"
  else if cfgValue cfg "networkParticipant" ≠ "" then cfgValue cfg "networkParticipant"
  else env "SUBSCRIBER_ID"

/-- The key id by priority: `uniqueKeyId`, else the alias `keyId`, else the
environment variable. -/
def specUniqueKeyID (cfg : StringMap) (env : Environ) : String :=
  if cfgValue cfg "uniqueKeyId" ≠ "" then cfgValue cfg "uniqueKeyId"
  else if cfgValue cfg "keyId" ≠ "" then cfgValue cfg "keyId"
  else env "UNIQUE_KEY_ID"

/-- Some signing field takes its value from the environment: its configured
sources are all empty and its environment variable is not. -/
def specSigningFromEnv (cfg : StringMap) (env : Environ) : Prop :=
  (cfgValue cfg "signingPrivateKey" = "" ∧ env "SIGNING_PRIVATE_KEY" ≠ "")
    ∨ (cfgValue cfg "subscriberId" = "" ∧ cfgValue cfg "networkParticipant" = ""
        ∧ env "SUBSCRIBER_ID" ≠ "")
    ∨ (cfgValue cfg "uniqueKeyId" = "" ∧ cfgValue cfg "keyId" = "" ∧ env "UNIQUE_KEY_ID" ≠ "")

/-! ## The handling of the `actions` key, as specified -/

/-- The whitespace-trimmed non-empty comma-separated entries of a text, in
their original order. -/
def specActions (actions : String) : List String :=
  ((SplitComma actions).map TrimSpace).filter (fun a => decide (a ≠ ""))

/-- The first entry, if any, that is neither `on_confirm` nor `on_status`. -/
def specInvalidAction (actions : String) : Option String :=
  (specActions actions).find? (fun a => !(a == "on_confirm" || a == "on_status"))

/-! ## What `Run` submits, as specified -/

/-- The jobs a call of `Run` may submit, gate by gate: none when the plugin is
disabled or the extracted action is not among the configured ones; for
`on_confirm` the mapped put records; for `on_status` the mapped record-actuals
requests, and only under a discom role; none when parsing fails or for any
other action. -/
def specSubmitted {ConfirmPayload StatusPayload PutReq RecReq : Type}
    (M : Mapping ConfirmPayload StatusPayload PutReq RecReq) (config : Config)
    (ctx : StepContext) : List (Job PutReq RecReq) :=
  if config.Enabled = false then []
  else if M.ExtractAction ctx.Path ctx.Body ∉ config.Actions then []
  else if M.ExtractAction ctx.Path ctx.Body = "on_confirm" then
    match M.ParseOnConfirm ctx.Body with
    | .ok payload => (M.MapToLedgerRecords payload config.Role).map Job.put
    | .error _ => []
  else if M.ExtractAction ctx.Path ctx.Body = "on_status" then
    if config.Role = "BUYER_DISCOM" ∨ config.Role = "SELLER_DISCOM" then
      match M.ParseOnStatus ctx.Body with
      | .ok payload => (M.MapToLedgerRecordRequests payload config.Role).map Job.actuals
      | .error _ => []
    else []
  else []

/-! ## Example data -/

/-- The signer `NewBecknSigner` builds from the zero seed with the default
validity, in the reference instance. -/
def exampleSigner : BecknSigner :=
  { subscriberID := "bap.example.org"
    uniqueKeyID := "key-1"
    signingPrivateKey := List.replicate 32 0
    signatureValidity := 30000000000 }

/-- A configuration map with only `ledgerHost`. -/
def hostOnlyCfg : StringMap :=
  fun key => if key = "ledgerHost" then some "https://ledger.example.org" else none

/-- An environment with only `SIGNING_PRIVATE_KEY` set. -/
def keyOnlyEnv : Environ :=
  fun name => if name = "SIGNING_PRIVATE_KEY" then zeroSeedB64 else ""

/-- A configuration map naming the subscriber through the alias
`networkParticipant` and the key id through `uniqueKeyId`. -/
def aliasCfg : StringMap :=
  fun key =>
    if key = "ledgerHost" then some "https://ledger.example.org"
    else if key = "networkParticipant" then some "bap.example.org"
    else if key = "uniqueKeyId" then some "key-1"
    else if key = "keyId" then some "key-2"
    else none

/-- An environment with all three signing variables set. -/
def fullEnv : Environ :=
  fun name =>
    if name = "SIGNING_PRIVATE_KEY" then zeroSeedB64
    else if name = "SUBSCRIBER_ID" then "env.example.org"
    else if name = "UNIQUE_KEY_ID" then "env-key"
    else ""

/-- What the explicit part of `ParseConfig` returns for `hostOnlyCfg`. -/
def hostOnlyConfig : Config :=
  { DefaultConfig with LedgerHost := "https://ledger.example.org" }

/-- What the explicit part of `ParseConfig` returns for `aliasCfg`. -/
def aliasConfig : Config :=
  { DefaultConfig with
    LedgerHost := "https://ledger.example.org"
    SubscriberID := "bap.example.org"
    UniqueKeyID := "key-1" }

/-- A batch of five put records is submitted; the goroutines call the client
in some order; three calls succeed and two fail. -/
def batchEvents : List (Event String String) :=
  [.submitPut "item-1", .submitPut "item-2", .call 1, .submitPut "item-3", .submitPut "item-4",
   .call 0, .exit 1 (.failure "ledger unavailable"), .submitPut "item-5", .call 4, .call 2,
   .exit 0 (.success "rec-1"), .call 3, .exit 3 (.failure "timeout"),
   .exit 4 (.success "rec-5"), .exit 2 (.success "rec-3")]

/-- The state `batchEvents` leads to. -/
def batchFinal : Dispatcher String String :=
  { wg := 0
    tasks :=
      [(.put "item-1", .completed (.success "rec-1")),
       (.put "item-2", .completed (.failure "ledger unavailable")),
       (.put "item-3", .completed (.success "rec-3")),
       (.put "item-4", .completed (.failure "timeout")),
       (.put "item-5", .completed (.success "rec-5"))]
    calls := [.put "item-2", .put "item-1", .put "item-5", .put "item-3", .put "item-4"]
    waitReturned := false
    clientClosed := false }

/-- A configuration map with `ledgerHost` and the retry count `-1`. -/
def negativeRetryCfg : StringMap :=
  fun key =>
    if key = "ledgerHost" then some "https://ledger.example.org"
    else if key = "retryCount" then some "-1"
    else none

/-- An environment with no variable set. -/
def emptyEnv : Environ :=
  fun _ => ""

/-- A configuration map with a role and a list of actions to trim. -/
def discomCfg : StringMap :=
  fun key =>
    if key = "ledgerHost" then some "https://ledger.example.org"
    else if key = "role" then some "SELLER_DISCOM"
    else if key = "actions" then some " on_status, ,on_confirm ,"
    else none

/-- What `ParseConfig` returns for `discomCfg`. -/
def discomConfig : Config :=
  { DefaultConfig with
    LedgerHost := "https://ledger.example.org"
    Role := "SELLER_DISCOM"
    Actions := ["on_status", "on_confirm"] }

/-- A configuration map with an unsupported action and a role in lower
case. -/
def invalidCfg : StringMap :=
  fun key =>
    if key = "ledgerHost" then some "https://ledger.example.org"
    else if key = "role" then some "buyer"
    else if key = "actions" then some "on_confirm,on_cancel"
    else none

/-- A configuration map with all three signing fields. -/
def signingCfg : StringMap :=
  fun key =>
    if key = "ledgerHost" then some "https://ledger.example.org"
    else if key = "signingPrivateKey" then some zeroSeedB64
    else if key = "subscriberId" then some "bap.example.org"
    else if key = "uniqueKeyId" then some "key-1"
    else none

/-- What `ParseConfig` returns for `signingCfg`. -/
def signingConfig : Config :=
  { DefaultConfig with
    LedgerHost := "https://ledger.example.org"
    SigningPrivateKey := zeroSeedB64
    SubscriberID := "bap.example.org"
    UniqueKeyID := "key-1" }

/-- A stand-in for the parsing and mapping layer, to evaluate `Run` on
concrete requests: the action is the text after the last slash of the path,
an empty body does not parse, and each byte of the body gives one record. -/
def exampleMapping : Mapping Bytes Bytes String String :=
  { ExtractAction := fun path _ =>
      String.mk (path.data.reverse.takeWhile (fun c => c ≠ '/')).reverse
    ParseOnConfirm := fun body => if body = [] then .error "empty body" else .ok body
    MapToLedgerRecords := fun payload role =>
      payload.map (fun b => role ++ "/item-" ++ formatNat b.toNat)
    ParseOnStatus := fun body => if body = [] then .error "empty body" else .ok body
    MapToLedgerRecordRequests := fun payload role =>
      payload.map (fun b => role ++ "/meter-" ++ formatNat b.toNat) }

/-- A state in which one of two submitted records is still in its call. -/
def batchPartial : Dispatcher String String :=
  { wg := 1
    tasks := [(.put "item-1", .completed (.failure "timeout")), (.put "item-2", .calling)]
    calls := [.put "item-1", .put "item-2"]
    waitReturned := false
    clientClosed := false }

/-- A world for the examples: the example signer, and a random source with
three bytes to give. -/
def exampleWorld : World :=
  { signer := exampleSigner, entropy := [7, 8, 9] }

/-- A schedule of two calls whose operations alternate; both read the clock
at the same instant, and both have their five operations. -/
def exampleSchedule : List (Nat × Time) :=
  [(0, ⟨1700000000123456789⟩), (1, ⟨1700000000123456789⟩), (1, ⟨1700000000200000000⟩),
   (0, ⟨1700000000300000000⟩), (0, ⟨1700000000400000000⟩), (1, ⟨1700000000500000000⟩),
   (1, ⟨1700000000600000000⟩), (0, ⟨1700000000700000000⟩), (0, ⟨1700000000800000000⟩),
   (1, ⟨1700000000900000000⟩)]

/-- For comparison, a body that is not in the package: it assigns to
`s.signatureValidity` and draws a byte from the random source. -/
def exampleAssigning : Prog (Except GoError String) :=
  .assign (fun s => { s with signatureValidity := 60 * Second })
    (.random 1 fun _ => .done (.ok ""))

/-- A record is submitted and delivered, the `wg.Wait()` of `Close` returns,
a second record is submitted, and then `client.Close()` is called. -/
def lateSubmitEvents : List (Event String String) :=
  [.submitPut "item-1", .call 0, .exit 0 (.success "rec-1"), .waitReturns,
   .submitPut "item-2", .clientClose]

/-- The state `lateSubmitEvents` leads to. -/
def lateSubmitFinal : Dispatcher String String :=
  { wg := 1
    tasks := [(.put "item-1", .completed (.success "rec-1")), (.put "item-2", .spawned)]
    calls := [.put "item-1"]
    waitReturned := true
    clientClosed := true }

/-! # Properties -/

/-! ### Decimal rendering -/

theorem digitChar_spec (k : Nat) (h : k < 10) :
    (Nat.digitChar k).isDigit = true ∧ (Nat.digitChar k).toNat - 48 = k := by
  interval_cases k <;> decide

/-- The decimal digits `Nat.toDigitsCore` puts in front of its accumulator. -/
theorem toDigitsCore_spec :
    ∀ (fuel n : Nat) (ds : List Char), n < fuel →
      ∃ front, Nat.toDigitsCore 10 fuel n ds = front ++ ds ∧ front ≠ []
        ∧ (∀ c ∈ front, c.isDigit = true)
        ∧ front.foldl (fun acc c => acc * 10 + (c.toNat - 48)) 0 = n
  | 0, n, ds, h => absurd h (Nat.not_lt_zero n)
  | fuel + 1, n, ds, h => by
    obtain ⟨hd1, hd2⟩ := digitChar_spec (n % 10) (Nat.mod_lt n (by decide))
    unfold Nat.toDigitsCore
    by_cases h0 : n / 10 = 0
    · refine ⟨[Nat.digitChar (n % 10)], ?_, by simp, ?_, ?_⟩
      · simp [h0]
      · intro c hc
        simp only [List.mem_singleton] at hc
        subst hc; exact hd1
      · simp only [List.foldl_cons, List.foldl_nil, zero_mul, zero_add, hd2]
        omega
    · obtain ⟨front, e1, -, e3, e4⟩ :=
        toDigitsCore_spec fuel (n / 10) (Nat.digitChar (n % 10) :: ds) (by omega)
      refine ⟨front ++ [Nat.digitChar (n % 10)], ?_, by simp, ?_, ?_⟩
      · simp [h0, e1]
      · intro c hc
        rcases List.mem_append.1 hc with hc | hc
        · exact e3 c hc
        · simp only [List.mem_singleton] at hc
          subst hc; exact hd1
      · simp only [List.foldl_append, e4, List.foldl_cons, List.foldl_nil, hd2]
        omega

/-- The text of `formatNat n`: a non-empty run of decimal digits of value
`n`. -/
theorem formatNat_digits (n : Nat) :
    (formatNat n).data ≠ [] ∧ (∀ c ∈ (formatNat n).data, c.isDigit = true)
      ∧ digitsValue (formatNat n).data = some n := by
  obtain ⟨front, e1, e2, e3, e4⟩ := toDigitsCore_spec (n + 1) n [] (Nat.lt_succ_self n)
  have hdata : (formatNat n).data = front := by
    simp only [formatNat, Nat.repr, Nat.toDigits, e1, List.append_nil, List.asString]
  rw [hdata]
  refine ⟨e2, e3, ?_⟩
  unfold digitsValue
  cases front with
  | nil => exact absurd rfl e2
  | cons c cs =>
    have hall : (c :: cs).all Char.isDigit = true := List.all_eq_true.2 e3
    simp only [hall, ↓reduceIte, e4]

theorem isDigit_ne_sign (c : Char) (h : c.isDigit = true) :
    c ≠ '-' ∧ c ≠ '+' ∧ c ≠ '\n' := by
  refine ⟨?_, ?_, ?_⟩ <;> rintro rfl <;> exact absurd h (by decide)

/-- Reading back the decimal text of an integer gives the integer. -/
theorem parseDecimal_formatInt (n : Int) : parseDecimal (formatInt n) = some n := by
  obtain ⟨e1, e2, e3⟩ := formatNat_digits n.natAbs
  unfold parseDecimal formatInt
  by_cases hn : n < 0
  · have hd : ("-" ++ formatNat n.natAbs).data = '-' :: (formatNat n.natAbs).data := rfl
    simp only [hn, ↓reduceIte, hd, true_or, e3]
    congr 1
    omega
  · simp only [hn, ↓reduceIte]
    cases hdata : (formatNat n.natAbs).data with
    | nil => exact absurd hdata e1
    | cons c cs =>
      rw [hdata] at e2 e3
      obtain ⟨k1, k2, -⟩ := isDigit_ne_sign c (e2 c (List.mem_cons_self c cs))
      simp only [k1, k2, or_self, ↓reduceIte, e3]
      congr 1
      omega

/-- The function `strconv.Atoi` reads back what `%d` prints, for every `int64`. -/
theorem Atoi_formatInt (n : Int) (hlo : -9223372036854775808 ≤ n)
    (hhi : n ≤ 9223372036854775807) : Atoi (formatInt n) = some n := by
  unfold Atoi
  rw [parseDecimal_formatInt]
  simp [hlo, hhi]

/-- Distinct integers have distinct decimal texts. -/
theorem formatInt_injective : Function.Injective formatInt := by
  intro a b hab
  have := parseDecimal_formatInt a
  rw [hab, parseDecimal_formatInt] at this
  exact (Option.some.inj this).symm

/-- The decimal text of an integer has no line break. -/
theorem formatInt_no_newline (n : Int) : '\n' ∉ (formatInt n).data := by
  obtain ⟨-, e2, -⟩ := formatNat_digits n.natAbs
  have hnat : '\n' ∉ (formatNat n.natAbs).data := fun hmem =>
    (isDigit_ne_sign _ (e2 _ hmem)).2.2 rfl
  unfold formatInt
  split_ifs
  · have hd : ("-" ++ formatNat n.natAbs).data = '-' :: (formatNat n.natAbs).data := rfl
    rw [hd]
    intro hmem
    rcases List.mem_cons.1 hmem with h | h
    · exact absurd h (by decide)
    · exact hnat h
  · exact hnat

/-! ### Signer -/

/-- The validity `NewBecknSigner` stores for a configured number of seconds. -/
theorem NewBecknSigner_ok {P : Primitives} {sub uk key : String} {v : Int} {s : BecknSigner}
    (h : NewBecknSigner P sub uk key v = .ok s) :
    sub ≠ "" ∧ uk ≠ "" ∧ key ≠ "" ∧ P.b64Decode key = .ok s.signingPrivateKey
      ∧ s.signingPrivateKey.length = 32 ∧ s.subscriberID = sub ∧ s.uniqueKeyID = uk
      ∧ s.signatureValidity
          = if wrapInt64 (v * Second) ≤ 0 then 30 * Second else wrapInt64 (v * Second) := by
  unfold NewBecknSigner at h
  split_ifs at h with h1 h2 h3
  split at h
  · exact absurd h (by simp)
  · rename_i seed hdec
    split_ifs at h with h4
    simp only [Except.ok.injEq] at h
    subst h
    simp only [SeedSize, ne_eq, not_not] at h4
    exact ⟨h1, h2, h3, hdec, h4, rfl, rfl, rfl⟩

theorem GenerateAuthHeader_of_seed (P : Primitives) (s : BecknSigner) (now : Time)
    (payload : Bytes) (hlen : s.signingPrivateKey.length = 32) :
    GenerateAuthHeader P s now payload
      = .ok (formatAuthHeader s.subscriberID s.uniqueKeyID now.Unix
          (now.Add s.signatureValidity).Unix
          (P.b64Encode (P.ed25519Sign s.signingPrivateKey
            (utf8Bytes ("(created): " ++ formatInt now.Unix ++ "\n(expires): "
              ++ formatInt (now.Add s.signatureValidity).Unix ++ "\ndigest: BLAKE-512="
              ++ P.b64Encode (P.blake2b512 payload)))))) := by
  simp [GenerateAuthHeader, createSigningString, sign, hlen, SeedSize]

theorem Unix_Add_seconds (t : Time) (k : Int) : (t.Add (k * Second)).Unix = t.Unix + k := by
  simp only [Time.Add, Time.Unix, Second]
  omega

theorem Unix_le_Unix_Add (t : Time) (d : Int) (hd : 0 ≤ d) : t.Unix ≤ (t.Add d).Unix := by
  simp only [Time.Add, Time.Unix, Second]
  omega

theorem wrapInt64_of_range (n : Int) (h1 : -9223372036854775808 ≤ n)
    (h2 : n ≤ 9223372036854775807) :
    wrapInt64 n = n := by
  unfold wrapInt64
  omega

/-- C1: `NewBecknSigner` returns an error exactly when the subscriber id, the
key id or the key text is empty, the key text does not decode as base64, or
the decoded key is not 32 bytes long; in every other case it returns a signer
holding the given subscriber id and key id and the decoded 32-byte seed. -/
theorem NewBecknSigner_error_iff (P : Primitives) (sub uk key : String) (v : Int) :
    ((∃ msg, NewBecknSigner P sub uk key v = .error msg) ↔
        (sub = "" ∨ uk = "" ∨ key = "" ∨ (∃ err, P.b64Decode key = .error err)
          ∨ ∃ seed, P.b64Decode key = .ok seed ∧ seed.length ≠ 32))
      ∧ ((∃ msg, NewBecknSigner P sub uk key v = .error msg)
          ∨ ∃ seed validity, P.b64Decode key = .ok seed ∧ seed.length = 32
              ∧ NewBecknSigner P sub uk key v
                  = .ok { subscriberID := sub, uniqueKeyID := uk, signingPrivateKey := seed,
                          signatureValidity := validity }) := by
  unfold NewBecknSigner
  by_cases h1 : sub = ""
  · simp [h1]
  by_cases h2 : uk = ""
  · simp [h1, h2]
  by_cases h3 : key = ""
  · simp [h1, h2, h3]
  cases hdec : P.b64Decode key with
  | error err => simp [h1, h2, h3]
  | ok seed =>
    by_cases h4 : seed.length = 32
    · simp [h1, h2, h3, h4, SeedSize]
    · simp [h1, h2, h3, h4, SeedSize]

/-- In the reference instance a 16-byte seed is rejected, with the length
error. -/
theorem NewBecknSigner_rejects_16_bytes :
    NewBecknSigner refPrimitives "bap.example.org" "key-1" shortSeedB64 30
      = .error "invalid signing private key length: expected 32 bytes, got 16" := by
  decide

/-- C2: for a signer built by `NewBecknSigner`, `GenerateAuthHeader` returns
exactly the `Signature keyId=...` header: `created` is the Unix second of the
clock reading, `created` and `expires` are the two integers of the signed
string, and the signature field is the base64 text of the ed25519 signature,
under the stored (decoded) seed, of the UTF-8 bytes of the string
`createSigningString` returns for the payload and these two timestamps. -/
theorem GenerateAuthHeader_exact (P : Primitives) (sub uk key : String) (v : Int)
    (s : BecknSigner) (now : Time) (payload : Bytes)
    (h : NewBecknSigner P sub uk key v = .ok s) :
    ∃ expires signingString,
      expires = (now.Add s.signatureValidity).Unix
      ∧ P.b64Decode key = .ok s.signingPrivateKey
      ∧ createSigningString P s payload now.Unix expires = .ok signingString
      ∧ GenerateAuthHeader P s now payload
          = .ok ("Signature keyId=\"" ++ sub ++ "|" ++ uk
              ++ "|ed25519\",algorithm=\"ed25519\",created=\"" ++ formatInt now.Unix
              ++ "\",expires=\"" ++ formatInt expires
              ++ "\",headers=\"(created) (expires) digest\",signature=\""
              ++ P.b64Encode (P.ed25519Sign s.signingPrivateKey (utf8Bytes signingString))
              ++ "\"") := by
  obtain ⟨-, -, -, hdec, hlen, hsub, huk, -⟩ := NewBecknSigner_ok h
  refine ⟨_, _, rfl, hdec, rfl, ?_⟩
  rw [GenerateAuthHeader_of_seed P s now payload hlen, hsub, huk]
  rfl

/-- C2, at a concrete signer, clock reading and payload. -/
theorem GenerateAuthHeader_exact_witness :
    NewBecknSigner refPrimitives "bap.example.org" "key-1" zeroSeedB64 30 = .ok exampleSigner
      ∧ ∃ expires signingString,
          expires = (Time.Add ⟨1700000000123456789⟩ exampleSigner.signatureValidity).Unix
          ∧ refPrimitives.b64Decode zeroSeedB64 = .ok exampleSigner.signingPrivateKey
          ∧ createSigningString refPrimitives exampleSigner [104, 105]
              (Time.Unix ⟨1700000000123456789⟩) expires = .ok signingString
          ∧ GenerateAuthHeader refPrimitives exampleSigner ⟨1700000000123456789⟩ [104, 105]
              = .ok ("Signature keyId=\"" ++ "bap.example.org" ++ "|" ++ "key-1"
                  ++ "|ed25519\",algorithm=\"ed25519\",created=\""
                  ++ formatInt (Time.Unix ⟨1700000000123456789⟩)
                  ++ "\",expires=\"" ++ formatInt expires
                  ++ "\",headers=\"(created) (expires) digest\",signature=\""
                  ++ refPrimitives.b64Encode (refPrimitives.ed25519Sign
                      exampleSigner.signingPrivateKey (utf8Bytes signingString))
                  ++ "\"") :=
  ⟨by decide,
    GenerateAuthHeader_exact refPrimitives "bap.example.org" "key-1" zeroSeedB64 30
      exampleSigner ⟨1700000000123456789⟩ [104, 105] (by decide)⟩

/-- C3: `createSigningString` returns exactly the three lines
`(created): <created>`, `(expires): <expires>` and
`digest: BLAKE-512=<base64 of the BLAKE2b-512 digest of the payload>`, joined
by single newlines with nothing after the digest, for every payload and every
pair of timestamps; the timestamps are written in decimal (reading the text
back gives the integer). -/
theorem createSigningString_exact (P : Primitives) (s : BecknSigner) (payload : Bytes)
    (created expires : Int) :
    createSigningString P s payload created expires
        = .ok ("(created): " ++ formatInt created ++ "\n" ++ "(expires): " ++ formatInt expires
            ++ "\n" ++ "digest: BLAKE-512=" ++ P.b64Encode (P.blake2b512 payload))
      ∧ createSigningString P s payload created expires
        = .ok (String.intercalate "\n"
            ["(created): " ++ formatInt created,
             "(expires): " ++ formatInt expires,
             "digest: BLAKE-512=" ++ P.b64Encode (P.blake2b512 payload)])
      ∧ parseDecimal (formatInt created) = some created
      ∧ parseDecimal (formatInt expires) = some expires := by
  refine ⟨?_, ?_, parseDecimal_formatInt created, parseDecimal_formatInt expires⟩
  · simp only [createSigningString, String.append_assoc]
    rfl
  · simp only [createSigningString, String.intercalate, String.intercalate.go,
      String.append_assoc]
    rfl

/-- The decimal rendering of timestamps, on examples. -/
theorem formatInt_examples :
    formatInt 1700000000 = "1700000000" ∧ formatInt 0 = "0" ∧ formatInt (-42) = "-42" := by
  decide

/-- C4, as amended: for a configured validity of at most 9223372036 seconds in
absolute value, the range in which the product with `time.Second` fits
`int64`, the header `GenerateAuthHeader` produces has `expires - created`
equal to the configured number of seconds when that is positive, and to 30
when it is zero or negative. -/
theorem validity_window_in_range (P : Primitives) (sub uk key : String) (v : Int)
    (s : BecknSigner) (now : Time) (payload : Bytes)
    (h : NewBecknSigner P sub uk key v = .ok s)
    (hlo : -9223372036 ≤ v) (hhi : v ≤ 9223372036) :
    ∃ created expires signatureB64,
      created = now.Unix ∧ expires = (now.Add s.signatureValidity).Unix
      ∧ GenerateAuthHeader P s now payload
          = .ok (formatAuthHeader sub uk created expires signatureB64)
      ∧ expires - created = if 0 < v then v else 30 := by
  obtain ⟨-, -, -, -, hlen, hsub, huk, hval⟩ := NewBecknSigner_ok h
  have hhead := GenerateAuthHeader_of_seed P s now payload hlen
  rw [hsub, huk] at hhead
  refine ⟨_, _, _, rfl, rfl, hhead, ?_⟩
  have hw : wrapInt64 (v * Second) = v * Second :=
    wrapInt64_of_range _ (by simp only [Second]; omega) (by simp only [Second]; omega)
  rw [hw] at hval
  by_cases hv : 0 < v
  · have : ¬ v * Second ≤ 0 := by simp only [Second]; omega
    rw [if_neg this] at hval
    rw [hval, Unix_Add_seconds, if_pos hv]; ring
  · have : v * Second ≤ 0 := by simp only [Second]; omega
    rw [if_pos this] at hval
    rw [hval, Unix_Add_seconds, if_neg hv]; ring

/-- C4, as amended, at the configured validity 0: the window is 30 seconds. -/
theorem validity_window_in_range_witness :
    NewBecknSigner refPrimitives "bap.example.org" "key-1" zeroSeedB64 0 = .ok exampleSigner
      ∧ ∃ created expires signatureB64,
          created = Time.Unix ⟨1700000000123456789⟩
          ∧ expires = (Time.Add ⟨1700000000123456789⟩ exampleSigner.signatureValidity).Unix
          ∧ GenerateAuthHeader refPrimitives exampleSigner ⟨1700000000123456789⟩ [104, 105]
              = .ok (formatAuthHeader "bap.example.org" "key-1" created expires signatureB64)
          ∧ expires - created = if (0 : Int) < 0 then 0 else 30 :=
  ⟨by decide,
    validity_window_in_range refPrimitives "bap.example.org" "key-1" zeroSeedB64 0
      exampleSigner ⟨1700000000123456789⟩ [104, 105] (by decide) (by decide) (by decide)⟩

/-- At the configured validity 9223372037, whatever the primitives: the
product with `time.Second` leaves the range of `int64` and wraps to a
negative duration, the signer falls back to 30 seconds, and every header has
`expires` 30 seconds after `created`. -/
theorem validity_9223372037_wraps_to_30 (P : Primitives) (sub uk key : String)
    (s : BecknSigner) (now : Time) (payload : Bytes)
    (h : NewBecknSigner P sub uk key 9223372037 = .ok s) :
    s.signatureValidity = 30 * Second
      ∧ (now.Add s.signatureValidity).Unix - now.Unix = 30
      ∧ ∃ signatureB64, GenerateAuthHeader P s now payload
          = .ok (formatAuthHeader sub uk now.Unix (now.Unix + 30) signatureB64) := by
  obtain ⟨-, -, -, -, hlen, hsub, huk, hval⟩ := NewBecknSigner_ok h
  have hw : wrapInt64 (9223372037 * Second) = -9223372036709551616 := by decide
  rw [hw, if_pos (by decide)] at hval
  have hu : (now.Add s.signatureValidity).Unix = now.Unix + 30 := by
    rw [hval, Unix_Add_seconds]
  refine ⟨hval, by rw [hu]; ring, ?_⟩
  rw [GenerateAuthHeader_of_seed P s now payload hlen, hu, hsub, huk]
  exact ⟨_, rfl⟩

/-- C4, as stated, fails at the configured validity 9223372037: the signer is
built, the number of seconds is positive, and the header generated at the
clock reading 1700000000.123456789 has `created` 1700000000 and `expires`
1700000030, so that `expires - created` is 30 and not 9223372037. -/
theorem validity_window_fails_at_9223372037 :
    NewBecknSigner refPrimitives "bap.example.org" "key-1" zeroSeedB64 9223372037
        = .ok exampleSigner
      ∧ (0 : Int) < 9223372037
      ∧ (∃ signatureB64,
          GenerateAuthHeader refPrimitives exampleSigner ⟨1700000000123456789⟩ [104, 105]
            = .ok (formatAuthHeader "bap.example.org" "key-1" 1700000000 1700000030
                signatureB64))
      ∧ (Time.Add ⟨1700000000123456789⟩ exampleSigner.signatureValidity).Unix
          - Time.Unix ⟨1700000000123456789⟩ = 30
      ∧ (Time.Add ⟨1700000000123456789⟩ exampleSigner.signatureValidity).Unix
          - Time.Unix ⟨1700000000123456789⟩ ≠ 9223372037 := by
  have hhead := GenerateAuthHeader_of_seed refPrimitives exampleSigner
    ⟨1700000000123456789⟩ [104, 105] (by decide)
  exact ⟨by decide, by decide, ⟨_, hhead⟩, by decide, by decide⟩

/-- The validity 9223372037 is one the configuration can carry: `strconv.Atoi`
accepts the text, as it does every `int64`. -/
theorem Atoi_accepts_9223372037 : Atoi "9223372037" = some 9223372037 := by
  decide

/-- At the configured validity -9223372037 the product wraps to a positive
duration, so the default of 30 seconds is not applied: the validity stored is
9223372036709551616 nanoseconds. -/
theorem validity_neg_9223372037_wraps_positive (P : Primitives) (sub uk key : String)
    (s : BecknSigner) (h : NewBecknSigner P sub uk key (-9223372037) = .ok s) :
    s.signatureValidity = 9223372036709551616
      ∧ (Time.Add ⟨0⟩ s.signatureValidity).Unix - Time.Unix ⟨0⟩ = 9223372036 := by
  obtain ⟨-, -, -, -, -, -, -, hval⟩ := NewBecknSigner_ok h
  have hw : wrapInt64 (-9223372037 * Second) = 9223372036709551616 := by decide
  rw [hw, if_neg (by decide)] at hval
  rw [hval]
  exact ⟨rfl, by decide⟩

/-- C7: every signer `NewBecknSigner` returns, whatever the configured number
of seconds, has a strictly positive validity, and so the `created` and
`expires` values `GenerateAuthHeader` writes into the header satisfy
`created ≤ expires`, for every clock reading and payload. -/
theorem validity_pos_created_le_expires (P : Primitives) (sub uk key : String) (v : Int)
    (s : BecknSigner) (now : Time) (payload : Bytes)
    (h : NewBecknSigner P sub uk key v = .ok s) :
    0 < s.signatureValidity
      ∧ ∃ created expires signatureB64,
          created = now.Unix ∧ expires = (now.Add s.signatureValidity).Unix
          ∧ GenerateAuthHeader P s now payload
              = .ok (formatAuthHeader sub uk created expires signatureB64)
          ∧ created ≤ expires := by
  obtain ⟨-, -, -, -, hlen, hsub, huk, hval⟩ := NewBecknSigner_ok h
  have hpos : 0 < s.signatureValidity := by
    rw [hval]
    split_ifs with hw
    · decide
    · omega
  have hhead := GenerateAuthHeader_of_seed P s now payload hlen
  rw [hsub, huk] at hhead
  exact ⟨hpos, _, _, _, rfl, rfl, hhead, Unix_le_Unix_Add now _ (le_of_lt hpos)⟩

/-- C7, at a concrete signer built with a negative number of seconds. -/
theorem validity_pos_created_le_expires_witness :
    NewBecknSigner refPrimitives "bap.example.org" "key-1" zeroSeedB64 (-5) = .ok exampleSigner
      ∧ 0 < exampleSigner.signatureValidity
      ∧ ∃ created expires signatureB64,
          created = Time.Unix ⟨1700000000123456789⟩
          ∧ expires = (Time.Add ⟨1700000000123456789⟩ exampleSigner.signatureValidity).Unix
          ∧ GenerateAuthHeader refPrimitives exampleSigner ⟨1700000000123456789⟩ [104, 105]
              = .ok (formatAuthHeader "bap.example.org" "key-1" created expires signatureB64)
          ∧ created ≤ expires :=
  ⟨by decide,
    validity_pos_created_le_expires refPrimitives "bap.example.org" "key-1" zeroSeedB64 (-5)
      exampleSigner ⟨1700000000123456789⟩ [104, 105] (by decide)⟩

/-- An operation of a body that only reads leaves the world as it is, and what
remains of the body only reads. -/
theorem step_of_ReadOnly {α : Type} (now : Time) (w : World) (p : Prog α) (h : p.ReadOnly) :
    (p.step now w).2 = w ∧ (p.step now w).1.ReadOnly := by
  cases h with
  | done result => exact ⟨rfl, .done result⟩
  | timeNow h => exact ⟨rfl, h _⟩
  | readSubscriberID h => exact ⟨rfl, h _⟩
  | readUniqueKeyID h => exact ⟨rfl, h _⟩
  | readSigningPrivateKey h => exact ⟨rfl, h _⟩
  | readSignatureValidity h => exact ⟨rfl, h _⟩

/-- A caller that only reads and calls a method that only reads, only reads. -/
theorem bind_ReadOnly {α β : Type} (p : Prog α) (f : α → Prog β) (hp : p.ReadOnly)
    (hf : ∀ a, (f a).ReadOnly) : (p.bind f).ReadOnly := by
  induction hp with
  | done result => exact hf result
  | timeNow _ ih => exact .timeNow ih
  | readSubscriberID _ ih => exact .readSubscriberID ih
  | readUniqueKeyID _ ih => exact .readUniqueKeyID ih
  | readSigningPrivateKey _ ih => exact .readSigningPrivateKey ih
  | readSignatureValidity _ ih => exact .readSignatureValidity ih

/-- The body of `createSigningString` only reads. -/
theorem createSigningStringProg_ReadOnly (P : Primitives) (payload : Bytes)
    (createdAt expiresAt : Int) :
    (createSigningStringProg P payload createdAt expiresAt).ReadOnly :=
  .done _

/-- The body of `sign` only reads. -/
theorem signProg_ReadOnly (P : Primitives) (data : Bytes) : (signProg P data).ReadOnly := by
  refine .readSigningPrivateKey (fun seed => ?_)
  by_cases h : seed.length ≠ SeedSize
  · rw [if_pos h]; exact .done _
  · rw [if_neg h]; exact .done _

/-- The body of `GenerateAuthHeader` only reads. -/
theorem GenerateAuthHeaderProg_ReadOnly (P : Primitives) (payload : Bytes) :
    (GenerateAuthHeaderProg P payload).ReadOnly := by
  refine .timeNow (fun now => .readSignatureValidity (fun validity => ?_))
  refine bind_ReadOnly _ _ (createSigningStringProg_ReadOnly _ _ _ _) (fun r => ?_)
  rcases r with (err | msg) | signingString
  · exact .done _
  · exact .done _
  · refine bind_ReadOnly _ _ (signProg_ReadOnly _ _) (fun r => ?_)
    rcases r with (err | msg) | signature
    · exact .done _
    · exact .done _
    · exact .readSubscriberID (fun _ => .readUniqueKeyID (fun _ => .done _))

/-- A body that has returned stays as it is. -/
theorem runAlone_done {α : Type} (result : α) (w : World) :
    ∀ readings : List Time, Prog.runAlone readings (.done result) w = (.done result, w)
  | [] => rfl
  | _ :: rest => by
    simp only [Prog.runAlone, Prog.step]
    exact runAlone_done result w rest

/-- The body of `GenerateAuthHeader`, run alone to its return, returns what
`GenerateAuthHeader` computes from the signer, the clock reading and the
payload, and leaves the world as it found it. -/
theorem GenerateAuthHeaderProg_exec (P : Primitives) (payload : Bytes) (now : Time) (w : World) :
    (GenerateAuthHeaderProg P payload).exec now w
      = (GenerateAuthHeader P w.signer now payload, w) := by
  simp only [GenerateAuthHeaderProg, createSigningStringProg, signProg, Prog.exec, Prog.bind,
    GenerateAuthHeader, createSigningString, sign]
  by_cases h : w.signer.signingPrivateKey.length ≠ SeedSize
  · simp only [if_pos h, Prog.bind, Prog.exec]
  · simp only [if_neg h, Prog.bind, Prog.exec]

/-- The body of `GenerateAuthHeader` run alone, operation by operation: once
it has returned, it has returned what `GenerateAuthHeader` computes from the
signer, the first clock reading and the payload; and it has returned after
five operations. -/
theorem GenerateAuthHeaderProg_runAlone (P : Primitives) (payload : Bytes) (w : World)
    (now : Time) (rest : List Time) :
    (∀ r, (Prog.runAlone (now :: rest) (GenerateAuthHeaderProg P payload) w).1.result? = some r →
        r = GenerateAuthHeader P w.signer now payload)
      ∧ (4 ≤ rest.length →
        (Prog.runAlone (now :: rest) (GenerateAuthHeaderProg P payload) w).1.result?
          = some (GenerateAuthHeader P w.signer now payload)) := by
  have hpure : GenerateAuthHeader P w.signer now payload
      = if w.signer.signingPrivateKey.length ≠ SeedSize then
          .error (.panic ("ed25519: bad seed length: "
            ++ formatNat w.signer.signingPrivateKey.length))
        else .ok (formatAuthHeader w.signer.subscriberID w.signer.uniqueKeyID now.Unix
          (now.Add w.signer.signatureValidity).Unix
          (P.b64Encode (P.ed25519Sign w.signer.signingPrivateKey
            (utf8Bytes ("(created): " ++ formatInt now.Unix ++ "\n(expires): "
              ++ formatInt (now.Add w.signer.signatureValidity).Unix
              ++ "\ndigest: BLAKE-512=" ++ P.b64Encode (P.blake2b512 payload)))))) := by
    simp only [GenerateAuthHeader, createSigningString, sign]
    by_cases h : w.signer.signingPrivateKey.length ≠ SeedSize
    · simp only [if_pos h]
    · simp only [if_neg h]
  rw [hpure]
  rcases rest with _ | ⟨t1, _ | ⟨t2, _ | ⟨t3, _ | ⟨t4, rest⟩⟩⟩⟩
  · refine ⟨fun r hr => ?_, fun hlen => absurd hlen (by simp)⟩
    simp [Prog.runAlone, Prog.step, GenerateAuthHeaderProg, Prog.result?] at hr
  · refine ⟨fun r hr => ?_, fun hlen => absurd hlen (by simp)⟩
    simp only [Prog.runAlone, Prog.step, GenerateAuthHeaderProg, createSigningStringProg,
      signProg, Prog.bind, Prog.result?] at hr
    cases hr
  · by_cases h : w.signer.signingPrivateKey.length ≠ SeedSize
    · refine ⟨fun r hr => ?_, fun hlen => absurd hlen (by simp)⟩
      simp only [Prog.runAlone, Prog.step, GenerateAuthHeaderProg, createSigningStringProg,
        signProg, Prog.bind, if_pos h, Prog.result?, Option.some.injEq] at hr
      rw [if_pos h, ← hr]
    · refine ⟨fun r hr => ?_, fun hlen => absurd hlen (by simp)⟩
      simp only [Prog.runAlone, Prog.step, GenerateAuthHeaderProg, createSigningStringProg,
        signProg, Prog.bind, if_neg h, Prog.result?] at hr
      cases hr
  · by_cases h : w.signer.signingPrivateKey.length ≠ SeedSize
    · refine ⟨fun r hr => ?_, fun hlen => absurd hlen (by simp)⟩
      simp only [Prog.runAlone, Prog.step, GenerateAuthHeaderProg, createSigningStringProg,
        signProg, Prog.bind, if_pos h, Prog.result?, Option.some.injEq] at hr
      rw [if_pos h, ← hr]
    · refine ⟨fun r hr => ?_, fun hlen => absurd hlen (by simp)⟩
      simp only [Prog.runAlone, Prog.step, GenerateAuthHeaderProg, createSigningStringProg,
        signProg, Prog.bind, if_neg h, Prog.result?] at hr
      cases hr
  · have hrun : (Prog.runAlone (now :: t1 :: t2 :: t3 :: t4 :: rest)
        (GenerateAuthHeaderProg P payload) w).1.result?
        = some (if w.signer.signingPrivateKey.length ≠ SeedSize then
          .error (.panic ("ed25519: bad seed length: "
            ++ formatNat w.signer.signingPrivateKey.length))
        else .ok (formatAuthHeader w.signer.subscriberID w.signer.uniqueKeyID now.Unix
          (now.Add w.signer.signatureValidity).Unix
          (P.b64Encode (P.ed25519Sign w.signer.signingPrivateKey
            (utf8Bytes ("(created): " ++ formatInt now.Unix ++ "\n(expires): "
              ++ formatInt (now.Add w.signer.signatureValidity).Unix
              ++ "\ndigest: BLAKE-512=" ++ P.b64Encode (P.blake2b512 payload))))))) := by
      by_cases h : w.signer.signingPrivateKey.length ≠ SeedSize
      · simp only [Prog.runAlone, Prog.step, GenerateAuthHeaderProg, createSigningStringProg,
          signProg, Prog.bind, if_pos h, runAlone_done, Prog.result?]
      · simp only [Prog.runAlone, Prog.step, GenerateAuthHeaderProg, createSigningStringProg,
          signProg, Prog.bind, if_neg h, runAlone_done, Prog.result?]
    rw [hrun]
    exact ⟨fun r hr => (Option.some.inj hr).symm, fun _ => rfl⟩

/-- The clock readings of call `i` in a schedule that begins with an operation
of call `i`. -/
theorem readings_cons_self (i : Nat) (now : Time) (rest : List (Nat × Time)) :
    readings i ((i, now) :: rest) = now :: readings i rest := by
  simp [readings]

/-- The clock readings of call `i` in a schedule that begins with an operation
of another call. -/
theorem readings_cons_ne (i j : Nat) (now : Time) (rest : List (Nat × Time)) (h : j ≠ i) :
    readings i ((j, now) :: rest) = readings i rest := by
  simp [readings, h]

/-- Calls that only read do not meet: under any schedule the world stays as it
was, and each call is where it would be had it run alone on the clock readings
of its own operations. -/
theorem run_of_ReadOnly {α : Type} :
    ∀ (schedule : List (Nat × Time)) (cs : Calls α),
      (∀ p ∈ cs.bodies, p.ReadOnly) →
      (cs.run schedule).world = cs.world
        ∧ ∀ i, (cs.run schedule).bodies[i]?
            = (cs.bodies[i]?).map
                (fun p => (Prog.runAlone (readings i schedule) p cs.world).1)
  | [], cs, _ => by
    refine ⟨rfl, fun i => ?_⟩
    simp only [Calls.run, readings, List.filter_nil, List.map_nil, Prog.runAlone]
    cases cs.bodies[i]? <;> rfl
  | (j, now) :: rest, cs, hro => by
    cases hj : cs.bodies[j]? with
    | none =>
      have hstep : cs.step j now = cs := by simp only [Calls.step, hj]
      obtain ⟨hw, hc⟩ := run_of_ReadOnly rest cs hro
      simp only [Calls.run, hstep]
      refine ⟨hw, fun i => ?_⟩
      by_cases hji : j = i
      · subst hji
        rw [hc j, hj]
        rfl
      · rw [hc i, readings_cons_ne i j now rest hji]
    | some p =>
      have hp : p.ReadOnly := hro p (List.getElem?_mem hj)
      obtain ⟨hw1, hp1⟩ := step_of_ReadOnly now cs.world p hp
      have hstep : cs.step j now
          = { world := cs.world, bodies := cs.bodies.set j (p.step now cs.world).1 } := by
        simp only [Calls.step, hj, hw1]
      have hro1 : ∀ q ∈ (cs.step j now).bodies, q.ReadOnly := by
        intro q hq
        rw [hstep] at hq
        rcases List.mem_or_eq_of_mem_set hq with hq | hq
        · exact hro q hq
        · exact hq ▸ hp1
      obtain ⟨hw, hc⟩ := run_of_ReadOnly rest (cs.step j now) hro1
      simp only [Calls.run]
      refine ⟨?_, fun i => ?_⟩
      · rw [hw, hstep]
      · rw [hc i, hstep]
        by_cases hji : j = i
        · subst hji
          have hlt : j < cs.bodies.length := by
            by_contra hge
            rw [List.getElem?_eq_none (Nat.le_of_not_lt hge)] at hj
            cases hj
          rw [readings_cons_self, hj]
          simp only [List.getElem?_set_self hlt, Option.map_some', Prog.runAlone, hw1]
        · simp only [List.getElem?_set_ne hji]
          rw [readings_cons_ne i j now rest hji]

/-- C8: `GenerateAuthHeader` assigns to no field of the signer and reads no
random source, and what a call returns is a function of the signer, the clock
reading it obtains and its payload. The body of the method only reads; run
alone it returns what `GenerateAuthHeader` computes and leaves the world as it
found it. For any number of calls in progress on one signer and any
interleaving of their operations: the signer (subscriberID, uniqueKeyID, seed,
validity) and the random source are as they were; a call that has returned has
returned what `GenerateAuthHeader` computes from the signer, the clock reading
the call obtained and its own payload, whatever the other calls and the
schedule; a call has returned after five of its operations; and two calls
with the same clock reading and the same payload return the same result. -/
theorem GenerateAuthHeader_deterministic (P : Primitives) (w : World) (payloads : List Bytes)
    (schedule : List (Nat × Time)) :
    (∀ payload, (GenerateAuthHeaderProg P payload).ReadOnly)
      ∧ (∀ payload now, (GenerateAuthHeaderProg P payload).exec now w
          = (GenerateAuthHeader P w.signer now payload, w))
      ∧ ((Calls.start w (payloads.map (GenerateAuthHeaderProg P))).run schedule).world = w
      ∧ (∀ i payload r, payloads[i]? = some payload →
          ((Calls.start w (payloads.map (GenerateAuthHeaderProg P))).run schedule).result? i
            = some r →
          ∃ now, (readings i schedule).head? = some now
            ∧ r = GenerateAuthHeader P w.signer now payload)
      ∧ (∀ i payload now, payloads[i]? = some payload →
          (readings i schedule).head? = some now → 5 ≤ (readings i schedule).length →
          ((Calls.start w (payloads.map (GenerateAuthHeaderProg P))).run schedule).result? i
            = some (GenerateAuthHeader P w.signer now payload))
      ∧ (∀ i j payload now r1 r2, payloads[i]? = some payload → payloads[j]? = some payload →
          (readings i schedule).head? = some now → (readings j schedule).head? = some now →
          ((Calls.start w (payloads.map (GenerateAuthHeaderProg P))).run schedule).result? i
            = some r1 →
          ((Calls.start w (payloads.map (GenerateAuthHeaderProg P))).run schedule).result? j
            = some r2 →
          r1 = r2) := by
  have hro : ∀ p ∈ (Calls.start w (payloads.map (GenerateAuthHeaderProg P))).bodies,
      p.ReadOnly := by
    intro p hp
    simp only [Calls.start, List.mem_map] at hp
    obtain ⟨payload, -, rfl⟩ := hp
    exact GenerateAuthHeaderProg_ReadOnly P payload
  obtain ⟨hw, hc⟩ := run_of_ReadOnly schedule _ hro
  have hres : ∀ i payload, payloads[i]? = some payload →
      ((Calls.start w (payloads.map (GenerateAuthHeaderProg P))).run schedule).result? i
        = (Prog.runAlone (readings i schedule) (GenerateAuthHeaderProg P payload) w).1.result? := by
    intro i payload hi
    simp only [Calls.result?, hc i]
    simp only [Calls.start, List.getElem?_map, hi, Option.map_some', Option.some_bind]
  have hret : ∀ i payload r, payloads[i]? = some payload →
      ((Calls.start w (payloads.map (GenerateAuthHeaderProg P))).run schedule).result? i
        = some r →
      ∃ now, (readings i schedule).head? = some now
        ∧ r = GenerateAuthHeader P w.signer now payload := by
    intro i payload r hi hr
    rw [hres i payload hi] at hr
    cases hrd : readings i schedule with
    | nil =>
      rw [hrd] at hr
      simp [Prog.runAlone, GenerateAuthHeaderProg, Prog.result?] at hr
    | cons now rest =>
      rw [hrd] at hr
      exact ⟨now, rfl, (GenerateAuthHeaderProg_runAlone P payload w now rest).1 r hr⟩
  refine ⟨GenerateAuthHeaderProg_ReadOnly P, fun payload now =>
    GenerateAuthHeaderProg_exec P payload now w, hw, hret, ?_, ?_⟩
  · intro i payload now hi hhead hlen
    rw [hres i payload hi]
    cases hrd : readings i schedule with
    | nil =>
      rw [hrd] at hhead
      cases hhead
    | cons now1 rest =>
      rw [hrd] at hhead hlen
      simp only [List.head?_cons, Option.some.injEq] at hhead
      subst hhead
      exact (GenerateAuthHeaderProg_runAlone P payload w now1 rest).2
        (by simpa using hlen)
  · intro i j payload now r1 r2 hi hj hni hnj h1 h2
    obtain ⟨n1, hn1, e1⟩ := hret i payload r1 hi h1
    obtain ⟨n2, hn2, e2⟩ := hret j payload r2 hj h2
    rw [hni] at hn1
    rw [hnj] at hn2
    cases hn1
    cases hn2
    rw [e1, e2]

/-- C8, at two calls with the same payload on the example signer, their
operations alternating: the world is as it was, and both calls have returned
the header `GenerateAuthHeader` computes at the common clock reading. -/
theorem GenerateAuthHeader_deterministic_witness :
    ((Calls.start exampleWorld
        ([[104, 105], [104, 105]].map (GenerateAuthHeaderProg refPrimitives))).run
          exampleSchedule).world = exampleWorld
      ∧ ((Calls.start exampleWorld
          ([[104, 105], [104, 105]].map (GenerateAuthHeaderProg refPrimitives))).run
            exampleSchedule).result? 0
          = some (GenerateAuthHeader refPrimitives exampleWorld.signer ⟨1700000000123456789⟩
              [104, 105])
      ∧ ((Calls.start exampleWorld
          ([[104, 105], [104, 105]].map (GenerateAuthHeaderProg refPrimitives))).run
            exampleSchedule).result? 1
          = some (GenerateAuthHeader refPrimitives exampleWorld.signer ⟨1700000000123456789⟩
              [104, 105])
      ∧ (GenerateAuthHeader refPrimitives exampleWorld.signer ⟨1700000000123456789⟩
          [104, 105]).isOk = true :=
  ⟨(GenerateAuthHeader_deterministic refPrimitives exampleWorld [[104, 105], [104, 105]]
      exampleSchedule).2.2.1,
    (GenerateAuthHeader_deterministic refPrimitives exampleWorld [[104, 105], [104, 105]]
      exampleSchedule).2.2.2.2.1 0 [104, 105] ⟨1700000000123456789⟩ (by decide) (by decide)
      (by decide),
    (GenerateAuthHeader_deterministic refPrimitives exampleWorld [[104, 105], [104, 105]]
      exampleSchedule).2.2.2.2.1 1 [104, 105] ⟨1700000000123456789⟩ (by decide) (by decide)
      (by decide),
    by decide⟩

/-- The semantics sees an assignment: with a body that assigns to
`s.signatureValidity` and draws from the random source scheduled after the
clock reading of a call of `GenerateAuthHeader`, the world is changed and the
call returns another header than on the signer it started with. -/
theorem assignment_is_observed :
    ¬ exampleAssigning.ReadOnly
      ∧ ((Calls.start exampleWorld
          [GenerateAuthHeaderProg refPrimitives [104, 105], exampleAssigning]).run
            [(0, ⟨1700000000123456789⟩), (1, ⟨1700000000123456789⟩),
             (1, ⟨1700000000123456789⟩), (0, ⟨1700000000123456789⟩),
             (0, ⟨1700000000123456789⟩), (0, ⟨1700000000123456789⟩),
             (0, ⟨1700000000123456789⟩)]).world
          = { signer := { exampleSigner with signatureValidity := 60 * Second },
              entropy := [8, 9] }
      ∧ ((Calls.start exampleWorld
          [GenerateAuthHeaderProg refPrimitives [104, 105], exampleAssigning]).run
            [(0, ⟨1700000000123456789⟩), (1, ⟨1700000000123456789⟩),
             (1, ⟨1700000000123456789⟩), (0, ⟨1700000000123456789⟩),
             (0, ⟨1700000000123456789⟩), (0, ⟨1700000000123456789⟩),
             (0, ⟨1700000000123456789⟩)]).result? 0
          ≠ some (GenerateAuthHeader refPrimitives exampleSigner ⟨1700000000123456789⟩
              [104, 105]) := by
  refine ⟨fun h => ?_, by decide, by decide⟩
  cases h

/-- A text is cut in one way at the first occurrence of a character. -/
theorem append_cons_unique {α : Type} (c : α) :
    ∀ (l1 l2 r1 r2 : List α), c ∉ l1 → c ∉ l2 → l1 ++ c :: r1 = l2 ++ c :: r2 →
      l1 = l2 ∧ r1 = r2
  | [], [], r1, r2, _, _, h => by
    simp only [List.nil_append, List.cons.injEq, true_and] at h
    exact ⟨rfl, h⟩
  | [], y :: l2, r1, r2, _, h2, h => by
    simp only [List.nil_append, List.cons_append, List.cons.injEq] at h
    exact absurd (List.mem_cons.2 (Or.inl h.1)) h2
  | x :: l1, [], r1, r2, h1, _, h => by
    simp only [List.nil_append, List.cons_append, List.cons.injEq] at h
    exact absurd (List.mem_cons.2 (Or.inl h.1.symm)) h1
  | x :: l1, y :: l2, r1, r2, h1, h2, h => by
    simp only [List.cons_append, List.cons.injEq] at h
    obtain ⟨e1, e2⟩ := append_cons_unique c l1 l2 r1 r2
      (fun hm => h1 (List.mem_cons_of_mem _ hm)) (fun hm => h2 (List.mem_cons_of_mem _ hm)) h.2
    exact ⟨by rw [h.1, e1], e2⟩

/-- The signing string determines both timestamps and the digest text: two
signing strings are equal only if they were built from the same `created`,
the same `expires` and the same encoded digest. -/
theorem createSigningString_injective (P : Primitives) (s s' : BecknSigner)
    (payload payload' : Bytes) (created expires created' expires' : Int)
    (h : createSigningString P s payload created expires
      = createSigningString P s' payload' created' expires') :
    created = created' ∧ expires = expires'
      ∧ P.b64Encode (P.blake2b512 payload) = P.b64Encode (P.blake2b512 payload') := by
  simp only [createSigningString, Except.ok.injEq] at h
  have hd := congrArg String.data h
  simp only [String.data_append, List.append_assoc, List.cons_append, List.nil_append,
    List.cons.injEq, true_and] at hd
  obtain ⟨hc, hd⟩ := append_cons_unique '\n' _ _ _ _ (formatInt_no_newline created)
    (formatInt_no_newline created') hd
  simp only [List.cons.injEq, true_and] at hd
  obtain ⟨he, hd⟩ := append_cons_unique '\n' _ _ _ _ (formatInt_no_newline expires)
    (formatInt_no_newline expires') hd
  simp only [List.cons.injEq, true_and] at hd
  exact ⟨formatInt_injective (String.ext hc), formatInt_injective (String.ext he),
    String.ext hd⟩

/-- Headers generated at different `created` seconds are signatures of
different strings. -/
theorem signingString_ne_of_created_ne (P : Primitives) (s : BecknSigner) (payload : Bytes)
    (created expires created' expires' : Int) (h : created ≠ created') :
    createSigningString P s payload created expires
      ≠ createSigningString P s payload created' expires' :=
  fun heq => h (createSigningString_injective P s s payload payload _ _ _ _ heq).1

/-- With the timestamps held equal, the signing strings of two payloads
differ exactly when their encoded digests do. -/
theorem signingString_ne_iff_digest_ne (P : Primitives) (s : BecknSigner)
    (payload payload' : Bytes) (created expires : Int) :
    createSigningString P s payload created expires
        ≠ createSigningString P s payload' created expires
      ↔ P.b64Encode (P.blake2b512 payload) ≠ P.b64Encode (P.blake2b512 payload') := by
  constructor
  · intro hne hdig
    exact hne (by simp only [createSigningString, hdig])
  · intro hne heq
    exact hne (createSigningString_injective P s s payload payload' _ _ _ _ heq).2.2

/-- Two payloads with the same digest get the same header at the same clock
reading: that a changed payload changes the signature rests on the digest
being free of collisions. -/
theorem GenerateAuthHeader_of_digest_eq (P : Primitives) (s : BecknSigner) (now : Time)
    (payload payload' : Bytes) (h : P.blake2b512 payload = P.blake2b512 payload') :
    GenerateAuthHeader P s now payload = GenerateAuthHeader P s now payload' := by
  simp only [GenerateAuthHeader, createSigningString, h]

/-! ### Configuration -/

theorem lookupNonEmpty_eq_none_iff (cfg : StringMap) (key : String) :
    lookupNonEmpty cfg key = none ↔ cfgValue cfg key = "" := by
  unfold lookupNonEmpty cfgValue
  cases cfg key with
  | none => simp
  | some v => by_cases hv : v = "" <;> simp [hv]

theorem lookupNonEmpty_eq_some_iff (cfg : StringMap) (key v : String) :
    lookupNonEmpty cfg key = some v ↔ cfgValue cfg key = v ∧ v ≠ "" := by
  unfold lookupNonEmpty cfgValue
  cases cfg key with
  | none =>
    constructor
    · intro h; cases h
    · rintro ⟨h1, h2⟩; exact absurd h1.symm h2
  | some w =>
    by_cases hw : w = ""
    · subst hw
      constructor
      · intro h; simp at h
      · rintro ⟨h1, h2⟩; exact absurd h1.symm h2
    · constructor
      · intro h
        simp only [ne_eq, hw, not_false_eq_true, ↓reduceIte, Option.some.injEq] at h
        subst h; exact ⟨rfl, hw⟩
      · rintro ⟨h1, -⟩
        simp only [Option.getD_some] at h1
        subst h1
        simp [hw]

theorem parseLedgerHost_signing {cfg : StringMap} {c c1 : Config}
    (h : parseLedgerHost cfg c = .ok c1) :
    c1.SigningPrivateKey = c.SigningPrivateKey ∧ c1.SubscriberID = c.SubscriberID
      ∧ c1.UniqueKeyID = c.UniqueKeyID := by
  unfold parseLedgerHost at h
  cases hl : lookupNonEmpty cfg "ledgerHost" <;> simp only [hl] at h <;> split_ifs at h <;>
    cases h <;> simp

theorem parseRole_signing {cfg : StringMap} {c c1 : Config}
    (h : parseRole cfg c = .ok c1) :
    c1.SigningPrivateKey = c.SigningPrivateKey ∧ c1.SubscriberID = c.SubscriberID
      ∧ c1.UniqueKeyID = c.UniqueKeyID := by
  unfold parseRole at h
  split at h
  · split_ifs at h
    cases h; simp
  · cases h; simp

theorem parseActions_signing {cfg : StringMap} {c c1 : Config}
    (h : parseActions cfg c = .ok c1) :
    c1.SigningPrivateKey = c.SigningPrivateKey ∧ c1.SubscriberID = c.SubscriberID
      ∧ c1.UniqueKeyID = c.UniqueKeyID := by
  unfold parseActions at h
  split at h
  · split at h
    · cases h
    · cases h; simp
  · cases h; simp

theorem parseEnabled_signing (cfg : StringMap) (c : Config) :
    (parseEnabled cfg c).SigningPrivateKey = c.SigningPrivateKey
      ∧ (parseEnabled cfg c).SubscriberID = c.SubscriberID
      ∧ (parseEnabled cfg c).UniqueKeyID = c.UniqueKeyID := by
  unfold parseEnabled
  split <;> simp

theorem parseAsyncTimeout_signing {cfg : StringMap} {c c1 : Config}
    (h : parseAsyncTimeout cfg c = .ok c1) :
    c1.SigningPrivateKey = c.SigningPrivateKey ∧ c1.SubscriberID = c.SubscriberID
      ∧ c1.UniqueKeyID = c.UniqueKeyID := by
  unfold parseAsyncTimeout at h
  split at h
  · split at h
    · cases h
    · cases h; simp
  · cases h; simp

theorem parseRetryCount_signing {cfg : StringMap} {c c1 : Config}
    (h : parseRetryCount cfg c = .ok c1) :
    c1.SigningPrivateKey = c.SigningPrivateKey ∧ c1.SubscriberID = c.SubscriberID
      ∧ c1.UniqueKeyID = c.UniqueKeyID := by
  unfold parseRetryCount at h
  split at h
  · split at h
    · cases h
    · cases h; simp
  · cases h; simp

theorem parseAuthAndDebug_signing (cfg : StringMap) (c : Config) :
    (parseAuthAndDebug cfg c).SigningPrivateKey = c.SigningPrivateKey
      ∧ (parseAuthAndDebug cfg c).SubscriberID = c.SubscriberID
      ∧ (parseAuthAndDebug cfg c).UniqueKeyID = c.UniqueKeyID := by
  unfold parseAuthAndDebug
  split <;> split <;> split <;> simp

theorem parseSignatureValidity_signing {cfg : StringMap} {c c1 : Config}
    (h : parseSignatureValidity cfg c = .ok c1) :
    c1.SigningPrivateKey = c.SigningPrivateKey ∧ c1.SubscriberID = c.SubscriberID
      ∧ c1.UniqueKeyID = c.UniqueKeyID := by
  unfold parseSignatureValidity at h
  split at h
  · split at h
    · cases h
    · cases h; simp
  · cases h; simp

/-- What the explicit keys and aliases give, from empty signing fields. -/
theorem parseSigningKeys_fields (cfg : StringMap) (c : Config)
    (hk : c.SigningPrivateKey = "") (hs : c.SubscriberID = "") (hu : c.UniqueKeyID = "") :
    (parseSigningKeys cfg c).SigningPrivateKey = cfgValue cfg "signingPrivateKey"
      ∧ (parseSigningKeys cfg c).SubscriberID
          = (if cfgValue cfg "subscriberId" ≠ "" then cfgValue cfg "subscriberId"
              else cfgValue cfg "networkParticipant")
      ∧ (parseSigningKeys cfg c).UniqueKeyID
          = (if cfgValue cfg "uniqueKeyId" ≠ "" then cfgValue cfg "uniqueKeyId"
              else cfgValue cfg "keyId") := by
  unfold parseSigningKeys
  cases h1 : lookupNonEmpty cfg "signingPrivateKey" <;>
    cases h2 : lookupNonEmpty cfg "subscriberId" <;>
    cases h3 : lookupNonEmpty cfg "networkParticipant" <;>
    cases h4 : lookupNonEmpty cfg "uniqueKeyId" <;>
    cases h5 : lookupNonEmpty cfg "keyId" <;>
    simp only [lookupNonEmpty_eq_none_iff, lookupNonEmpty_eq_some_iff] at h1 h2 h3 h4 h5 <;>
    simp_all

/-- The signing fields after the explicit part of `ParseConfig`. -/
theorem parseExplicit_signing {cfg : StringMap} {c0 : Config}
    (h : parseExplicit cfg = .ok c0) :
    c0.SigningPrivateKey = cfgValue cfg "signingPrivateKey"
      ∧ c0.SubscriberID
          = (if cfgValue cfg "subscriberId" ≠ "" then cfgValue cfg "subscriberId"
              else cfgValue cfg "networkParticipant")
      ∧ c0.UniqueKeyID
          = (if cfgValue cfg "uniqueKeyId" ≠ "" then cfgValue cfg "uniqueKeyId"
              else cfgValue cfg "keyId") := by
  unfold parseExplicit at h
  simp only [bind, Except.bind] at h
  split at h; · simp at h
  rename_i c1 h1
  split at h; · simp at h
  rename_i c2 h2
  split at h; · simp at h
  rename_i c3 h3
  split at h; · simp at h
  rename_i c4 h4
  split at h; · simp at h
  rename_i c5 h5
  have e1 := parseLedgerHost_signing h1
  have e2 := parseRole_signing h2
  have e3 := parseActions_signing h3
  have e3b := parseEnabled_signing cfg c3
  have e4 := parseAsyncTimeout_signing h4
  have e5 := parseRetryCount_signing h5
  have e6 := parseAuthAndDebug_signing cfg c5
  have e7 := parseSignatureValidity_signing h
  have hk : (parseAuthAndDebug cfg c5).SigningPrivateKey = "" := by
    rw [e6.1, e5.1, e4.1, e3b.1, e3.1, e2.1, e1.1]; rfl
  have hs : (parseAuthAndDebug cfg c5).SubscriberID = "" := by
    rw [e6.2.1, e5.2.1, e4.2.1, e3b.2.1, e3.2.1, e2.2.1, e1.2.1]; rfl
  have hu : (parseAuthAndDebug cfg c5).UniqueKeyID = "" := by
    rw [e6.2.2, e5.2.2, e4.2.2, e3b.2.2, e3.2.2, e2.2.2, e1.2.2]; rfl
  have e8 := parseSigningKeys_fields cfg _ hk hs hu
  rw [e7.1, e7.2.1, e7.2.2]
  exact e8

/-- The signing fields and the flag after the environment fallback. -/
theorem applyEnvFallback_fields (env : Environ) (c : Config) :
    (applyEnvFallback env c).SigningPrivateKey
        = (if c.SigningPrivateKey = "" then env "SIGNING_PRIVATE_KEY" else c.SigningPrivateKey)
      ∧ (applyEnvFallback env c).SubscriberID
        = (if c.SubscriberID = "" then env "SUBSCRIBER_ID" else c.SubscriberID)
      ∧ (applyEnvFallback env c).UniqueKeyID
        = (if c.UniqueKeyID = "" then env "UNIQUE_KEY_ID" else c.UniqueKeyID)
      ∧ ((applyEnvFallback env c).SigningFromEnv = true ↔
          (c.SigningPrivateKey = "" ∧ env "SIGNING_PRIVATE_KEY" ≠ "")
            ∨ (c.SubscriberID = "" ∧ env "SUBSCRIBER_ID" ≠ "")
            ∨ (c.UniqueKeyID = "" ∧ env "UNIQUE_KEY_ID" ≠ "")) := by
  unfold applyEnvFallback EnvSigningPrivateKey EnvSubscriberID EnvUniqueKeyID
  by_cases h1 : c.SigningPrivateKey = "" <;> by_cases h2 : env "SIGNING_PRIVATE_KEY" = "" <;>
    by_cases h3 : c.SubscriberID = "" <;> by_cases h4 : env "SUBSCRIBER_ID" = "" <;>
    by_cases h5 : c.UniqueKeyID = "" <;> by_cases h6 : env "UNIQUE_KEY_ID" = "" <;>
    simp [h1, h2, h3, h4, h5, h6]

/-- The result of `ParseConfig` once the explicit part has succeeded. -/
theorem ParseConfig_of_parseExplicit {cfg : StringMap} (env : Environ) {c0 : Config}
    (h0 : parseExplicit cfg = .ok c0) :
    ParseConfig cfg env = validateSigning (applyEnvFallback env c0) := by
  unfold ParseConfig
  rw [h0]

/-- The closing validation, case by case. -/
theorem validateSigning_eq (c : Config) :
    validateSigning c
      = if c.SigningPrivateKey = "" ∧ c.SubscriberID = "" ∧ c.UniqueKeyID = "" then .ok c
        else if c.SigningPrivateKey = "" then
          .error "signingPrivateKey is required when Beckn signing is configured (set via config or SIGNING_PRIVATE_KEY env var)"
        else if c.SubscriberID = "" then
          .error "subscriberId is required when Beckn signing is configured (set via config or SUBSCRIBER_ID env var)"
        else if c.UniqueKeyID = "" then
          .error "uniqueKeyId is required when Beckn signing is configured (set via config or UNIQUE_KEY_ID env var)"
        else .ok c := by
  unfold validateSigning
  by_cases h1 : c.SigningPrivateKey = "" <;> by_cases h2 : c.SubscriberID = "" <;>
    by_cases h3 : c.UniqueKeyID = "" <;> simp [h1, h2, h3] <;> decide

/-- C5: once the explicit configuration (aliases included) and the
environment fallbacks have been applied, if at least one of the three signing
fields is non-empty then `ParseConfig` succeeds only if all three are, and
otherwise returns the error naming the first missing field in the order
`signingPrivateKey`, `subscriberId`, `uniqueKeyId`; in particular, with the
`SIGNING_PRIVATE_KEY` variable set and no subscriber id from any source, the
error names `subscriberId`. -/
theorem ParseConfig_signing_all_or_error (cfg : StringMap) (env : Environ) (c0 : Config)
    (h0 : parseExplicit cfg = .ok c0)
    (hany : (applyEnvFallback env c0).SigningPrivateKey ≠ ""
      ∨ (applyEnvFallback env c0).SubscriberID ≠ ""
      ∨ (applyEnvFallback env c0).UniqueKeyID ≠ "") :
    ((∃ c, ParseConfig cfg env = .ok c) ↔
        ((applyEnvFallback env c0).SigningPrivateKey ≠ ""
          ∧ (applyEnvFallback env c0).SubscriberID ≠ ""
          ∧ (applyEnvFallback env c0).UniqueKeyID ≠ ""))
      ∧ ParseConfig cfg env
          = (if (applyEnvFallback env c0).SigningPrivateKey = "" then
              .error "signingPrivateKey is required when Beckn signing is configured (set via config or SIGNING_PRIVATE_KEY env var)"
            else if (applyEnvFallback env c0).SubscriberID = "" then
              .error "subscriberId is required when Beckn signing is configured (set via config or SUBSCRIBER_ID env var)"
            else if (applyEnvFallback env c0).UniqueKeyID = "" then
              .error "uniqueKeyId is required when Beckn signing is configured (set via config or UNIQUE_KEY_ID env var)"
            else .ok (applyEnvFallback env c0))
      ∧ (env "SIGNING_PRIVATE_KEY" ≠ "" → cfgValue cfg "subscriberId" = ""
          → cfgValue cfg "networkParticipant" = "" → env "SUBSCRIBER_ID" = ""
          → ParseConfig cfg env
              = .error "subscriberId is required when Beckn signing is configured (set via config or SUBSCRIBER_ID env var)") := by
  have hP := ParseConfig_of_parseExplicit env h0
  have hv := validateSigning_eq (applyEnvFallback env c0)
  obtain ⟨f1, f2, f3, -⟩ := applyEnvFallback_fields env c0
  obtain ⟨g1, g2, g3⟩ := parseExplicit_signing h0
  rw [hP, hv]
  have hnot : ¬((applyEnvFallback env c0).SigningPrivateKey = ""
      ∧ (applyEnvFallback env c0).SubscriberID = ""
      ∧ (applyEnvFallback env c0).UniqueKeyID = "") := by
    rintro ⟨a1, a2, a3⟩
    rcases hany with hh | hh | hh
    · exact hh a1
    · exact hh a2
    · exact hh a3
  rw [if_neg hnot]
  refine ⟨?_, ?_, ?_⟩
  · by_cases h1 : (applyEnvFallback env c0).SigningPrivateKey = ""
    · rw [if_pos h1]
      exact ⟨fun ⟨_, hc⟩ => (by cases hc), fun hh => absurd h1 hh.1⟩
    by_cases h2 : (applyEnvFallback env c0).SubscriberID = ""
    · rw [if_neg h1, if_pos h2]
      exact ⟨fun ⟨_, hc⟩ => (by cases hc), fun hh => absurd h2 hh.2.1⟩
    by_cases h3 : (applyEnvFallback env c0).UniqueKeyID = ""
    · rw [if_neg h1, if_neg h2, if_pos h3]
      exact ⟨fun ⟨_, hc⟩ => (by cases hc), fun hh => absurd h3 hh.2.2⟩
    · rw [if_neg h1, if_neg h2, if_neg h3]
      exact ⟨fun _ => ⟨h1, h2, h3⟩, fun _ => ⟨_, rfl⟩⟩
  · rfl
  · intro e1 e2 e3 e4
    have k1 : (applyEnvFallback env c0).SigningPrivateKey ≠ "" := by
      rw [f1]; split_ifs with hk
      · exact e1
      · exact hk
    have k2 : (applyEnvFallback env c0).SubscriberID = "" := by
      rw [f2, g2]; simp [e2, e3, e4]
    rw [if_neg k1, if_pos k2]

/-- C5, with only `ledgerHost` configured and only `SIGNING_PRIVATE_KEY` in
the environment. -/
theorem ParseConfig_signing_all_or_error_witness :
    parseExplicit hostOnlyCfg = .ok hostOnlyConfig
      ∧ (applyEnvFallback keyOnlyEnv hostOnlyConfig).SigningPrivateKey ≠ ""
      ∧ ParseConfig hostOnlyCfg keyOnlyEnv
          = .error "subscriberId is required when Beckn signing is configured (set via config or SUBSCRIBER_ID env var)" :=
  ⟨by decide, by decide,
    (ParseConfig_signing_all_or_error hostOnlyCfg keyOnlyEnv hostOnlyConfig (by decide)
      (Or.inl (by decide))).2.2 (by decide) (by decide) (by decide) (by decide)⟩

/-- C6: each signing field is resolved with the priority explicit key, then
alias, then environment variable, so that an environment value never
replaces a non-empty configured one; `SigningFromEnv` is true exactly when at
least one field took its value from the environment; and the configuration
so resolved is the one `ParseConfig` returns when it succeeds. -/
theorem ParseConfig_signing_priority (cfg : StringMap) (env : Environ) (c0 : Config)
    (h0 : parseExplicit cfg = .ok c0) :
    (applyEnvFallback env c0).SigningPrivateKey = specSigningPrivateKey cfg env
      ∧ (applyEnvFallback env c0).SubscriberID = specSubscriberID cfg env
      ∧ (applyEnvFallback env c0).UniqueKeyID = specUniqueKeyID cfg env
      ∧ ((applyEnvFallback env c0).SigningFromEnv = true ↔ specSigningFromEnv cfg env)
      ∧ (ParseConfig cfg env = .ok (applyEnvFallback env c0)
          ∨ ∃ msg, ParseConfig cfg env = .error msg) := by
  obtain ⟨f1, f2, f3, f4⟩ := applyEnvFallback_fields env c0
  obtain ⟨g1, g2, g3⟩ := parseExplicit_signing h0
  refine ⟨?_, ?_, ?_, ?_, ?_⟩
  · rw [f1, g1]; unfold specSigningPrivateKey
    by_cases h : cfgValue cfg "signingPrivateKey" = "" <;> simp [h]
  · rw [f2, g2]; unfold specSubscriberID
    by_cases h : cfgValue cfg "subscriberId" = "" <;>
      by_cases h' : cfgValue cfg "networkParticipant" = "" <;> simp [h, h']
  · rw [f3, g3]; unfold specUniqueKeyID
    by_cases h : cfgValue cfg "uniqueKeyId" = "" <;>
      by_cases h' : cfgValue cfg "keyId" = "" <;> simp [h, h']
  · rw [f4, g1, g2, g3]; unfold specSigningFromEnv
    by_cases h : cfgValue cfg "subscriberId" = "" <;>
      by_cases h' : cfgValue cfg "uniqueKeyId" = "" <;> simp [h, h']
  · rw [ParseConfig_of_parseExplicit env h0, validateSigning_eq]
    split_ifs
    · exact Or.inl rfl
    · exact Or.inr ⟨_, rfl⟩
    · exact Or.inr ⟨_, rfl⟩
    · exact Or.inr ⟨_, rfl⟩
    · exact Or.inl rfl

/-- C6, with the subscriber named through the alias, both key ids configured
and all three variables in the environment: the aliases win over the
environment, `uniqueKeyId` wins over `keyId`, and only the signing key comes
from the environment. -/
theorem ParseConfig_signing_priority_witness :
    parseExplicit aliasCfg = .ok aliasConfig
      ∧ ParseConfig aliasCfg fullEnv
          = .ok { aliasConfig with SigningPrivateKey := zeroSeedB64, SigningFromEnv := true }
      ∧ (applyEnvFallback fullEnv aliasConfig).SubscriberID = specSubscriberID aliasCfg fullEnv
      ∧ specSubscriberID aliasCfg fullEnv = "bap.example.org"
      ∧ specUniqueKeyID aliasCfg fullEnv = "key-1" :=
  ⟨by decide, by decide,
    (ParseConfig_signing_priority aliasCfg fullEnv aliasConfig (by decide)).2.1,
    by decide, by decide⟩

/-! ### Dispatcher -/

theorem countP_set_add {α : Type} (p : α → Bool) :
    ∀ (l : List α) (i : Nat) (a b : α), l[i]? = some a →
      (l.set i b).countP p + (if p a then 1 else 0) = l.countP p + (if p b then 1 else 0)
  | [], i, a, b, h => by simp at h
  | x :: xs, 0, a, b, h => by
    simp only [List.getElem?_cons_zero, Option.some.injEq] at h
    subst h
    simp only [List.set_cons_zero, List.countP_cons]
    omega
  | x :: xs, i + 1, a, b, h => by
    simp only [List.getElem?_cons_succ] at h
    have ih := countP_set_add p xs i a b h
    simp only [List.set_cons_succ, List.countP_cons]
    omega

theorem isCompleted_spawned : TaskStatus.spawned.isCompleted = false := rfl

theorem isCompleted_calling : TaskStatus.calling.isCompleted = false := rfl

theorem isCompleted_completed (o : Outcome) : (TaskStatus.completed o).isCompleted = true := rfl

theorem outstanding_submit {PutReq RecReq : Type} (job : Job PutReq RecReq)
    (d : Dispatcher PutReq RecReq) :
    (d.submit job).outstanding = d.outstanding + 1 ∧ (d.submit job).wg = d.wg + 1 := by
  simp [Dispatcher.submit, Dispatcher.outstanding, List.countP_append, TaskStatus.isCompleted]

/-- The counter equals the number of outstanding tasks, step by step. -/
theorem step_preserves_counter {PutReq RecReq : Type} (d d1 : Dispatcher PutReq RecReq)
    (ev : Event PutReq RecReq) (hstep : d.step ev = some d1)
    (hinv : d.wg = (d.outstanding : Int)) : d1.wg = (d1.outstanding : Int) := by
  cases ev with
  | submitPut rec =>
    simp only [Dispatcher.step, Option.some.injEq] at hstep
    subst hstep
    obtain ⟨h1, h2⟩ := outstanding_submit (Job.put rec) d
    rw [h1, h2, hinv]; push_cast; ring
  | submitActuals rec =>
    simp only [Dispatcher.step, Option.some.injEq] at hstep
    subst hstep
    obtain ⟨h1, h2⟩ := outstanding_submit (Job.actuals rec) d
    rw [h1, h2, hinv]; push_cast; ring
  | call i =>
    simp only [Dispatcher.step] at hstep
    split at hstep
    · rename_i job hget
      simp only [Option.some.injEq] at hstep
      subst hstep
      have := countP_set_add (fun t : Job PutReq RecReq × TaskStatus => !t.2.isCompleted)
        d.tasks i (job, TaskStatus.spawned) (job, TaskStatus.calling) hget
      simp only [isCompleted_spawned, isCompleted_calling, Bool.not_false, ↓reduceIte,
        add_left_inj] at this
      simp only [Dispatcher.outstanding] at hinv ⊢
      rw [this]
      exact hinv
    · cases hstep
  | exit i o =>
    simp only [Dispatcher.step] at hstep
    split at hstep
    · rename_i job hget
      simp only [Option.some.injEq] at hstep
      subst hstep
      have := countP_set_add (fun t : Job PutReq RecReq × TaskStatus => !t.2.isCompleted)
        d.tasks i (job, TaskStatus.calling) (job, TaskStatus.completed o) hget
      simp only [isCompleted_calling, isCompleted_completed, Bool.not_false, Bool.not_true,
        ↓reduceIte, Bool.false_eq_true, add_zero] at this
      simp only [Dispatcher.outstanding] at hinv ⊢
      rw [hinv, ← this]; push_cast; ring
    · cases hstep
  | waitReturns =>
    simp only [Dispatcher.step] at hstep
    split_ifs at hstep
    simp only [Option.some.injEq] at hstep
    subst hstep
    exact hinv
  | clientClose =>
    simp only [Dispatcher.step] at hstep
    split_ifs at hstep
    simp only [Option.some.injEq] at hstep
    subst hstep
    exact hinv

theorem run_preserves_counter {PutReq RecReq : Type} :
    ∀ (evs : List (Event PutReq RecReq)) (d d1 : Dispatcher PutReq RecReq),
      d.run evs = some d1 → d.wg = (d.outstanding : Int) → d1.wg = (d1.outstanding : Int)
  | [], d, d1, h, hinv => by
    simp only [Dispatcher.run, Option.some.injEq] at h
    subst h; exact hinv
  | ev :: evs, d, d1, h, hinv => by
    simp only [Dispatcher.run] at h
    split at h
    · rename_i d2 hstep
      exact run_preserves_counter evs d2 d1 h (step_preserves_counter d d2 ev hstep hinv)
    · cases h

theorem outstanding_eq_zero_of_allCompleted {PutReq RecReq : Type}
    (d : Dispatcher PutReq RecReq) (h : d.allCompleted = true) : d.outstanding = 0 := by
  simp only [Dispatcher.allCompleted, List.all_eq_true] at h
  simp only [Dispatcher.outstanding, List.countP_eq_zero]
  intro t ht
  simp [h t ht]

theorem sendPutRecordsAsync_run {PutReq RecReq : Type} :
    ∀ (records : List PutReq) (d : Dispatcher PutReq RecReq),
      d.run (records.map Event.submitPut) = some (sendPutRecordsAsync records d)
  | [], d => rfl
  | rec :: records, d => by
    simp only [List.map_cons, Dispatcher.run, Dispatcher.step]
    exact sendPutRecordsAsync_run records (d.submit (Job.put rec))

theorem sendRecordActualsAsync_run {PutReq RecReq : Type} :
    ∀ (records : List RecReq) (d : Dispatcher PutReq RecReq),
      d.run (records.map Event.submitActuals) = some (sendRecordActualsAsync records d)
  | [], d => rfl
  | rec :: records, d => by
    simp only [List.map_cons, Dispatcher.run, Dispatcher.step]
    exact sendRecordActualsAsync_run records (d.submit (Job.actuals rec))

/-- C10: in every state reachable from a fresh recorder by submissions
(counter plus one, before the goroutine starts), client calls, goroutine
exits (by success, by delivery error or by panic; counter minus one, once per
goroutine) and `Close`, the counter of the wait group is not negative and
equals the number of submitted tasks not yet completed; it is zero once all
have completed; and the same holds after a further run of
`sendPutRecordsAsync` or `sendRecordActualsAsync`, which adds one to the
counter per record. -/
theorem inflight_counter_invariant {PutReq RecReq : Type} (evs : List (Event PutReq RecReq))
    (d : Dispatcher PutReq RecReq) (h : (Dispatcher.init PutReq RecReq).run evs = some d) :
    0 ≤ d.wg ∧ d.wg = (d.outstanding : Int) ∧ (d.allCompleted = true → d.wg = 0)
      ∧ (∀ records : List PutReq,
          (sendPutRecordsAsync records d).wg = d.wg + records.length
            ∧ (sendPutRecordsAsync records d).wg
                = ((sendPutRecordsAsync records d).outstanding : Int))
      ∧ (∀ records : List RecReq,
          (sendRecordActualsAsync records d).wg = d.wg + records.length
            ∧ (sendRecordActualsAsync records d).wg
                = ((sendRecordActualsAsync records d).outstanding : Int)) := by
  have hinv : d.wg = (d.outstanding : Int) :=
    run_preserves_counter evs _ d h (by simp [Dispatcher.init, Dispatcher.outstanding])
  have hput : ∀ (records : List PutReq) (e : Dispatcher PutReq RecReq),
      (sendPutRecordsAsync records e).wg = e.wg + records.length := by
    intro records
    induction records with
    | nil => intro e; simp [sendPutRecordsAsync]
    | cons rec records ih =>
      intro e
      have := ih (e.submit (Job.put rec))
      simp only [sendPutRecordsAsync, List.foldl_cons, List.length_cons] at this ⊢
      rw [this, (outstanding_submit (Job.put rec) e).2]; push_cast; ring
  have hact : ∀ (records : List RecReq) (e : Dispatcher PutReq RecReq),
      (sendRecordActualsAsync records e).wg = e.wg + records.length := by
    intro records
    induction records with
    | nil => intro e; simp [sendRecordActualsAsync]
    | cons rec records ih =>
      intro e
      have := ih (e.submit (Job.actuals rec))
      simp only [sendRecordActualsAsync, List.foldl_cons, List.length_cons] at this ⊢
      rw [this, (outstanding_submit (Job.actuals rec) e).2]; push_cast; ring
  refine ⟨?_, hinv, ?_, ?_, ?_⟩
  · rw [hinv]; exact Int.natCast_nonneg _
  · intro hall
    rw [hinv, outstanding_eq_zero_of_allCompleted d hall]; rfl
  · intro records
    exact ⟨hput records d,
      run_preserves_counter _ d _ (sendPutRecordsAsync_run records d) hinv⟩
  · intro records
    exact ⟨hact records d,
      run_preserves_counter _ d _ (sendRecordActualsAsync_run records d) hinv⟩

/-- C10, on a batch of five records of which three succeed and two fail:
after the last exit the counter is zero. -/
theorem inflight_counter_invariant_witness :
    (Dispatcher.init String String).run batchEvents = some batchFinal
      ∧ batchFinal.allCompleted = true
      ∧ batchFinal.wg = 0
      ∧ 0 ≤ batchFinal.wg ∧ batchFinal.wg = (batchFinal.outstanding : Int) :=
  ⟨by decide, by decide,
    (inflight_counter_invariant batchEvents batchFinal (by decide)).2.2.1 (by decide),
    (inflight_counter_invariant batchEvents batchFinal (by decide)).1,
    (inflight_counter_invariant batchEvents batchFinal (by decide)).2.1⟩

/-! ### Dispatcher: jobs, calls and `Close` -/

theorem hasCalled_spawned : TaskStatus.spawned.hasCalled = false := rfl

theorem hasCalled_calling : TaskStatus.calling.hasCalled = true := rfl

theorem hasCalled_completed (o : Outcome) : (TaskStatus.completed o).hasCalled = true := rfl

theorem hasCalled_of_isCompleted (st : TaskStatus) (h : st.isCompleted = true) :
    st.hasCalled = true := by
  cases st with
  | spawned => cases h
  | calling => rfl
  | completed o => rfl

/-- Replacing the status of an entry leaves the list of jobs as it was. -/
theorem map_fst_set {α β : Type} :
    ∀ (l : List (α × β)) (i : Nat) (a : α) (b b1 : β), l[i]? = some (a, b) →
      (l.set i (a, b1)).map Prod.fst = l.map Prod.fst
  | [], _, _, _, _, h => by simp at h
  | x :: xs, 0, a, b, b1, h => by
    simp only [List.getElem?_cons_zero, Option.some.injEq] at h
    subst h
    simp
  | x :: xs, i + 1, a, b, b1, h => by
    simp only [List.getElem?_cons_succ] at h
    simp only [List.set_cons_succ, List.map_cons, map_fst_set xs i a b b1 h]

/-- Replacing a status that passes a test by another that passes it leaves
the jobs of the entries that pass as they were. -/
theorem filter_map_set_same {α β : Type} (p : β → Bool) :
    ∀ (l : List (α × β)) (i : Nat) (a : α) (b b1 : β), l[i]? = some (a, b) →
      p b = true → p b1 = true →
      ((l.set i (a, b1)).filter (fun t => p t.2)).map Prod.fst
        = (l.filter (fun t => p t.2)).map Prod.fst
  | [], _, _, _, _, h, _, _ => by simp at h
  | x :: xs, 0, a, b, b1, h, hb, hb1 => by
    simp only [List.getElem?_cons_zero, Option.some.injEq] at h
    subst h
    simp [List.filter_cons, hb, hb1]
  | x :: xs, i + 1, a, b, b1, h, hb, hb1 => by
    simp only [List.getElem?_cons_succ] at h
    have ih := filter_map_set_same p xs i a b b1 h hb hb1
    simp only [List.set_cons_succ, List.filter_cons]
    split <;> simp [ih]

/-- Replacing a status that fails a test by one that passes it adds the job
of the entry to the jobs of the entries that pass. -/
theorem filter_map_set_new {α β : Type} (p : β → Bool) :
    ∀ (l : List (α × β)) (i : Nat) (a : α) (b b1 : β), l[i]? = some (a, b) →
      p b = false → p b1 = true →
      (((l.set i (a, b1)).filter (fun t => p t.2)).map Prod.fst).Perm
        (a :: (l.filter (fun t => p t.2)).map Prod.fst)
  | [], _, _, _, _, h, _, _ => by simp at h
  | x :: xs, 0, a, b, b1, h, hb, hb1 => by
    simp only [List.getElem?_cons_zero, Option.some.injEq] at h
    subst h
    simp [List.filter_cons, hb, hb1]
  | x :: xs, i + 1, a, b, b1, h, hb, hb1 => by
    simp only [List.getElem?_cons_succ] at h
    have ih := filter_map_set_new p xs i a b b1 h hb hb1
    simp only [List.set_cons_succ, List.filter_cons]
    split
    · simp only [List.map_cons]
      exact (List.Perm.cons _ ih).trans (List.Perm.swap _ _ _)
    · exact ih

/-- What one step does to the list of jobs. -/
theorem step_jobs {PutReq RecReq : Type} (d d1 : Dispatcher PutReq RecReq)
    (ev : Event PutReq RecReq) (hstep : d.step ev = some d1) :
    d1.tasks.map Prod.fst = d.tasks.map Prod.fst ++ ev.submitted := by
  cases ev with
  | submitPut rec =>
    simp only [Dispatcher.step, Option.some.injEq] at hstep
    subst hstep
    simp [Dispatcher.submit, Event.submitted]
  | submitActuals rec =>
    simp only [Dispatcher.step, Option.some.injEq] at hstep
    subst hstep
    simp [Dispatcher.submit, Event.submitted]
  | call i =>
    simp only [Dispatcher.step] at hstep
    split at hstep
    · rename_i job hget
      simp only [Option.some.injEq] at hstep
      subst hstep
      simp only [Event.submitted, List.append_nil]
      exact map_fst_set _ _ _ _ _ hget
    · cases hstep
  | exit i o =>
    simp only [Dispatcher.step] at hstep
    split at hstep
    · rename_i job hget
      simp only [Option.some.injEq] at hstep
      subst hstep
      simp only [Event.submitted, List.append_nil]
      exact map_fst_set _ _ _ _ _ hget
    · cases hstep
  | waitReturns =>
    simp only [Dispatcher.step] at hstep
    split_ifs at hstep
    simp only [Option.some.injEq] at hstep
    subst hstep
    simp [Event.submitted]
  | clientClose =>
    simp only [Dispatcher.step] at hstep
    split_ifs at hstep
    simp only [Option.some.injEq] at hstep
    subst hstep
    simp [Event.submitted]

/-- The jobs of the goroutines are the jobs submitted, in order. -/
theorem run_jobs {PutReq RecReq : Type} :
    ∀ (evs : List (Event PutReq RecReq)) (d d1 : Dispatcher PutReq RecReq),
      d.run evs = some d1 →
      d1.tasks.map Prod.fst = d.tasks.map Prod.fst ++ submittedJobs evs
  | [], d, d1, h => by
    simp only [Dispatcher.run, Option.some.injEq] at h
    subst h
    simp [submittedJobs]
  | ev :: evs, d, d1, h => by
    simp only [Dispatcher.run] at h
    split at h
    · rename_i d2 hstep
      rw [run_jobs evs d2 d1 h, step_jobs d d2 ev hstep]
      simp [submittedJobs]
    · cases h

/-- The client calls are, up to order, the jobs of the goroutines that have
issued their call, step by step. -/
theorem step_preserves_calls {PutReq RecReq : Type} (d d1 : Dispatcher PutReq RecReq)
    (ev : Event PutReq RecReq) (hstep : d.step ev = some d1)
    (hinv : d.calls.Perm d.calledJobs) : d1.calls.Perm d1.calledJobs := by
  cases ev with
  | submitPut rec =>
    simp only [Dispatcher.step, Option.some.injEq] at hstep
    subst hstep
    simpa [Dispatcher.submit, Dispatcher.calledJobs, List.filter_append, hasCalled_spawned]
      using hinv
  | submitActuals rec =>
    simp only [Dispatcher.step, Option.some.injEq] at hstep
    subst hstep
    simpa [Dispatcher.submit, Dispatcher.calledJobs, List.filter_append, hasCalled_spawned]
      using hinv
  | call i =>
    simp only [Dispatcher.step] at hstep
    split at hstep
    · rename_i job hget
      simp only [Option.some.injEq] at hstep
      subst hstep
      have hnew := filter_map_set_new TaskStatus.hasCalled d.tasks i job TaskStatus.spawned
        TaskStatus.calling hget rfl rfl
      simp only [Dispatcher.calledJobs] at hinv ⊢
      refine List.Perm.trans ?_ hnew.symm
      exact (List.perm_append_comm).trans (List.Perm.cons _ hinv)
    · cases hstep
  | exit i o =>
    simp only [Dispatcher.step] at hstep
    split at hstep
    · rename_i job hget
      simp only [Option.some.injEq] at hstep
      subst hstep
      have hsame := filter_map_set_same TaskStatus.hasCalled d.tasks i job TaskStatus.calling
        (TaskStatus.completed o) hget rfl rfl
      simp only [Dispatcher.calledJobs] at hinv ⊢
      rw [hsame]
      exact hinv
    · cases hstep
  | waitReturns =>
    simp only [Dispatcher.step] at hstep
    split_ifs at hstep
    simp only [Option.some.injEq] at hstep
    subst hstep
    exact hinv
  | clientClose =>
    simp only [Dispatcher.step] at hstep
    split_ifs at hstep
    simp only [Option.some.injEq] at hstep
    subst hstep
    exact hinv

theorem run_preserves_calls {PutReq RecReq : Type} :
    ∀ (evs : List (Event PutReq RecReq)) (d d1 : Dispatcher PutReq RecReq),
      d.run evs = some d1 → d.calls.Perm d.calledJobs → d1.calls.Perm d1.calledJobs
  | [], d, d1, h, hinv => by
    simp only [Dispatcher.run, Option.some.injEq] at h
    subst h; exact hinv
  | ev :: evs, d, d1, h, hinv => by
    simp only [Dispatcher.run] at h
    split at h
    · rename_i d2 hstep
      exact run_preserves_calls evs d2 d1 h (step_preserves_calls d d2 ev hstep hinv)
    · cases h

/-- Once every goroutine has completed, those that have called are all. -/
theorem calledJobs_of_allCompleted {PutReq RecReq : Type} (d : Dispatcher PutReq RecReq)
    (h : d.allCompleted = true) : d.calledJobs = d.tasks.map Prod.fst := by
  simp only [Dispatcher.allCompleted, List.all_eq_true] at h
  simp only [Dispatcher.calledJobs]
  rw [List.filter_eq_self.2]
  intro t ht
  exact hasCalled_of_isCompleted _ (h t ht)

/-- A run of a sequence of events followed by another. -/
theorem run_append {PutReq RecReq : Type} :
    ∀ (evs evs1 : List (Event PutReq RecReq)) (d : Dispatcher PutReq RecReq),
      d.run (evs ++ evs1) = (d.run evs).bind (fun d1 => d1.run evs1)
  | [], evs1, d => rfl
  | ev :: evs, evs1, d => by
    simp only [List.cons_append, Dispatcher.run]
    cases d.step ev with
    | none => rfl
    | some d2 => exact run_append evs evs1 d2

theorem allCompleted_iff_outstanding {PutReq RecReq : Type} (d : Dispatcher PutReq RecReq) :
    d.allCompleted = true ↔ d.outstanding = 0 := by
  simp only [Dispatcher.allCompleted, List.all_eq_true, Dispatcher.outstanding,
    List.countP_eq_zero, Bool.not_eq_true', Bool.not_eq_false]

/-- The loop of `sendPutRecordsAsync`, in closed form. -/
theorem sendPutRecordsAsync_eq {PutReq RecReq : Type} :
    ∀ (records : List PutReq) (d : Dispatcher PutReq RecReq),
      sendPutRecordsAsync records d
        = { d with
            wg := d.wg + records.length
            tasks := d.tasks ++ records.map (fun rec => (Job.put rec, TaskStatus.spawned)) }
  | [], d => by simp [sendPutRecordsAsync]
  | rec :: records, d => by
    have ih := sendPutRecordsAsync_eq records (d.submit (Job.put rec))
    simp only [sendPutRecordsAsync, List.foldl_cons] at ih ⊢
    rw [ih]
    simp only [Dispatcher.submit, List.length_cons, List.map_cons, List.append_assoc,
      List.singleton_append, Nat.cast_add, Nat.cast_one]
    congr 1
    ring

/-- The loop of `sendRecordActualsAsync`, in closed form. -/
theorem sendRecordActualsAsync_eq {PutReq RecReq : Type} :
    ∀ (records : List RecReq) (d : Dispatcher PutReq RecReq),
      sendRecordActualsAsync records d
        = { d with
            wg := d.wg + records.length
            tasks := d.tasks ++ records.map (fun rec => (Job.actuals rec, TaskStatus.spawned)) }
  | [], d => by simp [sendRecordActualsAsync]
  | rec :: records, d => by
    have ih := sendRecordActualsAsync_eq records (d.submit (Job.actuals rec))
    simp only [sendRecordActualsAsync, List.foldl_cons] at ih ⊢
    rw [ih]
    simp only [Dispatcher.submit, List.length_cons, List.map_cons, List.append_assoc,
      List.singleton_append, Nat.cast_add, Nat.cast_one]
    congr 1
    ring

/-- Once every task has completed, a step that submits nothing leaves the
tasks and the counter as they are. -/
theorem step_of_allCompleted {PutReq RecReq : Type} (d d1 : Dispatcher PutReq RecReq)
    (ev : Event PutReq RecReq) (hall : d.allCompleted = true) (hsub : ev.submitted = [])
    (hstep : d.step ev = some d1) : d1.tasks = d.tasks ∧ d1.wg = d.wg := by
  simp only [Dispatcher.allCompleted, List.all_eq_true] at hall
  cases ev with
  | submitPut rec => simp [Event.submitted] at hsub
  | submitActuals rec => simp [Event.submitted] at hsub
  | call i =>
    simp only [Dispatcher.step] at hstep
    split at hstep
    · rename_i job hget
      exact absurd (hall _ (List.getElem?_mem hget)) (by simp [isCompleted_spawned])
    · cases hstep
  | exit i o =>
    simp only [Dispatcher.step] at hstep
    split at hstep
    · rename_i job hget
      exact absurd (hall _ (List.getElem?_mem hget)) (by simp [isCompleted_calling])
    · cases hstep
  | waitReturns =>
    simp only [Dispatcher.step] at hstep
    split_ifs at hstep
    simp only [Option.some.injEq] at hstep
    subst hstep
    exact ⟨rfl, rfl⟩
  | clientClose =>
    simp only [Dispatcher.step] at hstep
    split_ifs at hstep
    simp only [Option.some.injEq] at hstep
    subst hstep
    exact ⟨rfl, rfl⟩

/-- Once every task has completed, steps that submit nothing leave the tasks
and the counter as they are. -/
theorem run_of_allCompleted {PutReq RecReq : Type} :
    ∀ (evs : List (Event PutReq RecReq)) (d d1 : Dispatcher PutReq RecReq),
      d.allCompleted = true → submittedJobs evs = [] → d.run evs = some d1 →
      d1.tasks = d.tasks ∧ d1.wg = d.wg
  | [], d, d1, _, _, h => by
    simp only [Dispatcher.run, Option.some.injEq] at h
    subst h
    exact ⟨rfl, rfl⟩
  | ev :: evs, d, d1, hall, hsub, h => by
    simp only [submittedJobs, List.flatMap_cons, List.append_eq_nil] at hsub
    simp only [Dispatcher.run] at h
    split at h
    · rename_i d2 hstep
      obtain ⟨t2, w2⟩ := step_of_allCompleted d d2 ev hall hsub.1 hstep
      have hall2 : d2.allCompleted = true := by
        simp only [Dispatcher.allCompleted, t2] at hall ⊢
        exact hall
      obtain ⟨t1, w1⟩ := run_of_allCompleted evs d2 d1 hall2 hsub.2 h
      exact ⟨t1.trans t2, w1.trans w2⟩
    · cases h

/-- C11: `Close` blocks until the counter of `wg` is zero and only then calls
`client.Close()`; under the rule of the specification that nothing is
submitted once the drain has begun, the client is closed with no task
outstanding. From a state reached by any sequence of events, `wg.Wait()` can
return if and only if all tasks have completed, and not while one is
outstanding; `client.Close()` cannot be called before `wg.Wait()` has
returned; and when it is called after `wg.Wait()` has returned and after
steps `mid` that submit nothing, the counter is zero, no task is outstanding,
and every job submitted, whether its call succeeded or failed, is a completed
task. -/
theorem Close_waits_for_completion {PutReq RecReq : Type} (pre mid : List (Event PutReq RecReq))
    (d : Dispatcher PutReq RecReq) (h : (Dispatcher.init PutReq RecReq).run pre = some d)
    (hquiet : submittedJobs mid = []) :
    ((∃ d2, (Dispatcher.init PutReq RecReq).run (pre ++ [Event.waitReturns]) = some d2)
        ↔ d.allCompleted = true)
      ∧ (d.outstanding ≠ 0 →
          (Dispatcher.init PutReq RecReq).run (pre ++ [Event.waitReturns]) = none)
      ∧ (d.waitReturned = false →
          (Dispatcher.init PutReq RecReq).run (pre ++ [Event.clientClose]) = none)
      ∧ (∀ d1, (Dispatcher.init PutReq RecReq).run
              (pre ++ [Event.waitReturns] ++ mid ++ [Event.clientClose]) = some d1 →
          d.allCompleted = true ∧ d1.clientClosed = true ∧ d1.wg = 0 ∧ d1.outstanding = 0
            ∧ d1.tasks = d.tasks
            ∧ ∀ job ∈ submittedJobs pre, ∃ o, (job, TaskStatus.completed o) ∈ d1.tasks) := by
  have hinv : d.wg = (d.outstanding : Int) :=
    run_preserves_counter pre _ d h (by simp [Dispatcher.init, Dispatcher.outstanding])
  have hwait : (Dispatcher.init PutReq RecReq).run (pre ++ [Event.waitReturns])
      = if d.wg = 0 then some { d with waitReturned := true } else none := by
    rw [run_append, h]
    simp only [Option.bind, Dispatcher.run, Dispatcher.step]
    split_ifs <;> rfl
  have hwg : d.wg = 0 ↔ d.allCompleted = true := by
    rw [allCompleted_iff_outstanding, hinv]
    exact Int.natCast_eq_zero
  have hjobs : d.tasks.map Prod.fst = submittedJobs pre := by
    have := run_jobs pre _ d h
    simpa [Dispatcher.init] using this
  refine ⟨?_, ?_, ?_, ?_⟩
  · rw [hwait, ← hwg]
    by_cases h0 : d.wg = 0
    · simp [h0]
    · simp [h0]
  · intro hout
    rw [hwait, if_neg]
    intro h0
    exact hout ((allCompleted_iff_outstanding d).1 (hwg.1 h0))
  · intro hw
    rw [run_append, h]
    simp only [Option.bind, Dispatcher.run, Dispatcher.step, hw, Bool.false_eq_true, ↓reduceIte]
  · intro d1 hrun
    rw [List.append_assoc, List.append_assoc, run_append, h] at hrun
    rw [show [Event.waitReturns] ++ (mid ++ [Event.clientClose])
        = Event.waitReturns :: (mid ++ [Event.clientClose]) from rfl] at hrun
    simp only [Option.bind, Dispatcher.run, Dispatcher.step] at hrun
    split_ifs at hrun with h0
    simp only at hrun
    have hall := hwg.1 h0
    have hall1 : ({ d with waitReturned := true } : Dispatcher PutReq RecReq).allCompleted
        = true := hall
    rw [run_append] at hrun
    cases hm : ({ d with waitReturned := true } : Dispatcher PutReq RecReq).run mid with
    | none =>
      rw [hm] at hrun
      cases hrun
    | some dm =>
      rw [hm] at hrun
      obtain ⟨tm, wm⟩ := run_of_allCompleted mid _ dm hall1 hquiet hm
      simp only [Option.bind, Dispatcher.run, Dispatcher.step] at hrun
      split at hrun
      · rename_i d3 hstep
        split_ifs at hstep
        simp only [Option.some.injEq] at hstep hrun
        subst hstep
        subst hrun
        have htasks : dm.tasks = d.tasks := tm
        have hwg1 : dm.wg = 0 := wm.trans h0
        refine ⟨hall, rfl, hwg1, ?_, htasks, ?_⟩
        · simp only [Dispatcher.outstanding, htasks]
          exact (allCompleted_iff_outstanding d).1 hall
        · intro job hjob
          rw [← hjobs] at hjob
          obtain ⟨t, ht, hfst⟩ := List.mem_map.1 hjob
          simp only [Dispatcher.allCompleted, List.all_eq_true] at hall
          have hcomp := hall t ht
          obtain ⟨j, st⟩ := t
          simp only at hfst
          subst hfst
          simp only [htasks]
          cases st with
          | spawned => cases hcomp
          | calling => cases hcomp
          | completed o => exact ⟨o, ht⟩
      · cases hrun

/-- C11 on the batch of five records of which three succeed and two fail:
`wg.Wait()` returns after the last of the five has completed, and
`client.Close()`, called after a second `wg.Wait()` and no submission, finds
the counter at zero and the five tasks completed; with one of two records
still in its call `wg.Wait()` cannot return. -/
theorem Close_waits_for_completion_witness :
    (Dispatcher.init String String).run batchEvents = some batchFinal
      ∧ submittedJobs [(Event.waitReturns : Event String String)] = []
      ∧ (Dispatcher.init String String).run
          (batchEvents ++ [Event.waitReturns] ++ [Event.waitReturns] ++ [Event.clientClose])
          = some { batchFinal with waitReturned := true, clientClosed := true }
      ∧ (batchFinal.allCompleted = true
          ∧ ({ batchFinal with waitReturned := true, clientClosed := true }
              : Dispatcher String String).clientClosed = true
          ∧ ({ batchFinal with waitReturned := true, clientClosed := true }
              : Dispatcher String String).wg = 0
          ∧ ({ batchFinal with waitReturned := true, clientClosed := true }
              : Dispatcher String String).outstanding = 0
          ∧ ({ batchFinal with waitReturned := true, clientClosed := true }
              : Dispatcher String String).tasks = batchFinal.tasks
          ∧ ∀ job ∈ submittedJobs batchEvents, ∃ o, (job, TaskStatus.completed o)
              ∈ ({ batchFinal with waitReturned := true, clientClosed := true }
                  : Dispatcher String String).tasks)
      ∧ (Dispatcher.init String String).run
          ([.submitPut "item-1", .submitPut "item-2", .call 0, .call 1,
            .exit 0 (.failure "timeout")] ++ [Event.waitReturns]) = none :=
  ⟨by decide, by decide, by decide,
    (Close_waits_for_completion batchEvents [Event.waitReturns] batchFinal (by decide)
      (by decide)).2.2.2
      { batchFinal with waitReturned := true, clientClosed := true } (by decide),
    (Close_waits_for_completion
      [.submitPut "item-1", .submitPut "item-2", .call 0, .call 1, .exit 0 (.failure "timeout")]
      [] batchPartial (by decide) (by decide)).2.1 (by decide)⟩

/-- The recorder itself does not keep a record from being submitted between
the two statements of `Close`: after `lateSubmitEvents` without its last
event the `wg.Wait()` of `Close` has returned and one task is outstanding,
and `client.Close()` is then called with that task outstanding and the
counter at one. That nothing is submitted once the drain has begun is left to
the caller. -/
theorem submission_inside_Close :
    (Dispatcher.init String String).run lateSubmitEvents.dropLast
        = some { lateSubmitFinal with clientClosed := false }
      ∧ ({ lateSubmitFinal with clientClosed := false } : Dispatcher String String).outstanding
          = 1
      ∧ ({ lateSubmitFinal with clientClosed := false } : Dispatcher String String).step
          Event.clientClose = some lateSubmitFinal
      ∧ (Dispatcher.init String String).run lateSubmitEvents = some lateSubmitFinal
      ∧ lateSubmitFinal.clientClosed = true ∧ lateSubmitFinal.outstanding = 1
      ∧ lateSubmitFinal.wg = 1 := by
  decide

/-- C12: each send function starts one goroutine per record of the batch, in
order and with that record, and calls the client for none of them itself.
In every reachable state the goroutines are those of the jobs submitted; the
client calls made are, as a multiset, the jobs of the goroutines that have
issued their call, one call each; so once all have completed the calls are,
as a multiset, the jobs submitted. A goroutine that is in its call or has
completed, by success or by failure, cannot call again, its exit adds no
call, and a goroutine still to call can do so whatever became of the
others. -/
theorem one_call_per_record {PutReq RecReq : Type} (evs : List (Event PutReq RecReq))
    (d : Dispatcher PutReq RecReq) (h : (Dispatcher.init PutReq RecReq).run evs = some d) :
    (∀ records : List PutReq,
        (sendPutRecordsAsync records d).tasks
            = d.tasks ++ records.map (fun rec => (Job.put rec, TaskStatus.spawned))
          ∧ (sendPutRecordsAsync records d).calls = d.calls
          ∧ d.run (records.map Event.submitPut) = some (sendPutRecordsAsync records d))
      ∧ (∀ records : List RecReq,
        (sendRecordActualsAsync records d).tasks
            = d.tasks ++ records.map (fun rec => (Job.actuals rec, TaskStatus.spawned))
          ∧ (sendRecordActualsAsync records d).calls = d.calls
          ∧ d.run (records.map Event.submitActuals) = some (sendRecordActualsAsync records d))
      ∧ d.tasks.map Prod.fst = submittedJobs evs
      ∧ d.calls.Perm d.calledJobs
      ∧ (d.allCompleted = true → d.calls.Perm (submittedJobs evs))
      ∧ (∀ i job st, d.tasks[i]? = some (job, st) → st ≠ TaskStatus.spawned →
          d.step (Event.call i) = none)
      ∧ (∀ i o d1, d.step (Event.exit i o) = some d1 → d1.calls = d.calls)
      ∧ (∀ j job, d.tasks[j]? = some (job, TaskStatus.spawned) →
          ∃ d1, d.step (Event.call j) = some d1 ∧ d1.calls = d.calls ++ [job]) := by
  have hjobs : d.tasks.map Prod.fst = submittedJobs evs := by
    have := run_jobs evs _ d h
    simpa [Dispatcher.init] using this
  have hcalls : d.calls.Perm d.calledJobs :=
    run_preserves_calls evs _ d h (by simp [Dispatcher.init, Dispatcher.calledJobs])
  refine ⟨?_, ?_, hjobs, hcalls, ?_, ?_, ?_, ?_⟩
  · intro records
    refine ⟨?_, ?_, sendPutRecordsAsync_run records d⟩ <;> rw [sendPutRecordsAsync_eq]
  · intro records
    refine ⟨?_, ?_, sendRecordActualsAsync_run records d⟩ <;> rw [sendRecordActualsAsync_eq]
  · intro hall
    rw [← hjobs, ← calledJobs_of_allCompleted d hall]
    exact hcalls
  · intro i job st hget hst
    simp only [Dispatcher.step, hget]
    cases st with
    | spawned => exact absurd rfl hst
    | calling => rfl
    | completed o => rfl
  · intro i o d1 hstep
    simp only [Dispatcher.step] at hstep
    split at hstep
    · simp only [Option.some.injEq] at hstep
      subst hstep
      rfl
    · cases hstep
  · intro j job hget
    simp only [Dispatcher.step, hget]
    exact ⟨_, rfl, rfl⟩

/-- C12, on the batch of five records of which three succeed and two fail:
the five calls made are, up to order, the five records submitted. -/
theorem one_call_per_record_witness :
    (Dispatcher.init String String).run batchEvents = some batchFinal
      ∧ submittedJobs batchEvents
          = [.put "item-1", .put "item-2", .put "item-3", .put "item-4", .put "item-5"]
      ∧ batchFinal.calls.Perm (submittedJobs batchEvents)
      ∧ batchFinal.step (Event.call 1) = none :=
  ⟨by decide, by decide,
    (one_call_per_record batchEvents batchFinal (by decide)).2.2.2.2.1 (by decide),
    (one_call_per_record batchEvents batchFinal (by decide)).2.2.2.2.2.1 1 (.put "item-2")
      (.completed (.failure "ledger unavailable")) (by decide) (by decide)⟩

/-- C13: `Run` returns nil, for every mapping layer, configuration, request
and state of the dispatcher, and so do `handleOnConfirm` and
`handleOnStatus`: a disabled plugin, an action not enabled or without
handler, a role that is not a discom role, a payload that does not parse, an
empty list of records and a submitted batch all end in the nil return. The
outcomes of the delivery calls exist only as later events of the dispatcher
and are no input of `Run`. -/
theorem Run_returns_nil {ConfirmPayload StatusPayload PutReq RecReq : Type}
    (M : Mapping ConfirmPayload StatusPayload PutReq RecReq) (config : Config)
    (ctx : StepContext) (d : Dispatcher PutReq RecReq) :
    (Run M config ctx d).1 = none ∧ (handleOnConfirm M config ctx d).1 = none
      ∧ (handleOnStatus M config ctx d).1 = none := by
  have h1 : (handleOnConfirm M config ctx d).1 = none := by
    unfold handleOnConfirm
    cases M.ParseOnConfirm ctx.Body with
    | error err => rfl
    | ok payload =>
      dsimp only
      split_ifs <;> rfl
  have h2 : (handleOnStatus M config ctx d).1 = none := by
    unfold handleOnStatus
    split_ifs
    · rfl
    · cases M.ParseOnStatus ctx.Body with
      | error err => rfl
      | ok payload =>
        dsimp only
        split_ifs <;> rfl
  refine ⟨?_, h1, h2⟩
  unfold Run
  dsimp only
  split_ifs
  · rfl
  · rfl
  · exact h1
  · exact h2
  · rfl

/-! ### The pipeline step -/

theorem IsActionEnabled_iff (c : Config) (action : String) :
    c.IsActionEnabled action = true ↔ action ∈ c.Actions := by
  simp [Config.IsActionEnabled, List.any_eq_true]

theorem IsDiscomRole_iff (c : Config) :
    c.IsDiscomRole = true ↔ (c.Role = "BUYER_DISCOM" ∨ c.Role = "SELLER_DISCOM") := by
  simp [Config.IsDiscomRole]

/-- A dispatcher to which nothing is submitted. -/
theorem submit_nothing {PutReq RecReq : Type} (d : Dispatcher PutReq RecReq) :
    ({ d with
        wg := d.wg + (([] : List (Job PutReq RecReq)).length : Int)
        tasks := d.tasks ++ ([] : List (Job PutReq RecReq)).map
          (fun job => (job, TaskStatus.spawned)) } : Dispatcher PutReq RecReq) = d := by
  simp

/-- The dispatcher after `Run`: the jobs of `specSubmitted` have been
submitted, and nothing else has changed. -/
theorem Run_dispatcher {ConfirmPayload StatusPayload PutReq RecReq : Type}
    (M : Mapping ConfirmPayload StatusPayload PutReq RecReq) (config : Config)
    (ctx : StepContext) (d : Dispatcher PutReq RecReq) :
    (Run M config ctx d).2
      = { d with
          wg := d.wg + ((specSubmitted M config ctx).length : Int)
          tasks := d.tasks ++ (specSubmitted M config ctx).map
            (fun job => (job, TaskStatus.spawned)) } := by
  unfold Run specSubmitted
  dsimp only
  by_cases hen : config.Enabled = false
  · simp [hen]
  have hen' : config.Enabled = true := by simpa using hen
  by_cases hact : M.ExtractAction ctx.Path ctx.Body ∈ config.Actions
  swap
  · have : config.IsActionEnabled (M.ExtractAction ctx.Path ctx.Body) = false := by
      rw [← Bool.not_eq_true, IsActionEnabled_iff]; exact hact
    simp [hen', this, hact]
  have hact' : config.IsActionEnabled (M.ExtractAction ctx.Path ctx.Body) = true :=
    (IsActionEnabled_iff _ _).2 hact
  simp only [hen', Bool.not_true, Bool.false_eq_true, ↓reduceIte, hact', hact,
    not_true_eq_false, ActionOnConfirm, ActionOnStatus]
  by_cases hc : M.ExtractAction ctx.Path ctx.Body = "on_confirm"
  · simp only [hc, ↓reduceIte]
    unfold handleOnConfirm
    cases M.ParseOnConfirm ctx.Body with
    | error err => simp
    | ok payload =>
      dsimp only
      by_cases hlen : (M.MapToLedgerRecords payload config.Role).length = 0
      · have hnil : M.MapToLedgerRecords payload config.Role = [] := List.length_eq_zero.1 hlen
        simp [hnil]
      · rw [if_neg hlen, sendPutRecordsAsync_eq]
        simp
  · simp only [hc, ↓reduceIte]
    by_cases hs : M.ExtractAction ctx.Path ctx.Body = "on_status"
    · simp only [hs, ↓reduceIte]
      unfold handleOnStatus
      by_cases hrole : config.Role = "BUYER_DISCOM" ∨ config.Role = "SELLER_DISCOM"
      · have hd : config.IsDiscomRole = true := (IsDiscomRole_iff _).2 hrole
        simp only [hd, Bool.not_true, Bool.false_eq_true, ↓reduceIte, hrole]
        cases M.ParseOnStatus ctx.Body with
        | error err => simp
        | ok payload =>
          dsimp only
          by_cases hlen : (M.MapToLedgerRecordRequests payload config.Role).length = 0
          · have hnil : M.MapToLedgerRecordRequests payload config.Role = [] :=
              List.length_eq_zero.1 hlen
            simp [hnil]
          · rw [if_neg hlen, sendRecordActualsAsync_eq]
            simp
      · have hd : config.IsDiscomRole = false := by
          rw [← Bool.not_eq_true, IsDiscomRole_iff]; exact hrole
        simp [hd, hrole]
    · simp [hs]

/-- C16: `Run` submits only through the matching gate. The dispatcher after
`Run` is the one before it with the jobs of `specSubmitted` submitted: none
when `Enabled` is false or the extracted action is not in `Actions`; for
`on_confirm` only put records, by `sendPutRecordsAsync`; for `on_status` only
record-actuals requests, by `sendRecordActualsAsync`, and none unless the
role is `BUYER_DISCOM` or `SELLER_DISCOM`, so none for `BUYER` and `SELLER`;
and none when the mapped list is empty. -/
theorem Run_submits_through_gates {ConfirmPayload StatusPayload PutReq RecReq : Type}
    (M : Mapping ConfirmPayload StatusPayload PutReq RecReq) (config : Config)
    (ctx : StepContext) (d : Dispatcher PutReq RecReq) :
    (Run M config ctx d).2
        = { d with
            wg := d.wg + ((specSubmitted M config ctx).length : Int)
            tasks := d.tasks ++ (specSubmitted M config ctx).map
              (fun job => (job, TaskStatus.spawned)) }
      ∧ (config.Enabled = false → (Run M config ctx d).2 = d)
      ∧ (M.ExtractAction ctx.Path ctx.Body ∉ config.Actions → (Run M config ctx d).2 = d)
      ∧ (M.ExtractAction ctx.Path ctx.Body = "on_confirm" →
          ∃ records : List PutReq,
            specSubmitted M config ctx = records.map Job.put
              ∧ (Run M config ctx d).2 = sendPutRecordsAsync records d)
      ∧ (M.ExtractAction ctx.Path ctx.Body = "on_status" →
          ∃ records : List RecReq,
            specSubmitted M config ctx = records.map Job.actuals
              ∧ (Run M config ctx d).2 = sendRecordActualsAsync records d)
      ∧ (M.ExtractAction ctx.Path ctx.Body = "on_status" →
          ¬ (config.Role = "BUYER_DISCOM" ∨ config.Role = "SELLER_DISCOM") →
          (Run M config ctx d).2 = d)
      ∧ (M.ExtractAction ctx.Path ctx.Body = "on_status" →
          (config.Role = "BUYER" ∨ config.Role = "SELLER") → (Run M config ctx d).2 = d)
      ∧ (specSubmitted M config ctx = [] → (Run M config ctx d).2 = d) := by
  have hrun := Run_dispatcher M config ctx d
  have hnil : specSubmitted M config ctx = [] → (Run M config ctx d).2 = d := by
    intro h0
    rw [hrun, h0]
    exact submit_nothing d
  have hputs : ∀ records : List PutReq, specSubmitted M config ctx = records.map Job.put →
      (Run M config ctx d).2 = sendPutRecordsAsync records d := by
    intro records hrec
    rw [hrun, hrec, sendPutRecordsAsync_eq]
    simp
  have hacts : ∀ records : List RecReq, specSubmitted M config ctx = records.map Job.actuals →
      (Run M config ctx d).2 = sendRecordActualsAsync records d := by
    intro records hrec
    rw [hrun, hrec, sendRecordActualsAsync_eq]
    simp
  have hnotdiscom : M.ExtractAction ctx.Path ctx.Body = "on_status" →
      ¬ (config.Role = "BUYER_DISCOM" ∨ config.Role = "SELLER_DISCOM") →
      (Run M config ctx d).2 = d := by
    intro hs hrole
    apply hnil
    unfold specSubmitted
    have hne : ¬ ("on_status" = "on_confirm") := by decide
    simp only [hs, hne, hrole, ↓reduceIte, ite_self]
  refine ⟨hrun, ?_, ?_, ?_, ?_, hnotdiscom, ?_, hnil⟩
  · intro hen
    apply hnil
    simp [specSubmitted, hen]
  · intro hact
    apply hnil
    unfold specSubmitted
    simp only [hact, not_false_eq_true, ↓reduceIte, ite_self]
  · intro hc
    by_cases hgate : config.Enabled = false ∨ M.ExtractAction ctx.Path ctx.Body ∉ config.Actions
    · refine ⟨[], ?_, ?_⟩
      · unfold specSubmitted
        rcases hgate with hg | hg
        · simp only [hg, ↓reduceIte, List.map_nil]
        · simp only [hg, not_false_eq_true, ↓reduceIte, ite_self, List.map_nil]
      · have h0 : specSubmitted M config ctx = [] := by
          unfold specSubmitted
          rcases hgate with hg | hg
          · simp only [hg, ↓reduceIte]
          · simp only [hg, not_false_eq_true, ↓reduceIte, ite_self]
        rw [hnil h0]
        rfl
    · push_neg at hgate
      obtain ⟨g1, g2⟩ := hgate
      have hE : config.Enabled = true := by simpa using g1
      have hmem : "on_confirm" ∈ config.Actions := hc ▸ g2
      cases hp : M.ParseOnConfirm ctx.Body with
      | error err =>
        have h0 : specSubmitted M config ctx = [] := by
          simp [specSubmitted, hc, hE, hmem, hp]
        exact ⟨[], h0, by rw [hnil h0]; rfl⟩
      | ok payload =>
        have h0 : specSubmitted M config ctx
            = (M.MapToLedgerRecords payload config.Role).map Job.put := by
          simp [specSubmitted, hc, hE, hmem, hp]
        exact ⟨_, h0, hputs _ h0⟩
  · intro hs
    have hne : ¬ ("on_status" = "on_confirm") := by decide
    by_cases hgate : config.Enabled = false ∨ M.ExtractAction ctx.Path ctx.Body ∉ config.Actions
        ∨ ¬ (config.Role = "BUYER_DISCOM" ∨ config.Role = "SELLER_DISCOM")
    · have h0 : specSubmitted M config ctx = [] := by
        unfold specSubmitted
        rcases hgate with hg | hg | hg
        · simp only [hg, ↓reduceIte]
        · simp only [hg, not_false_eq_true, ↓reduceIte, ite_self]
        · simp only [hs, hne, hg, ↓reduceIte, ite_self]
      exact ⟨[], h0, by rw [hnil h0]; rfl⟩
    · push_neg at hgate
      obtain ⟨g1, g2, g3⟩ := hgate
      have hE : config.Enabled = true := by simpa using g1
      have hmem : "on_status" ∈ config.Actions := hs ▸ g2
      cases hp : M.ParseOnStatus ctx.Body with
      | error err =>
        have h0 : specSubmitted M config ctx = [] := by
          simp [specSubmitted, hs, hE, hmem, g3, hp]
        exact ⟨[], h0, by rw [hnil h0]; rfl⟩
      | ok payload =>
        have h0 : specSubmitted M config ctx
            = (M.MapToLedgerRecordRequests payload config.Role).map Job.actuals := by
          simp [specSubmitted, hs, hE, hmem, g3, hp]
        exact ⟨_, h0, hacts _ h0⟩
  · intro hs hrole
    apply hnotdiscom hs
    rintro (h1 | h1) <;> rcases hrole with h2 | h2 <;> rw [h1] at h2 <;> exact absurd h2 (by decide)

/-- C16, with the stand-in mapping layer: an `on_status` request under the
role `SELLER_DISCOM` submits record-actuals requests only, an `on_confirm`
request under a configuration without that action submits nothing. -/
theorem Run_submits_through_gates_witness :
    (Run exampleMapping discomConfig ⟨"/bpp/receiver/on_status", [7, 8]⟩
        (Dispatcher.init String String)).2
        = sendRecordActualsAsync ["SELLER_DISCOM/meter-7", "SELLER_DISCOM/meter-8"]
            (Dispatcher.init String String)
      ∧ (Run exampleMapping { discomConfig with Actions := ["on_status"] }
          ⟨"/bpp/receiver/on_confirm", [7, 8]⟩ (Dispatcher.init String String)).2
        = Dispatcher.init String String :=
  ⟨by decide,
    (Run_submits_through_gates exampleMapping { discomConfig with Actions := ["on_status"] }
      ⟨"/bpp/receiver/on_confirm", [7, 8]⟩ (Dispatcher.init String String)).2.2.1
      (by decide)⟩

/-! ### Configuration: the fields other than the signing fields -/

/-- The blocks that make up a successful run of the explicit part. -/
theorem parseExplicit_chain {cfg : StringMap} {c0 : Config} (h : parseExplicit cfg = .ok c0) :
    ∃ c1 c2 c3 c4 c5, parseLedgerHost cfg DefaultConfig = .ok c1 ∧ parseRole cfg c1 = .ok c2
      ∧ parseActions cfg c2 = .ok c3 ∧ parseAsyncTimeout cfg (parseEnabled cfg c3) = .ok c4
      ∧ parseRetryCount cfg c4 = .ok c5
      ∧ parseSignatureValidity cfg (parseSigningKeys cfg (parseAuthAndDebug cfg c5)) = .ok c0 := by
  unfold parseExplicit at h
  simp only [bind, Except.bind] at h
  split at h; · cases h
  rename_i c1 h1
  split at h; · cases h
  rename_i c2 h2
  split at h; · cases h
  rename_i c3 h3
  split at h; · cases h
  rename_i c4 h4
  split at h; · cases h
  rename_i c5 h5
  exact ⟨c1, c2, c3, c4, c5, h1, h2, h3, h4, h5, h⟩

/-- A successful `ParseConfig` is a successful explicit part followed by the
environment fallback, which passes the closing validation. -/
theorem ParseConfig_ok {cfg : StringMap} {env : Environ} {c : Config}
    (h : ParseConfig cfg env = .ok c) :
    ∃ c0, parseExplicit cfg = .ok c0 ∧ c = applyEnvFallback env c0
      ∧ validateSigning (applyEnvFallback env c0) = .ok c := by
  unfold ParseConfig at h
  split at h
  · cases h
  · rename_i c0 h0
    refine ⟨c0, h0, ?_, h⟩
    rw [validateSigning_eq] at h
    split_ifs at h <;> cases h <;> rfl

theorem parseLedgerHost_core {cfg : StringMap} {c c1 : Config}
    (h : parseLedgerHost cfg c = .ok c1) :
    c1.Role = c.Role ∧ c1.Actions = c.Actions ∧ c1.RetryCount = c.RetryCount
      ∧ c1.LedgerHost ≠ ""
      ∧ (c.LedgerHost = "" → c1.LedgerHost = cfgValue cfg "ledgerHost") := by
  unfold parseLedgerHost at h
  cases hl : lookupNonEmpty cfg "ledgerHost" with
  | none =>
    simp only [hl] at h
    split_ifs at h with he
    cases h
    exact ⟨rfl, rfl, rfl, he, fun h0 => absurd h0 he⟩
  | some host =>
    simp only [hl] at h
    split_ifs at h with he
    cases h
    exact ⟨rfl, rfl, rfl, he, fun _ => ((lookupNonEmpty_eq_some_iff _ _ _).1 hl).1.symm⟩

theorem parseLedgerHost_error {cfg : StringMap} (c : Config) (hc : c.LedgerHost = "")
    (h : cfgValue cfg "ledgerHost" = "") :
    parseLedgerHost cfg c = .error "ledgerHost is required" := by
  unfold parseLedgerHost
  rw [(lookupNonEmpty_eq_none_iff _ _).2 h]
  simp only [hc, ↓reduceIte]

theorem parseRole_core {cfg : StringMap} {c c1 : Config} (h : parseRole cfg c = .ok c1) :
    c1.LedgerHost = c.LedgerHost ∧ c1.Actions = c.Actions ∧ c1.RetryCount = c.RetryCount
      ∧ ((cfgValue cfg "role" = "" ∧ c1.Role = c.Role)
          ∨ (cfgValue cfg "role" ≠ "" ∧ isValidRole (cfgValue cfg "role") = true
              ∧ c1.Role = cfgValue cfg "role")) := by
  unfold parseRole at h
  cases hl : lookupNonEmpty cfg "role" with
  | none =>
    simp only [hl] at h
    cases h
    exact ⟨rfl, rfl, rfl, Or.inl ⟨(lookupNonEmpty_eq_none_iff _ _).1 hl, rfl⟩⟩
  | some role =>
    obtain ⟨e1, e2⟩ := (lookupNonEmpty_eq_some_iff _ _ _).1 hl
    simp only [hl] at h
    split_ifs at h with hv
    cases h
    refine ⟨rfl, rfl, rfl, Or.inr ⟨by rw [e1]; exact e2, ?_, e1.symm⟩⟩
    rw [e1]
    simpa using hv

theorem parseRole_error {cfg : StringMap} (c : Config) (h1 : cfgValue cfg "role" ≠ "")
    (h2 : isValidRole (cfgValue cfg "role") = false) :
    parseRole cfg c = .error ("invalid role: " ++ cfgValue cfg "role"
      ++ " (must be BUYER, SELLER, BUYER_DISCOM, or SELLER_DISCOM)") := by
  unfold parseRole
  rw [(lookupNonEmpty_eq_some_iff cfg "role" (cfgValue cfg "role")).2 ⟨rfl, h1⟩]
  simp only [h2, Bool.not_false, ↓reduceIte]

/-- The loop over the entries: the error for the first invalid entry, or the
entries appended to what was collected. -/
theorem parseActionList_eq :
    ∀ (l acc : List String),
      parseActionList l acc
        = match ((l.map TrimSpace).filter (fun a => decide (a ≠ ""))).find?
              (fun a => !(a == "on_confirm" || a == "on_status")) with
          | some bad => .error ("invalid action: " ++ bad ++ " (must be on_confirm or on_status)")
          | none => .ok (acc ++ (l.map TrimSpace).filter (fun a => decide (a ≠ "")))
  | [], acc => by simp [parseActionList]
  | a :: l, acc => by
    unfold parseActionList
    by_cases he : TrimSpace a = ""
    · simp only [he, ne_eq, not_true_eq_false, ↓reduceIte, List.map_cons, decide_False,
        Bool.false_eq_true, not_false_eq_true, List.filter_cons_of_neg]
      exact parseActionList_eq l acc
    · by_cases hv : isValidAction (TrimSpace a) = true
      · have hv' : (TrimSpace a == "on_confirm" || TrimSpace a == "on_status") = true := hv
        simp only [ne_eq, he, not_false_eq_true, ↓reduceIte, hv, Bool.not_true,
          Bool.false_eq_true, List.map_cons, decide_True, List.filter_cons_of_pos,
          List.find?_cons, hv']
        rw [parseActionList_eq l (acc ++ [TrimSpace a])]
        simp only [List.append_assoc, List.singleton_append]
      · have hv' : (TrimSpace a == "on_confirm" || TrimSpace a == "on_status") = false := by
          simpa [isValidAction, ActionOnConfirm, ActionOnStatus] using hv
        have hv2 : isValidAction (TrimSpace a) = false := by simpa using hv
        simp only [ne_eq, he, not_false_eq_true, ↓reduceIte, hv2, Bool.not_false,
          List.map_cons, decide_True, List.filter_cons_of_pos, List.find?_cons, hv']

/-- The `actions` block, case by case. -/
theorem parseActions_eq (cfg : StringMap) (config : Config) :
    parseActions cfg config
      = if cfgValue cfg "actions" = "" then .ok config
        else
          match specInvalidAction (cfgValue cfg "actions") with
          | some bad => .error ("invalid action: " ++ bad ++ " (must be on_confirm or on_status)")
          | none => .ok { config with Actions := specActions (cfgValue cfg "actions") } := by
  unfold parseActions
  cases hl : lookupNonEmpty cfg "actions" with
  | none =>
    rw [if_pos ((lookupNonEmpty_eq_none_iff _ _).1 hl)]
  | some actions =>
    obtain ⟨e1, e2⟩ := (lookupNonEmpty_eq_some_iff _ _ _).1 hl
    rw [e1, if_neg e2]
    simp only [parseActionList_eq, specInvalidAction, specActions, List.nil_append]
    generalize List.find? (fun a => !(a == "on_confirm" || a == "on_status"))
      (List.filter (fun a => decide (a ≠ "")) (List.map TrimSpace (SplitComma actions))) = r
    cases r <;> rfl

theorem parseActions_core {cfg : StringMap} {c c1 : Config} (h : parseActions cfg c = .ok c1) :
    c1.LedgerHost = c.LedgerHost ∧ c1.Role = c.Role ∧ c1.RetryCount = c.RetryCount
      ∧ ((cfgValue cfg "actions" = "" ∧ c1.Actions = c.Actions)
          ∨ (cfgValue cfg "actions" ≠ "" ∧ specInvalidAction (cfgValue cfg "actions") = none
              ∧ c1.Actions = specActions (cfgValue cfg "actions"))) := by
  rw [parseActions_eq] at h
  split_ifs at h with he
  · cases h
    exact ⟨rfl, rfl, rfl, Or.inl ⟨he, rfl⟩⟩
  · split at h
    · cases h
    · rename_i hnone
      cases h
      exact ⟨rfl, rfl, rfl, Or.inr ⟨he, hnone, rfl⟩⟩

theorem parseEnabled_core (cfg : StringMap) (c : Config) :
    (parseEnabled cfg c).LedgerHost = c.LedgerHost ∧ (parseEnabled cfg c).Role = c.Role
      ∧ (parseEnabled cfg c).Actions = c.Actions
      ∧ (parseEnabled cfg c).RetryCount = c.RetryCount := by
  unfold parseEnabled
  split <;> simp

theorem parseAsyncTimeout_core {cfg : StringMap} {c c1 : Config}
    (h : parseAsyncTimeout cfg c = .ok c1) :
    c1.LedgerHost = c.LedgerHost ∧ c1.Role = c.Role ∧ c1.Actions = c.Actions
      ∧ c1.RetryCount = c.RetryCount := by
  unfold parseAsyncTimeout at h
  split at h
  · split at h
    · cases h
    · cases h; simp
  · cases h; simp

theorem parseRetryCount_core {cfg : StringMap} {c c1 : Config}
    (h : parseRetryCount cfg c = .ok c1) :
    c1.LedgerHost = c.LedgerHost ∧ c1.Role = c.Role ∧ c1.Actions = c.Actions
      ∧ ((cfgValue cfg "retryCount" = "" ∧ c1.RetryCount = c.RetryCount)
          ∨ (cfgValue cfg "retryCount" ≠ ""
              ∧ Atoi (cfgValue cfg "retryCount") = some c1.RetryCount)) := by
  unfold parseRetryCount at h
  cases hl : lookupNonEmpty cfg "retryCount" with
  | none =>
    simp only [hl] at h
    cases h
    exact ⟨rfl, rfl, rfl, Or.inl ⟨(lookupNonEmpty_eq_none_iff _ _).1 hl, rfl⟩⟩
  | some retry =>
    obtain ⟨e1, e2⟩ := (lookupNonEmpty_eq_some_iff _ _ _).1 hl
    simp only [hl] at h
    split at h
    · cases h
    · rename_i count hat
      cases h
      exact ⟨rfl, rfl, rfl, Or.inr ⟨by rw [e1]; exact e2, by rw [e1]; exact hat⟩⟩

theorem parseAuthAndDebug_core (cfg : StringMap) (c : Config) :
    (parseAuthAndDebug cfg c).LedgerHost = c.LedgerHost
      ∧ (parseAuthAndDebug cfg c).Role = c.Role
      ∧ (parseAuthAndDebug cfg c).Actions = c.Actions
      ∧ (parseAuthAndDebug cfg c).RetryCount = c.RetryCount := by
  unfold parseAuthAndDebug
  split <;> split <;> split <;> simp

theorem parseSigningKeys_core (cfg : StringMap) (c : Config) :
    (parseSigningKeys cfg c).LedgerHost = c.LedgerHost
      ∧ (parseSigningKeys cfg c).Role = c.Role
      ∧ (parseSigningKeys cfg c).Actions = c.Actions
      ∧ (parseSigningKeys cfg c).RetryCount = c.RetryCount := by
  unfold parseSigningKeys
  cases lookupNonEmpty cfg "signingPrivateKey" <;>
    cases lookupNonEmpty cfg "subscriberId" <;>
    cases lookupNonEmpty cfg "networkParticipant" <;>
    cases lookupNonEmpty cfg "uniqueKeyId" <;>
    cases lookupNonEmpty cfg "keyId" <;> simp

theorem parseSignatureValidity_core {cfg : StringMap} {c c1 : Config}
    (h : parseSignatureValidity cfg c = .ok c1) :
    c1.LedgerHost = c.LedgerHost ∧ c1.Role = c.Role ∧ c1.Actions = c.Actions
      ∧ c1.RetryCount = c.RetryCount := by
  unfold parseSignatureValidity at h
  split at h
  · split at h
    · cases h
    · cases h; simp
  · cases h; simp

theorem applyEnvFallback_core (env : Environ) (c : Config) :
    (applyEnvFallback env c).LedgerHost = c.LedgerHost
      ∧ (applyEnvFallback env c).Role = c.Role
      ∧ (applyEnvFallback env c).Actions = c.Actions
      ∧ (applyEnvFallback env c).RetryCount = c.RetryCount
      ∧ (applyEnvFallback env c).APIKey = c.APIKey
      ∧ (applyEnvFallback env c).SignatureValiditySeconds = c.SignatureValiditySeconds := by
  unfold applyEnvFallback
  by_cases h1 : c.SigningPrivateKey = "" <;> by_cases h2 : env EnvSigningPrivateKey = "" <;>
    by_cases h3 : c.SubscriberID = "" <;> by_cases h4 : env EnvSubscriberID = "" <;>
    by_cases h5 : c.UniqueKeyID = "" <;> by_cases h6 : env EnvUniqueKeyID = "" <;>
    simp [h1, h2, h3, h4, h5, h6]

/-- The host, the role, the actions and the retry count of a configuration
`ParseConfig` returns. -/
theorem ParseConfig_core {cfg : StringMap} {env : Environ} {c : Config}
    (h : ParseConfig cfg env = .ok c) :
    (c.LedgerHost = cfgValue cfg "ledgerHost" ∧ c.LedgerHost ≠ "")
      ∧ ((cfgValue cfg "role" = "" ∧ c.Role = "BUYER")
          ∨ (cfgValue cfg "role" ≠ "" ∧ isValidRole (cfgValue cfg "role") = true
              ∧ c.Role = cfgValue cfg "role"))
      ∧ ((cfgValue cfg "actions" = "" ∧ c.Actions = ["on_confirm"])
          ∨ (cfgValue cfg "actions" ≠ "" ∧ specInvalidAction (cfgValue cfg "actions") = none
              ∧ c.Actions = specActions (cfgValue cfg "actions")))
      ∧ ((cfgValue cfg "retryCount" = "" ∧ c.RetryCount = 0)
          ∨ (cfgValue cfg "retryCount" ≠ ""
              ∧ Atoi (cfgValue cfg "retryCount") = some c.RetryCount)) := by
  obtain ⟨c0, h0, hc, -⟩ := ParseConfig_ok h
  obtain ⟨c1, c2, c3, c4, c5, h1, h2, h3, h4, h5, h6⟩ := parseExplicit_chain h0
  obtain ⟨a1, a2, a3, a4, a5⟩ := parseLedgerHost_core h1
  obtain ⟨b1, b2, b3, b4⟩ := parseRole_core h2
  obtain ⟨d1, d2, d3, d4⟩ := parseActions_core h3
  obtain ⟨e1, e2, e3, e4⟩ := parseEnabled_core cfg c3
  obtain ⟨f1, f2, f3, f4⟩ := parseAsyncTimeout_core h4
  obtain ⟨g1, g2, g3, g4⟩ := parseRetryCount_core h5
  obtain ⟨i1, i2, i3, i4⟩ := parseAuthAndDebug_core cfg c5
  obtain ⟨j1, j2, j3, j4⟩ := parseSigningKeys_core cfg (parseAuthAndDebug cfg c5)
  obtain ⟨k1, k2, k3, k4⟩ := parseSignatureValidity_core h6
  obtain ⟨l1, l2, l3, l4, -, -⟩ := applyEnvFallback_core env c0
  have hHost : c.LedgerHost = c1.LedgerHost := by
    rw [hc, l1, k1, j1, i1, g1, f1, e1, d1, b1]
  have hRole : c.Role = c2.Role := by
    rw [hc, l2, k2, j2, i2, g2, f2, e2, d2]
  have hAct : c.Actions = c3.Actions := by
    rw [hc, l3, k3, j3, i3, g3, f3, e3]
  have hRetry : c.RetryCount = c5.RetryCount := by
    rw [hc, l4, k4, j4, i4]
  refine ⟨⟨?_, ?_⟩, ?_, ?_, ?_⟩
  · rw [hHost]; exact a5 rfl
  · rw [hHost]; exact a4
  · rw [hRole]
    rcases b4 with ⟨r1, r2⟩ | ⟨r1, r2, r3⟩
    · exact Or.inl ⟨r1, by rw [r2, a1]; rfl⟩
    · exact Or.inr ⟨r1, r2, r3⟩
  · rw [hAct]
    rcases d4 with ⟨r1, r2⟩ | ⟨r1, r2, r3⟩
    · exact Or.inl ⟨r1, by rw [r2, b2, a2]; rfl⟩
    · exact Or.inr ⟨r1, r2, r3⟩
  · rw [hRetry]
    rcases g4 with ⟨r1, r2⟩ | ⟨r1, r2⟩
    · exact Or.inl ⟨r1, by rw [r2, f4, e4, d3, b3, a3]; rfl⟩
    · exact Or.inr ⟨r1, r2⟩

/-- An error of the explicit part is the error of `ParseConfig`. -/
theorem ParseConfig_of_parseExplicit_error {cfg : StringMap} (env : Environ) {msg : String}
    (h : parseExplicit cfg = .error msg) : ParseConfig cfg env = .error msg := by
  unfold ParseConfig
  rw [h]

theorem parseExplicit_error_host {cfg : StringMap} {msg : String}
    (h : parseLedgerHost cfg DefaultConfig = .error msg) : parseExplicit cfg = .error msg := by
  unfold parseExplicit
  simp only [bind, Except.bind, h]

theorem parseExplicit_error_role {cfg : StringMap} {c1 : Config} {msg : String}
    (h1 : parseLedgerHost cfg DefaultConfig = .ok c1) (h : parseRole cfg c1 = .error msg) :
    parseExplicit cfg = .error msg := by
  unfold parseExplicit
  simp only [bind, Except.bind, h1, h]

theorem parseExplicit_error_actions {cfg : StringMap} {c1 c2 : Config} {msg : String}
    (h1 : parseLedgerHost cfg DefaultConfig = .ok c1) (h2 : parseRole cfg c1 = .ok c2)
    (h : parseActions cfg c2 = .error msg) : parseExplicit cfg = .error msg := by
  unfold parseExplicit
  simp only [bind, Except.bind, h1, h2, h]

/-- A result is an error or a value. -/
theorem except_error_or_ok {ε α : Type} (r : Except ε α) :
    (∃ e, r = .error e) ∨ ∃ a, r = .ok a := by
  cases r with
  | error e => exact Or.inl ⟨e, rfl⟩
  | ok a => exact Or.inr ⟨a, rfl⟩

theorem cfgValue_eq_empty_iff (cfg : StringMap) (key : String) :
    cfgValue cfg key = "" ↔ (cfg key = none ∨ cfg key = some "") := by
  unfold cfgValue
  cases cfg key with
  | none => simp
  | some v => simp

theorem isValidRole_iff (role : String) :
    isValidRole role = true
      ↔ (role = "BUYER" ∨ role = "SELLER" ∨ role = "BUYER_DISCOM" ∨ role = "SELLER_DISCOM") := by
  simp [isValidRole, or_assoc]

theorem isValidAction_iff (action : String) :
    isValidAction action = true ↔ (action = "on_confirm" ∨ action = "on_status") := by
  simp [isValidAction, ActionOnConfirm, ActionOnStatus]

/-- C14, at the retry count `-1`: `ParseConfig` succeeds, and the
configuration it returns has `RetryCount` equal to -1, which is negative. -/
theorem ParseConfig_accepts_negative_retryCount :
    ParseConfig negativeRetryCfg emptyEnv = .ok { hostOnlyConfig with RetryCount := -1 }
      ∧ ¬ (0 ≤ ({ hostOnlyConfig with RetryCount := -1 } : Config).RetryCount) := by
  decide

/-- The retry count of a configuration `ParseConfig` returns is 0 when the
key `retryCount` is absent or empty, and otherwise the integer `strconv.Atoi`
reads from its value, whatever its sign; so it is not negative exactly when
the key is absent or empty or its value reads as a non-negative integer. -/
theorem ParseConfig_retryCount (cfg : StringMap) (env : Environ) (c : Config)
    (h : ParseConfig cfg env = .ok c) :
    ((cfgValue cfg "retryCount" = "" ∧ c.RetryCount = 0)
        ∨ (cfgValue cfg "retryCount" ≠ ""
            ∧ Atoi (cfgValue cfg "retryCount") = some c.RetryCount))
      ∧ (0 ≤ c.RetryCount ↔
          (cfgValue cfg "retryCount" = ""
            ∨ ∃ n : Int, 0 ≤ n ∧ Atoi (cfgValue cfg "retryCount") = some n)) := by
  obtain ⟨-, -, -, hr⟩ := ParseConfig_core h
  refine ⟨hr, ?_⟩
  rcases hr with ⟨r1, r2⟩ | ⟨r1, r2⟩
  · rw [r2]
    exact ⟨fun _ => Or.inl r1, fun _ => le_refl 0⟩
  · constructor
    · intro hpos
      exact Or.inr ⟨c.RetryCount, hpos, r2⟩
    · rintro (h0 | ⟨n, hn, hat⟩)
      · exact absurd h0 r1
      · rw [r2] at hat
        rw [Option.some.inj hat]
        exact hn

/-- The retry count read from the value `-1`. -/
theorem ParseConfig_retryCount_example :
    ParseConfig negativeRetryCfg emptyEnv = .ok { hostOnlyConfig with RetryCount := -1 }
      ∧ ((cfgValue negativeRetryCfg "retryCount" = ""
            ∧ ({ hostOnlyConfig with RetryCount := -1 } : Config).RetryCount = 0)
          ∨ (cfgValue negativeRetryCfg "retryCount" ≠ ""
              ∧ Atoi (cfgValue negativeRetryCfg "retryCount")
                  = some ({ hostOnlyConfig with RetryCount := -1 } : Config).RetryCount)) :=
  ⟨by decide,
    (ParseConfig_retryCount negativeRetryCfg emptyEnv { hostOnlyConfig with RetryCount := -1 }
      (by decide)).1⟩

/-- C15: the handling of the key `actions`. When the key is absent or empty
the block leaves the default `["on_confirm"]`; otherwise it fails exactly
when some trimmed non-empty comma-separated entry is neither `on_confirm` nor
`on_status` (with the error naming the first such entry), and else sets
`Actions` to the trimmed non-empty entries in their order. Hence a
configuration `ParseConfig` returns has these actions, each of them one of
the two supported ones, and `ParseConfig` fails when an entry is invalid. -/
theorem ParseConfig_actions (cfg : StringMap) (env : Environ) (config : Config) :
    parseActions cfg config
        = (if cfgValue cfg "actions" = "" then .ok config
          else
            match specInvalidAction (cfgValue cfg "actions") with
            | some bad =>
              .error ("invalid action: " ++ bad ++ " (must be on_confirm or on_status)")
            | none => .ok { config with Actions := specActions (cfgValue cfg "actions") })
      ∧ ((∃ msg, parseActions cfg config = .error msg)
          ↔ ∃ a ∈ specActions (cfgValue cfg "actions"), ¬ (a = "on_confirm" ∨ a = "on_status"))
      ∧ (∀ c, ParseConfig cfg env = .ok c →
          c.Actions = (if cfgValue cfg "actions" = "" then ["on_confirm"]
              else specActions (cfgValue cfg "actions"))
            ∧ ∀ a ∈ c.Actions, a = "on_confirm" ∨ a = "on_status")
      ∧ ((∃ a ∈ specActions (cfgValue cfg "actions"), ¬ (a = "on_confirm" ∨ a = "on_status"))
          → ∃ msg, ParseConfig cfg env = .error msg) := by
  have hfind_none : ∀ s, specInvalidAction s = none
      ↔ ∀ a ∈ specActions s, a = "on_confirm" ∨ a = "on_status" := by
    intro s
    simp only [specInvalidAction, List.find?_eq_none, Bool.not_eq_true', Bool.not_eq_false,
      Bool.or_eq_true, beq_iff_eq, Bool.not_not]
  have hempty : specActions "" = [] := by decide
  have hiff : (∃ msg, parseActions cfg config = .error msg)
      ↔ ∃ a ∈ specActions (cfgValue cfg "actions"), ¬ (a = "on_confirm" ∨ a = "on_status") := by
    rw [parseActions_eq]
    by_cases he : cfgValue cfg "actions" = ""
    · rw [if_pos he, he, hempty]
      simp
    · rw [if_neg he]
      cases hf : specInvalidAction (cfgValue cfg "actions") with
      | none =>
        have := (hfind_none _).1 hf
        constructor
        · rintro ⟨msg, hmsg⟩; cases hmsg
        · rintro ⟨a, ha, hna⟩; exact absurd (this a ha) hna
      | some bad =>
        constructor
        · intro _
          by_contra hcon
          push_neg at hcon
          have := (hfind_none _).2 hcon
          rw [hf] at this
          cases this
        · intro _
          exact ⟨_, rfl⟩
  have hok : ∀ c, ParseConfig cfg env = .ok c →
      c.Actions = (if cfgValue cfg "actions" = "" then ["on_confirm"]
          else specActions (cfgValue cfg "actions"))
        ∧ ∀ a ∈ c.Actions, a = "on_confirm" ∨ a = "on_status" := by
    intro c hc
    obtain ⟨-, -, ha, -⟩ := ParseConfig_core hc
    rcases ha with ⟨a1, a2⟩ | ⟨a1, a2, a3⟩
    · rw [if_pos a1, a2]
      refine ⟨rfl, ?_⟩
      intro a hmem
      simp only [List.mem_singleton] at hmem
      exact Or.inl hmem
    · rw [if_neg a1, a3]
      exact ⟨rfl, (hfind_none _).1 a2⟩
  refine ⟨parseActions_eq cfg config, hiff, hok, ?_⟩
  rintro ⟨a, ha, hna⟩
  rcases except_error_or_ok (ParseConfig cfg env) with hE | ⟨c, hc⟩
  · exact hE
  · exfalso
    obtain ⟨hact, hall⟩ := hok c hc
    have hne : cfgValue cfg "actions" ≠ "" := by
      intro he
      rw [he, hempty] at ha
      cases ha
    rw [if_neg hne] at hact
    rw [hact] at hall
    exact hna (hall a ha)

/-- C15, on a configuration whose `actions` value needs trimming, and on one
with an unsupported action. -/
theorem ParseConfig_actions_witness :
    ParseConfig discomCfg emptyEnv = .ok discomConfig
      ∧ specActions " on_status, ,on_confirm ," = ["on_status", "on_confirm"]
      ∧ (discomConfig.Actions = (if cfgValue discomCfg "actions" = "" then ["on_confirm"]
            else specActions (cfgValue discomCfg "actions"))
          ∧ ∀ a ∈ discomConfig.Actions, a = "on_confirm" ∨ a = "on_status")
      ∧ (∃ msg, ParseConfig invalidCfg emptyEnv = .error msg) :=
  ⟨by decide, by decide,
    (ParseConfig_actions discomCfg emptyEnv DefaultConfig).2.2.1 discomConfig (by decide),
    (ParseConfig_actions invalidCfg emptyEnv DefaultConfig).2.2.2
      ⟨"on_cancel", by decide, by decide⟩⟩

/-- C17: the handling of the key `role`. The block fails exactly when a
non-empty role outside `BUYER`, `SELLER`, `BUYER_DISCOM`, `SELLER_DISCOM`
(compared as written) is given. A configuration `ParseConfig` returns has one
of the four roles: `BUYER` when the key is absent or empty, the configured
value otherwise. With a non-empty role outside the four `ParseConfig` fails,
with the error naming the role once `ledgerHost` is set. -/
theorem ParseConfig_role (cfg : StringMap) (env : Environ) (config : Config) :
    ((∃ msg, parseRole cfg config = .error msg)
        ↔ (cfgValue cfg "role" ≠ ""
            ∧ ¬ (cfgValue cfg "role" = "BUYER" ∨ cfgValue cfg "role" = "SELLER"
                ∨ cfgValue cfg "role" = "BUYER_DISCOM" ∨ cfgValue cfg "role" = "SELLER_DISCOM")))
      ∧ (∀ c, ParseConfig cfg env = .ok c →
          (c.Role = "BUYER" ∨ c.Role = "SELLER" ∨ c.Role = "BUYER_DISCOM"
              ∨ c.Role = "SELLER_DISCOM")
            ∧ c.Role = (if cfgValue cfg "role" = "" then "BUYER" else cfgValue cfg "role"))
      ∧ (cfgValue cfg "role" ≠ ""
          → ¬ (cfgValue cfg "role" = "BUYER" ∨ cfgValue cfg "role" = "SELLER"
                ∨ cfgValue cfg "role" = "BUYER_DISCOM" ∨ cfgValue cfg "role" = "SELLER_DISCOM")
          → (∃ msg, ParseConfig cfg env = .error msg)
            ∧ (cfgValue cfg "ledgerHost" ≠ "" →
                ParseConfig cfg env
                  = .error ("invalid role: " ++ cfgValue cfg "role"
                      ++ " (must be BUYER, SELLER, BUYER_DISCOM, or SELLER_DISCOM)"))) := by
  have hok : ∀ c, ParseConfig cfg env = .ok c →
      (c.Role = "BUYER" ∨ c.Role = "SELLER" ∨ c.Role = "BUYER_DISCOM"
          ∨ c.Role = "SELLER_DISCOM")
        ∧ c.Role = (if cfgValue cfg "role" = "" then "BUYER" else cfgValue cfg "role") := by
    intro c hc
    obtain ⟨-, hr, -, -⟩ := ParseConfig_core hc
    rcases hr with ⟨r1, r2⟩ | ⟨r1, r2, r3⟩
    · rw [if_pos r1]
      exact ⟨Or.inl r2, r2⟩
    · rw [if_neg r1, r3]
      exact ⟨(isValidRole_iff _).1 r2, rfl⟩
  refine ⟨?_, hok, ?_⟩
  · constructor
    · rintro ⟨msg, hmsg⟩
      rcases except_error_or_ok (parseRole cfg config) with _ | ⟨c1, hc1⟩
      · by_contra hcon
        by_cases he : cfgValue cfg "role" = ""
        · unfold parseRole at hmsg
          rw [(lookupNonEmpty_eq_none_iff _ _).2 he] at hmsg
          cases hmsg
        · have hv : isValidRole (cfgValue cfg "role") = true := by
            rw [isValidRole_iff]
            by_contra hnv
            exact hcon ⟨he, hnv⟩
          unfold parseRole at hmsg
          rw [(lookupNonEmpty_eq_some_iff cfg "role" (cfgValue cfg "role")).2 ⟨rfl, he⟩] at hmsg
          simp only [hv, Bool.not_true, Bool.false_eq_true, ↓reduceIte] at hmsg
          cases hmsg
      · rw [hc1] at hmsg
        cases hmsg
    · rintro ⟨h1, h2⟩
      have hv : isValidRole (cfgValue cfg "role") = false := by
        rw [← Bool.not_eq_true, isValidRole_iff]
        exact h2
      exact ⟨_, parseRole_error config h1 hv⟩
  · intro h1 h2
    have hv : isValidRole (cfgValue cfg "role") = false := by
      rw [← Bool.not_eq_true, isValidRole_iff]
      exact h2
    constructor
    · rcases except_error_or_ok (ParseConfig cfg env) with hE | ⟨c, hc⟩
      · exact hE
      · exfalso
        obtain ⟨hfour, hrole⟩ := hok c hc
        rw [if_neg h1] at hrole
        rw [hrole] at hfour
        exact h2 hfour
    · intro hhost
      rcases except_error_or_ok (parseLedgerHost cfg DefaultConfig) with ⟨e, he⟩ | ⟨c1, hc1⟩
      · exfalso
        unfold parseLedgerHost at he
        rw [(lookupNonEmpty_eq_some_iff cfg "ledgerHost" (cfgValue cfg "ledgerHost")).2
          ⟨rfl, hhost⟩] at he
        simp only [hhost, ↓reduceIte] at he
        cases he
      · exact ParseConfig_of_parseExplicit_error env
          (parseExplicit_error_role hc1 (parseRole_error c1 h1 hv))

/-- C17, on a configuration with the role `SELLER_DISCOM` and on one with
the role `buyer` in lower case. -/
theorem ParseConfig_role_witness :
    ParseConfig discomCfg emptyEnv = .ok discomConfig
      ∧ (discomConfig.Role = "BUYER" ∨ discomConfig.Role = "SELLER"
          ∨ discomConfig.Role = "BUYER_DISCOM" ∨ discomConfig.Role = "SELLER_DISCOM")
      ∧ ParseConfig invalidCfg emptyEnv
          = .error ("invalid role: " ++ cfgValue invalidCfg "role"
              ++ " (must be BUYER, SELLER, BUYER_DISCOM, or SELLER_DISCOM)") :=
  ⟨by decide,
    ((ParseConfig_role discomCfg emptyEnv DefaultConfig).2.1 discomConfig (by decide)).1,
    ((ParseConfig_role invalidCfg emptyEnv DefaultConfig).2.2 (by decide) (by decide)).2
      (by decide)⟩

/-- C18: when the key `ledgerHost` is absent or empty `ParseConfig` fails with
the error `ledgerHost is required`, whatever the other keys and the
environment; and a configuration it returns has the configured, non-empty
host. -/
theorem ParseConfig_ledgerHost (cfg : StringMap) (env : Environ) :
    ((cfg "ledgerHost" = none ∨ cfg "ledgerHost" = some "")
        → ParseConfig cfg env = .error "ledgerHost is required")
      ∧ (∀ c, ParseConfig cfg env = .ok c →
          c.LedgerHost ≠ "" ∧ cfg "ledgerHost" = some c.LedgerHost) := by
  constructor
  · intro h
    have h0 := (cfgValue_eq_empty_iff cfg "ledgerHost").2 h
    exact ParseConfig_of_parseExplicit_error env
      (parseExplicit_error_host (parseLedgerHost_error DefaultConfig rfl h0))
  · intro c hc
    obtain ⟨⟨h1, h2⟩, -, -, -⟩ := ParseConfig_core hc
    refine ⟨h2, ?_⟩
    unfold cfgValue at h1
    cases hcfg : cfg "ledgerHost" with
    | none =>
      rw [hcfg] at h1
      exact absurd h1 h2
    | some v =>
      rw [hcfg] at h1
      simp only [Option.getD_some] at h1
      rw [h1]

/-- C18, on the empty configuration with a signing key in the environment,
and on a configuration with a host. -/
theorem ParseConfig_ledgerHost_witness :
    ParseConfig (fun _ => none) keyOnlyEnv = .error "ledgerHost is required"
      ∧ ParseConfig discomCfg emptyEnv = .ok discomConfig
      ∧ discomConfig.LedgerHost ≠ "" ∧ discomCfg "ledgerHost" = some discomConfig.LedgerHost :=
  ⟨(ParseConfig_ledgerHost (fun _ => none) keyOnlyEnv).1 (Or.inl rfl),
    by decide,
    (ParseConfig_ledgerHost discomCfg emptyEnv).2 discomConfig (by decide)⟩

/-! ### The signing fields and `New` -/

/-- The signing fields of a configuration that passes the closing validation
are all empty or all non-empty. -/
theorem validateSigning_ok {c c1 : Config} (h : validateSigning c = .ok c1) :
    c1 = c ∧ ((c.SigningPrivateKey = "" ∧ c.SubscriberID = "" ∧ c.UniqueKeyID = "")
      ∨ (c.SigningPrivateKey ≠ "" ∧ c.SubscriberID ≠ "" ∧ c.UniqueKeyID ≠ "")) := by
  rw [validateSigning_eq] at h
  split_ifs at h with h0 h1 h2 h3
  · cases h; exact ⟨rfl, Or.inl h0⟩
  · cases h; exact ⟨rfl, Or.inr ⟨h1, h2, h3⟩⟩

/-- C19: in a configuration `ParseConfig` returns the three signing fields are
all empty or all non-empty, so the condition under which `New` builds a
signer (all three non-empty) holds exactly when some signing field is set;
and `New` then either fails on the signer or returns a recorder with a
signer: a recorder without signer is returned only when all three fields are
empty. -/
theorem ParseConfig_signing_all_or_none (P : Primitives) (cfg : StringMap) (env : Environ)
    (c : Config) (h : ParseConfig cfg env = .ok c) :
    ((c.SigningPrivateKey = "" ∧ c.SubscriberID = "" ∧ c.UniqueKeyID = "")
        ∨ (c.SigningPrivateKey ≠ "" ∧ c.SubscriberID ≠ "" ∧ c.UniqueKeyID ≠ ""))
      ∧ ((c.SigningPrivateKey ≠ "" ∧ c.SubscriberID ≠ "" ∧ c.UniqueKeyID ≠ "")
          ↔ (c.SigningPrivateKey ≠ "" ∨ c.SubscriberID ≠ "" ∨ c.UniqueKeyID ≠ ""))
      ∧ (((c.SigningPrivateKey = "" ∧ c.SubscriberID = "" ∧ c.UniqueKeyID = "")
            ∧ ∃ out, New P cfg env = .ok ({ config := c, signer := none }, out))
          ∨ ((c.SigningPrivateKey ≠ "" ∧ c.SubscriberID ≠ "" ∧ c.UniqueKeyID ≠ "")
            ∧ ((∃ err, NewBecknSigner P c.SubscriberID c.UniqueKeyID c.SigningPrivateKey
                    c.SignatureValiditySeconds = .error err
                  ∧ New P cfg env = .error ("failed to create Beckn signer: " ++ err))
              ∨ ∃ s out, NewBecknSigner P c.SubscriberID c.UniqueKeyID c.SigningPrivateKey
                    c.SignatureValiditySeconds = .ok s
                  ∧ New P cfg env = .ok ({ config := c, signer := some s }, out)))) := by
  obtain ⟨c0, -, hc, hv⟩ := ParseConfig_ok h
  rw [← hc] at hv
  obtain ⟨-, hall⟩ := validateSigning_ok hv
  refine ⟨hall, ?_, ?_⟩
  · constructor
    · intro hh; exact Or.inl hh.1
    · intro hany
      rcases hall with ⟨a1, a2, a3⟩ | hfull
      · rcases hany with hh | hh | hh
        · exact absurd a1 hh
        · exact absurd a2 hh
        · exact absurd a3 hh
      · exact hfull
  · rcases hall with ⟨a1, a2, a3⟩ | hfull
    · refine Or.inl ⟨⟨a1, a2, a3⟩, ?_⟩
      unfold New
      rw [h]
      simp only [a1, ne_eq, not_true_eq_false, false_and, ↓reduceIte]
      split_ifs
      · exact ⟨_, rfl⟩
      · exact ⟨_, rfl⟩
    · refine Or.inr ⟨hfull, ?_⟩
      unfold New
      rw [h]
      simp only [hfull, ne_eq, not_false_eq_true, and_self, ↓reduceIte]
      cases hs : NewBecknSigner P c.SubscriberID c.UniqueKeyID c.SigningPrivateKey
          c.SignatureValiditySeconds with
      | error err => exact Or.inl ⟨err, rfl, rfl⟩
      | ok s => exact Or.inr ⟨s, _, rfl, rfl⟩

/-- C19, on a configuration with all three signing fields: `New` returns a
recorder with the signer. -/
theorem ParseConfig_signing_all_or_none_witness :
    ParseConfig signingCfg emptyEnv = .ok signingConfig
      ∧ ((signingConfig.SigningPrivateKey ≠ "" ∧ signingConfig.SubscriberID ≠ ""
            ∧ signingConfig.UniqueKeyID ≠ "")
          ↔ (signingConfig.SigningPrivateKey ≠ "" ∨ signingConfig.SubscriberID ≠ ""
            ∨ signingConfig.UniqueKeyID ≠ ""))
      ∧ New refPrimitives signingCfg emptyEnv
          = .ok ({ config := signingConfig, signer := some exampleSigner },
              ["[DEGLedgerRecorder] Beckn signing enabled (subscriber_id=bap.example.org, key_id=key-1, source=explicit config)",
               "[DEGLedgerRecorder] Enabled actions: [on_confirm], role: BUYER"]) :=
  ⟨by decide,
    (ParseConfig_signing_all_or_none refPrimitives signingCfg emptyEnv signingConfig
      (by decide)).2.1,
    by decide⟩

/-! ### Signer: no error and no panic -/

/-- C20: for a signer `NewBecknSigner` returns, every clock reading and every
payload, `GenerateAuthHeader` returns a header and no error: the stored seed
is 32 bytes long, so `sign` does not reach the panic of
`ed25519.NewKeyFromSeed` and returns the signature, and
`createSigningString` returns the signing string. -/
theorem GenerateAuthHeader_succeeds (P : Primitives) (sub uk key : String) (v : Int)
    (s : BecknSigner) (now : Time) (payload : Bytes)
    (h : NewBecknSigner P sub uk key v = .ok s) :
    s.signingPrivateKey.length = SeedSize
      ∧ (∃ signingString,
          createSigningString P s payload now.Unix (now.Add s.signatureValidity).Unix
              = .ok signingString
            ∧ sign P s (utf8Bytes signingString)
                = .ok (P.ed25519Sign s.signingPrivateKey (utf8Bytes signingString)))
      ∧ (∀ data, sign P s data = .ok (P.ed25519Sign s.signingPrivateKey data))
      ∧ ∃ header, GenerateAuthHeader P s now payload = .ok header := by
  obtain ⟨-, -, -, -, hlen, -, -, -⟩ := NewBecknSigner_ok h
  have hsign : ∀ data, sign P s data = .ok (P.ed25519Sign s.signingPrivateKey data) := by
    intro data
    simp [sign, hlen, SeedSize]
  exact ⟨hlen, ⟨_, rfl, hsign _⟩, hsign,
    ⟨_, GenerateAuthHeader_of_seed P s now payload hlen⟩⟩

/-- C20, at a concrete signer, clock reading and payload. -/
theorem GenerateAuthHeader_succeeds_witness :
    NewBecknSigner refPrimitives "bap.example.org" "key-1" zeroSeedB64 30 = .ok exampleSigner
      ∧ exampleSigner.signingPrivateKey.length = SeedSize
      ∧ ∃ header,
          GenerateAuthHeader refPrimitives exampleSigner ⟨1700000000123456789⟩ [104, 105]
            = .ok header :=
  ⟨by decide,
    (GenerateAuthHeader_succeeds refPrimitives "bap.example.org" "key-1" zeroSeedB64 30
      exampleSigner ⟨1700000000123456789⟩ [104, 105] (by decide)).1,
    (GenerateAuthHeader_succeeds refPrimitives "bap.example.org" "key-1" zeroSeedB64 30
      exampleSigner ⟨1700000000123456789⟩ [104, 105] (by decide)).2.2.2⟩

end DEGLedgerRecorder
